import Mathlib

/-!
# dfu-util (sgiessl branch): DFU state machine and session layer

A shallow embedding of `src/dfu_sm.c`, `src/dfu.c` and `src/usb_dfu.c`.

* C `int` / `enum dfu_state` values are `Int`; the file-scope variable
  `dfu_state` of `dfu_sm.c` is passed explicitly and returned when written.
* `enum DFU_SM_EVENT` is an inductive type with one constructor per enumerator
  (any other value of the C type would take the `default:` branches, like
  `DFU_EV_DETACH_TIMEOUT`).
* `unsigned int guardflags` is a `Nat`; the C test `guardflags & FLAG` is
  `flag_set guardflags FLAG`.
* The session layer runs on a `World`: the tracked state, the handle, the stream of
  replies of the USB library and the trace of calls made into it.
* Diagnostics written to stdout / stderr are not modelled.
-/

namespace Dfu

/-! ## usb_dfu.h : states -/

abbrev DFU_STATE_appIDLE : Int := 0
abbrev DFU_STATE_appDETACH : Int := 1
abbrev DFU_STATE_dfuIDLE : Int := 2
abbrev DFU_STATE_dfuDNLOAD_SYNC : Int := 3
abbrev DFU_STATE_dfuDNBUSY : Int := 4
abbrev DFU_STATE_dfuDNLOAD_IDLE : Int := 5
abbrev DFU_STATE_dfuMANIFEST_SYNC : Int := 6
abbrev DFU_STATE_dfuMANIFEST : Int := 7
abbrev DFU_STATE_dfuMANIFEST_WAIT_RESET : Int := 8
abbrev DFU_STATE_dfuUPLOAD_IDLE : Int := 9
abbrev DFU_STATE_dfuERROR : Int := 10
abbrev dfu_state_count : Int := 11

/-! ## dfu_sm.h : events and guard flags -/

/-- The enumeration `enum DFU_SM_EVENT` of `dfu_sm.h`. -/
inductive DFU_SM_EVENT
  | DFU_EV_DETACH
  | DFU_EV_DNLOAD
  | DFU_EV_UPLOAD
  | DFU_EV_GETSTATUS
  | DFU_EV_CLRSTATUS
  | DFU_EV_GETSTATE
  | DFU_EV_ABORT
  | DFU_EV_USB_RESET
  | DFU_EV_POWER_RESET
  | DFU_EV_STATUS_POLL_TIMEOUT
  | DFU_EV_DETACH_TIMEOUT
  | DFU_EV_INVALID_DFU_REQUEST
  deriving DecidableEq, Repr, Fintype

open DFU_SM_EVENT

abbrev DFU_GUARD_WLENGTH_GT_ZERO : Nat := 1
abbrev DFU_GUARD_UPLOAD_SHORT_FRAME : Nat := 1 <<< 1
abbrev DFU_GUARD_BLOCK_IN_PROGRESS : Nat := 1 <<< 2
abbrev DFU_GUARD_MANIFESTATION_IN_PROGRESS : Nat := 1 <<< 3
abbrev DFU_GUARD_BIT_CAN_DNLOAD : Nat := 1 <<< 4
abbrev DFU_GUARD_BIT_MANIFESTATION_TOLERANT : Nat := 1 <<< 5
abbrev DFU_GUARD_BIT_CAN_UPLOAD : Nat := 1 <<< 6
abbrev DFU_GUARD_DEV_DISAGREES_DNLOAD_END : Nat := 1 <<< 7
abbrev DFU_GUARD_DETACH_TIMER_ELAPSED : Nat := 1 <<< 8
abbrev DFU_GUARD_FIRMWARE_VALID : Nat := 1 <<< 9

/-- The C condition `guardflags & flag` (non-zero means true). -/
def flag_set (guardflags flag : Nat) : Bool :=
  guardflags &&& flag != 0

/-! ## dfu_sm.c -/

/-- The reset rows shared by all DFU-mode states:
`if (guardflags & DFU_GUARD_FIRMWARE_VALID) next = appIDLE; else next = dfuERROR;`
with `*event_exists = 1`. -/
def reset_case (guardflags : Nat) : Int × Int :=
  if flag_set guardflags DFU_GUARD_FIRMWARE_VALID then (DFU_STATE_appIDLE, 1)
  else (DFU_STATE_dfuERROR, 1)

/-- Inner `switch(event)` of `case DFU_STATE_appIDLE:` (A.2.1). The result is
`(next, *event_exists)`, which start as `(-1, 0)`. -/
def sm_appIDLE (dfu_state : Int) (event : DFU_SM_EVENT) : Int × Int :=
  match event with
  | DFU_EV_DETACH => (DFU_STATE_appDETACH, 1)
  | DFU_EV_GETSTATUS | DFU_EV_GETSTATE => (dfu_state, 1)
  | _ => (-1, 0)

/-- Inner `switch(event)` of `case DFU_STATE_appDETACH:` (A.2.2). -/
def sm_appDETACH (dfu_state : Int) (event : DFU_SM_EVENT) (guardflags : Nat) : Int × Int :=
  match event with
  | DFU_EV_GETSTATUS | DFU_EV_GETSTATE => (dfu_state, 1)
  | DFU_EV_POWER_RESET => (DFU_STATE_dfuIDLE, 1)
  | DFU_EV_USB_RESET =>
    if flag_set guardflags DFU_GUARD_DETACH_TIMER_ELAPSED then (DFU_STATE_appIDLE, 1)
    else (DFU_STATE_dfuIDLE, 1)
  | _ => (DFU_STATE_appIDLE, 1)

/-- Inner `switch(event)` of `case DFU_STATE_dfuIDLE:` (A.2.3). -/
def sm_dfuIDLE (event : DFU_SM_EVENT) (guardflags : Nat) : Int × Int :=
  match event with
  | DFU_EV_DNLOAD =>
    if flag_set guardflags DFU_GUARD_WLENGTH_GT_ZERO &&
        flag_set guardflags DFU_GUARD_BIT_CAN_DNLOAD then (DFU_STATE_dfuDNLOAD_SYNC, 1)
    else (DFU_STATE_dfuERROR, 1)
  | DFU_EV_UPLOAD =>
    if flag_set guardflags DFU_GUARD_BIT_CAN_UPLOAD then (DFU_STATE_dfuUPLOAD_IDLE, 1)
    else (DFU_STATE_dfuERROR, 1)
  | DFU_EV_ABORT | DFU_EV_GETSTATUS | DFU_EV_GETSTATE => (DFU_STATE_dfuIDLE, 1)
  | DFU_EV_POWER_RESET | DFU_EV_USB_RESET => reset_case guardflags
  | _ => (DFU_STATE_dfuERROR, 1)

/-- Inner `switch(event)` of `case DFU_STATE_dfuDNLOAD_SYNC:` (A.2.4). -/
def sm_dfuDNLOAD_SYNC (dfu_state : Int) (event : DFU_SM_EVENT) (guardflags : Nat) :
    Int × Int :=
  match event with
  | DFU_EV_GETSTATUS =>
    if flag_set guardflags DFU_GUARD_BLOCK_IN_PROGRESS then (DFU_STATE_dfuDNBUSY, 1)
    else (DFU_STATE_dfuDNLOAD_IDLE, 1)
  | DFU_EV_GETSTATE => (dfu_state, 1)
  | DFU_EV_ABORT => (DFU_STATE_dfuIDLE, 1)
  | DFU_EV_POWER_RESET | DFU_EV_USB_RESET => reset_case guardflags
  | _ => (DFU_STATE_dfuIDLE, 1)

/-- Inner `switch(event)` of `case DFU_STATE_dfuDNBUSY:` (A.2.5). -/
def sm_dfuDNBUSY (event : DFU_SM_EVENT) (guardflags : Nat) : Int × Int :=
  match event with
  | DFU_EV_STATUS_POLL_TIMEOUT => (DFU_STATE_dfuDNLOAD_SYNC, 1)
  | DFU_EV_POWER_RESET | DFU_EV_USB_RESET => reset_case guardflags
  | _ => (DFU_STATE_dfuERROR, 1)

/-- Inner `switch(event)` of `case DFU_STATE_dfuDNLOAD_IDLE:` (A.2.6). -/
def sm_dfuDNLOAD_IDLE (dfu_state : Int) (event : DFU_SM_EVENT) (guardflags : Nat) :
    Int × Int :=
  match event with
  | DFU_EV_DNLOAD =>
    if flag_set guardflags DFU_GUARD_WLENGTH_GT_ZERO then (DFU_STATE_dfuDNLOAD_SYNC, 1)
    else if flag_set guardflags DFU_GUARD_DEV_DISAGREES_DNLOAD_END then
      (DFU_STATE_dfuERROR, 1)
    else (DFU_STATE_dfuMANIFEST_SYNC, 1)
  | DFU_EV_ABORT => (DFU_STATE_dfuIDLE, 1)
  | DFU_EV_GETSTATUS | DFU_EV_GETSTATE => (dfu_state, 1)
  | DFU_EV_POWER_RESET | DFU_EV_USB_RESET => reset_case guardflags
  | _ => (DFU_STATE_dfuERROR, 1)

/-- Inner `switch(event)` of `case DFU_STATE_dfuMANIFEST_SYNC:` (A.2.7). -/
def sm_dfuMANIFEST_SYNC (dfu_state : Int) (event : DFU_SM_EVENT) (guardflags : Nat) :
    Int × Int :=
  match event with
  | DFU_EV_GETSTATUS =>
    if flag_set guardflags DFU_GUARD_MANIFESTATION_IN_PROGRESS then
      (DFU_STATE_dfuMANIFEST, 1)
    else if flag_set guardflags DFU_GUARD_BIT_MANIFESTATION_TOLERANT then
      (DFU_STATE_dfuIDLE, 1)
    else (DFU_STATE_dfuERROR, 1)
  | DFU_EV_GETSTATE => (dfu_state, 1)
  | DFU_EV_POWER_RESET | DFU_EV_USB_RESET => reset_case guardflags
  | DFU_EV_ABORT => (DFU_STATE_dfuIDLE, 1)
  | _ => (DFU_STATE_dfuERROR, 1)

/-- Inner `switch(event)` of `case DFU_STATE_dfuMANIFEST:` (A.2.8). -/
def sm_dfuMANIFEST (event : DFU_SM_EVENT) (guardflags : Nat) : Int × Int :=
  match event with
  | DFU_EV_STATUS_POLL_TIMEOUT =>
    if flag_set guardflags DFU_GUARD_BIT_MANIFESTATION_TOLERANT then
      (DFU_STATE_dfuMANIFEST_SYNC, 1)
    else (DFU_STATE_dfuMANIFEST_WAIT_RESET, 1)
  | DFU_EV_POWER_RESET | DFU_EV_USB_RESET => reset_case guardflags
  | _ => (DFU_STATE_dfuERROR, 1)

/-- Inner `switch(event)` of `case DFU_STATE_dfuMANIFEST_WAIT_RESET:` (A.2.9). The
default branch assigns `next` but leaves `*event_exists` at `0`. -/
def sm_dfuMANIFEST_WAIT_RESET (event : DFU_SM_EVENT) (guardflags : Nat) : Int × Int :=
  match event with
  | DFU_EV_POWER_RESET | DFU_EV_USB_RESET => reset_case guardflags
  | _ => (DFU_STATE_dfuMANIFEST_WAIT_RESET, 0)

/-- Inner `switch(event)` of `case DFU_STATE_dfuUPLOAD_IDLE:` (A.2.10). -/
def sm_dfuUPLOAD_IDLE (dfu_state : Int) (event : DFU_SM_EVENT) (guardflags : Nat) :
    Int × Int :=
  match event with
  | DFU_EV_UPLOAD =>
    if flag_set guardflags DFU_GUARD_WLENGTH_GT_ZERO &&
        !(flag_set guardflags DFU_GUARD_UPLOAD_SHORT_FRAME) then
      (DFU_STATE_dfuUPLOAD_IDLE, 1)
    else if flag_set guardflags DFU_GUARD_UPLOAD_SHORT_FRAME then (DFU_STATE_dfuIDLE, 1)
    else (DFU_STATE_dfuERROR, 1)
  | DFU_EV_ABORT => (DFU_STATE_dfuIDLE, 1)
  | DFU_EV_GETSTATUS | DFU_EV_GETSTATE => (dfu_state, 1)
  | DFU_EV_POWER_RESET | DFU_EV_USB_RESET => reset_case guardflags
  | _ => (DFU_STATE_dfuERROR, 1)

/-- Inner `switch(event)` of `case DFU_STATE_dfuERROR:` (A.2.11). -/
def sm_dfuERROR (dfu_state : Int) (event : DFU_SM_EVENT) (guardflags : Nat) : Int × Int :=
  match event with
  | DFU_EV_GETSTATUS | DFU_EV_GETSTATE => (dfu_state, 1)
  | DFU_EV_CLRSTATUS => (DFU_STATE_dfuIDLE, 1)
  | DFU_EV_POWER_RESET | DFU_EV_USB_RESET => reset_case guardflags
  | _ => (DFU_STATE_dfuERROR, 1)

/-- The function `_dfu_sm_get_next_state` of `dfu_sm.c`, reading the file-scope
`dfu_state`: the outer `switch(dfu_state)`, whose `default:` leaves
`(next, *event_exists) = (-1, 0)`. The result is `(returned value, *event_exists)`.
With `silent` false and `next == -1` the C code prints a message and returns `-1`;
otherwise it returns `next`. -/
def _dfu_sm_get_next_state (dfu_state : Int) (event : DFU_SM_EVENT) (guardflags : Nat)
    (silent : Bool) : Int × Int :=
  let r : Int × Int :=
    if dfu_state = DFU_STATE_appIDLE then sm_appIDLE dfu_state event
    else if dfu_state = DFU_STATE_appDETACH then sm_appDETACH dfu_state event guardflags
    else if dfu_state = DFU_STATE_dfuIDLE then sm_dfuIDLE event guardflags
    else if dfu_state = DFU_STATE_dfuDNLOAD_SYNC then
      sm_dfuDNLOAD_SYNC dfu_state event guardflags
    else if dfu_state = DFU_STATE_dfuDNBUSY then sm_dfuDNBUSY event guardflags
    else if dfu_state = DFU_STATE_dfuDNLOAD_IDLE then
      sm_dfuDNLOAD_IDLE dfu_state event guardflags
    else if dfu_state = DFU_STATE_dfuMANIFEST_SYNC then
      sm_dfuMANIFEST_SYNC dfu_state event guardflags
    else if dfu_state = DFU_STATE_dfuMANIFEST then sm_dfuMANIFEST event guardflags
    else if dfu_state = DFU_STATE_dfuMANIFEST_WAIT_RESET then
      sm_dfuMANIFEST_WAIT_RESET event guardflags
    else if dfu_state = DFU_STATE_dfuUPLOAD_IDLE then
      sm_dfuUPLOAD_IDLE dfu_state event guardflags
    else if dfu_state = DFU_STATE_dfuERROR then sm_dfuERROR dfu_state event guardflags
    else (-1, 0)
  if !silent && r.1 == -1 then (-1, r.2) else r

/-- The function `dfu_sm_get_next_state`: the next state, or `-1`. -/
def dfu_sm_get_next_state (dfu_state : Int) (event : DFU_SM_EVENT) (guardflags : Nat) : Int :=
  (_dfu_sm_get_next_state dfu_state event guardflags false).1

/-- The function `dfu_sm_state_has_event`: `res != 0` for the `event_exists`
output of `_dfu_sm_get_next_state(event, 0, &res, 1)`. -/
def dfu_sm_state_has_event (dfu_state : Int) (event : DFU_SM_EVENT) : Int :=
  if (_dfu_sm_get_next_state dfu_state event 0 true).2 != 0 then 1 else 0

/-- The C expression `1<<state` for a state number. -/
def state_bit (state : Int) : Nat := 1 <<< state.toNat

/-- The array `_sm_transitions` of `dfu_sm.c`: entry `s` is the bit mask of the
states that may follow state `s`. -/
def _sm_transitions : List Nat :=
  [ /- [DFU_STATE_appIDLE] -/
    state_bit DFU_STATE_appDETACH ||| state_bit DFU_STATE_appIDLE,
    /- [DFU_STATE_appDETACH] -/
    state_bit DFU_STATE_appIDLE ||| state_bit DFU_STATE_dfuIDLE |||
      state_bit DFU_STATE_appDETACH,
    /- [DFU_STATE_dfuIDLE] -/
    state_bit DFU_STATE_dfuIDLE ||| state_bit DFU_STATE_dfuDNLOAD_SYNC |||
      state_bit DFU_STATE_dfuUPLOAD_IDLE ||| state_bit DFU_STATE_dfuERROR,
    /- [DFU_STATE_dfuDNLOAD_SYNC] -/
    state_bit DFU_STATE_dfuDNLOAD_SYNC ||| state_bit DFU_STATE_dfuIDLE |||
      state_bit DFU_STATE_dfuDNLOAD_IDLE ||| state_bit DFU_STATE_dfuDNBUSY |||
      state_bit DFU_STATE_dfuERROR,
    /- [DFU_STATE_dfuDNBUSY] -/
    state_bit DFU_STATE_dfuDNLOAD_SYNC ||| state_bit DFU_STATE_dfuERROR,
    /- [DFU_STATE_dfuDNLOAD_IDLE] -/
    state_bit DFU_STATE_dfuDNLOAD_IDLE ||| state_bit DFU_STATE_dfuIDLE |||
      state_bit DFU_STATE_dfuDNLOAD_SYNC ||| state_bit DFU_STATE_dfuMANIFEST_SYNC |||
      state_bit DFU_STATE_dfuERROR,
    /- [DFU_STATE_dfuMANIFEST_SYNC] -/
    state_bit DFU_STATE_dfuMANIFEST_SYNC ||| state_bit DFU_STATE_dfuIDLE |||
      state_bit DFU_STATE_dfuMANIFEST ||| state_bit DFU_STATE_dfuERROR,
    /- [DFU_STATE_dfuMANIFEST] -/
    state_bit DFU_STATE_dfuMANIFEST_SYNC ||| state_bit DFU_STATE_dfuMANIFEST_WAIT_RESET |||
      state_bit DFU_STATE_dfuERROR,
    /- [DFU_STATE_dfuMANIFEST_WAIT_RESET] -/
    state_bit DFU_STATE_dfuERROR,
    /- [DFU_STATE_dfuUPLOAD_IDLE] -/
    state_bit DFU_STATE_dfuUPLOAD_IDLE ||| state_bit DFU_STATE_dfuIDLE |||
      state_bit DFU_STATE_dfuERROR,
    /- [DFU_STATE_dfuERROR] -/
    state_bit DFU_STATE_dfuIDLE ||| state_bit DFU_STATE_dfuERROR ]

/-- The function `dfu_sm_set_state_checked`: the result is
`(return value, dfu_state afterwards)`. The table is read at the current state;
the C code reads it only for a requested state inside `0 .. dfu_state_count - 1`
(short-circuit `&&`). A current state outside `0 .. 10` indexes past the array in
C; the model reads an empty mask for a state above 10 and the entry of state 0 for a
negative one. The theorems below take the current state in `0 .. 10`. -/
def dfu_sm_set_state_checked (dfu_state : Int) (state : Int) : Int × Int :=
  let valid : Bool :=
    decide (state ≥ 0) && decide (state < dfu_state_count) &&
      (_sm_transitions.getD dfu_state.toNat 0 &&& state_bit state != 0)
  if !valid then (-1, dfu_state) else (0, state)

/-- The function `dfu_sm_get_state`. -/
def dfu_sm_get_state (dfu_state : Int) : Int := dfu_state

/-- The function `dfu_sm_set_state_unchecked`: the new value of `dfu_state`. -/
def dfu_sm_set_state_unchecked (_dfu_state : Int) (state : Int) : Int := state

/-! ## usb_dfu.h : descriptor attribute bits and requests -/

abbrev USB_DFU_CAN_DOWNLOAD : Nat := 1 <<< 0
abbrev USB_DFU_CAN_UPLOAD : Nat := 1 <<< 1
abbrev USB_DFU_MANIFEST_TOL : Nat := 1 <<< 2
abbrev USB_DFU_WILL_DETACH : Nat := 1 <<< 3

abbrev USB_REQ_DFU_DETACH : Nat := 0x00
abbrev USB_REQ_DFU_DNLOAD : Nat := 0x01
abbrev USB_REQ_DFU_UPLOAD : Nat := 0x02
abbrev USB_REQ_DFU_GETSTATUS : Nat := 0x03
abbrev USB_REQ_DFU_CLRSTATUS : Nat := 0x04
abbrev USB_REQ_DFU_GETSTATE : Nat := 0x05
abbrev USB_REQ_DFU_ABORT : Nat := 0x06

/-- The struct `usb_dfu_func_descriptor` of `usb_dfu.h`. -/
structure usb_dfu_func_descriptor where
  bLength : Nat
  bDescriptorType : Nat
  bmAttributes : Nat
  wDetachTimeOut : Nat
  wTransferSize : Nat
  bcdDFUVersion : Nat

/-! ## dfu.h : status record and handle -/

/-- The struct `dfu_status` of `dfu.h`. -/
structure dfu_status where
  bStatus : Nat
  bwPollTimeout : Nat
  bState : Nat
  iString : Nat

/-- The struct `dfu_quirks` of `dfu_quirks.h`. -/
structure dfu_quirks where
  q1 : Nat

/-- The struct `dfu_handle` of `dfu.h`, without the opaque `device` pointer and
without the field `dfu_state`, which no function reads or writes (the state lives in
the file-scope variable of `dfu_sm.c`). `usb_timeout` is an `unsigned int`,
`transaction` an `unsigned short`. -/
structure dfu_handle where
  interface : Nat
  usb_timeout : Nat
  func_dfu : usb_dfu_func_descriptor
  transaction : Nat
  dfu_ver : Nat
  quirk_flags : dfu_quirks

/-! ## The USB library seen from the program

`usb_control_msg`, `usb_reset` and `usleep` are outside the repository. Each call is
appended to a trace; `usb_control_msg` and `usb_reset` take their result from a stream
of replies, which the device and the bus determine. -/

/-- One call of the program into the USB library or the sleep primitive. A control
transfer records direction (`dir_in` for `USB_ENDPOINT_IN`; type and recipient are
class and interface in every call), `bRequest`, `wValue`, `wIndex`, the bytes sent
(`none` for a `NULL` or receive buffer), `wLength` and the timeout. -/
inductive UsbCall
  | control_msg (dir_in : Bool) (bRequest : Nat) (wValue : Nat) (wIndex : Nat)
      (data : Option (List Nat)) (wLength : Nat) (timeout : Nat)
  | usb_reset
  | usleep (usec : Nat)

/-- What one library call gives back: its return value and, for a receiving
transfer, the bytes found in the buffer afterwards. -/
structure UsbReply where
  ret : Int
  buffer : Nat → Nat

/-- The state the session layer runs in: the file-scope `dfu_state` of `dfu_sm.c`,
the handle, the replies the USB library will give, and the calls made so far. -/
structure World where
  dfu_state : Int
  handle : dfu_handle
  usb : Nat → UsbReply
  trace : List UsbCall

/-- The reply the next `usb_control_msg` / `usb_reset` call receives. -/
def usb_reply (w : World) : UsbReply := w.usb 0

/-- The world after a call that consumed a reply. -/
def usb_issue (w : World) (c : UsbCall) : World :=
  { w with usb := fun n => w.usb (n + 1), trace := w.trace ++ [c] }

/-- Byte `i` of a `char` buffer, as the value `0 .. 255` stored there. -/
def buf_byte (buffer : Nat → Nat) (i : Nat) : Nat := buffer i % 256

/-- Conversion of a `char` to `int`, `char` being signed (gcc on x86). -/
def char_to_int (b : Nat) : Int := if b % 256 < 128 then (b % 256 : Nat) else (b % 256 : Nat) - 256

/-- The errno value `ENODEV` (Linux). -/
abbrev ENODEV : Int := 19

/-! ## usb_dfu.c : protocol handlers -/

/-- The handler `_usb_dfu10_detach`. -/
def _usb_dfu10_detach (w : World) (timeout : Nat) : Int × World :=
  let r := usb_reply w
  let w1 := usb_issue w (.control_msg false USB_REQ_DFU_DETACH timeout w.handle.interface
    none 0 w.handle.usb_timeout)
  if r.ret < 0 then (-1, w1) else (0, w1)

/-- The handler `_usb_dfu10_usb_reset`: `-ENODEV` is not an error. -/
def _usb_dfu10_usb_reset (w : World) : Int × World :=
  let ret := (usb_reply w).ret
  let w1 := usb_issue w .usb_reset
  if ret < 0 ∧ ret ≠ -ENODEV then (-1, w1) else (0, w1)

/-- The handler `_usb_dfu10_status_poll_timeout`: `usleep(poll_timeout*1000)` in
32-bit unsigned arithmetic. -/
def _usb_dfu10_status_poll_timeout (w : World) (poll_timeout : Nat) : Int × World :=
  (0, { w with trace := w.trace ++ [.usleep (poll_timeout * 1000 % 2 ^ 32)] })

/-- The handler `_usb_dfu10_download`. -/
def _usb_dfu10_download (w : World) (transaction : Nat) (length : Nat)
    (data : Option (List Nat)) : Int × World :=
  let ret := (usb_reply w).ret
  let w1 := usb_issue w (.control_msg false USB_REQ_DFU_DNLOAD transaction
    w.handle.interface (data.map (List.take length)) length w.handle.usb_timeout)
  if ret < 0 then (-1, w1) else (ret, w1)

/-- The handler `_usb_dfu10_upload`: the result carries the caller's buffer after the
transfer, whose first `ret` bytes are the received ones. -/
def _usb_dfu10_upload (w : World) (transaction : Nat) (length : Nat)
    (data : Nat → Nat) : Int × (Nat → Nat) × World :=
  let r := usb_reply w
  let w1 := usb_issue w (.control_msg true USB_REQ_DFU_UPLOAD transaction
    w.handle.interface none length w.handle.usb_timeout)
  let data1 : Nat → Nat := fun i => if (i : Int) < r.ret then buf_byte r.buffer i else data i
  if r.ret < 0 then (-1, data1, w1) else (r.ret, data1, w1)

/-- The handler `_usb_dfu10_get_status`: a transfer of exactly 6 bytes is decoded into
the status record, anything else fails and leaves the record as it was. -/
def _usb_dfu10_get_status (w : World) (status : dfu_status) : Int × dfu_status × World :=
  let r := usb_reply w
  let w1 := usb_issue w (.control_msg true USB_REQ_DFU_GETSTATUS 0 w.handle.interface
    none 6 w.handle.usb_timeout)
  if r.ret ≠ 6 then (-1, status, w1)
  else
    (0,
      { bStatus := buf_byte r.buffer 0,
        bwPollTimeout := ((0xff &&& buf_byte r.buffer 3) <<< 16) |||
          ((0xff &&& buf_byte r.buffer 2) <<< 8) ||| (0xff &&& buf_byte r.buffer 1),
        bState := buf_byte r.buffer 4,
        iString := buf_byte r.buffer 5 },
      w1)

/-- The handler `_usb_dfu10_clear_status`. -/
def _usb_dfu10_clear_status (w : World) : Int × World :=
  let r := usb_reply w
  let w1 := usb_issue w (.control_msg false USB_REQ_DFU_CLRSTATUS 0 w.handle.interface
    none 0 w.handle.usb_timeout)
  if r.ret < 0 then (-1, w1) else (0, w1)

/-- The handler `_usb_dfu10_get_state`: returns `buffer[0]`, a `char`. -/
def _usb_dfu10_get_state (w : World) : Int × World :=
  let r := usb_reply w
  let w1 := usb_issue w (.control_msg true USB_REQ_DFU_GETSTATE 0 w.handle.interface
    none 1 w.handle.usb_timeout)
  if r.ret < 0 then (-1, w1) else (char_to_int (r.buffer 0), w1)

/-- The handler `_usb_dfu10_abort`. -/
def _usb_dfu10_abort (w : World) : Int × World :=
  let r := usb_reply w
  let w1 := usb_issue w (.control_msg false USB_REQ_DFU_ABORT 0 w.handle.interface
    none 0 w.handle.usb_timeout)
  if r.ret < 0 then (-1, w1) else (0, w1)

/-! ## dfu.c : session layer -/

/-- The value `INVALID_DFU_TIMEOUT` (`-1`) as it compares with the `unsigned int`
field `usb_timeout`. -/
abbrev INVALID_DFU_TIMEOUT : Nat := 2 ^ 32 - 1

abbrev DFU_VERSION_1_0 : Nat := 0
abbrev DFU_VERSION_1_1 : Nat := 1

/-- The function `dfu_init`: it leaves the descriptor snapshot and the quirk set
alone. -/
def dfu_init (w : World) (usb_timeout : Int) : World :=
  { w with
    dfu_state := dfu_sm_set_state_unchecked w.dfu_state DFU_STATE_appIDLE
    handle :=
      { w.handle with
        interface := 0
        dfu_ver := DFU_VERSION_1_0
        transaction := 0
        usb_timeout := if usb_timeout > 0 then usb_timeout.toNat % 2 ^ 32
          else INVALID_DFU_TIMEOUT } }

/-- The function `_dfu_verify_init` (the handle pointer is never `NULL` here). -/
def _dfu_verify_init (w : World) : Int :=
  if INVALID_DFU_TIMEOUT = w.handle.usb_timeout then -1 else 0

/-- The call `dfu_sm_set_state_checked(handle, state)` on the world. -/
def commit_state (w : World) (state : Int) : Int × World :=
  ((dfu_sm_set_state_checked w.dfu_state state).1,
    { w with dfu_state := (dfu_sm_set_state_checked w.dfu_state state).2 })

/-- The post-increment `handle->transaction++` on an `unsigned short`. -/
def bump_transaction (w : World) : World :=
  { w with handle := { w.handle with transaction := (w.handle.transaction + 1) % 2 ^ 16 } }

/-- The local `guards` of `dfu_status_poll_timeout`:
`if (bmAttributes & USB_DFU_MANIFEST_TOL) guards |= DFU_GUARD_BIT_MANIFESTATION_TOLERANT`. -/
def status_poll_timeout_guards (w : World) : Nat :=
  let guards : Nat := 0
  let guards :=
    if w.handle.func_dfu.bmAttributes &&& USB_DFU_MANIFEST_TOL ≠ 0 then
      guards ||| DFU_GUARD_BIT_MANIFESTATION_TOLERANT
    else guards
  guards

/-- The local `guards` of `dfu_download`:
`if (length > 0) guards |= DFU_GUARD_WLENGTH_GT_ZERO;`
`if (bmAttributes & USB_DFU_CAN_DOWNLOAD) guards |= DFU_GUARD_BIT_CAN_DNLOAD`. -/
def download_guards (w : World) (length : Nat) : Nat :=
  let guards : Nat := 0
  let guards := if length > 0 then guards ||| DFU_GUARD_WLENGTH_GT_ZERO else guards
  let guards :=
    if w.handle.func_dfu.bmAttributes &&& USB_DFU_CAN_DOWNLOAD ≠ 0 then
      guards ||| DFU_GUARD_BIT_CAN_DNLOAD
    else guards
  guards

/-- The local `guards` of `dfu_upload`, computed after the transfer returned `ret`:
`if (bmAttributes & USB_DFU_CAN_UPLOAD) guards |= DFU_GUARD_BIT_CAN_UPLOAD;`
`if (length > 0) guards |= DFU_GUARD_WLENGTH_GT_ZERO;`
`if (ret < length) guards |= DFU_GUARD_UPLOAD_SHORT_FRAME`. -/
def upload_guards (w : World) (length : Nat) (ret : Int) : Nat :=
  let guards : Nat := 0
  let guards :=
    if w.handle.func_dfu.bmAttributes &&& USB_DFU_CAN_UPLOAD ≠ 0 then
      guards ||| DFU_GUARD_BIT_CAN_UPLOAD
    else guards
  let guards := if length > 0 then guards ||| DFU_GUARD_WLENGTH_GT_ZERO else guards
  let guards := if ret < length then guards ||| DFU_GUARD_UPLOAD_SHORT_FRAME else guards
  guards

/-- The function `dfu_get_state`. -/
def dfu_get_state (w : World) : Int × World :=
  if 0 ≠ _dfu_verify_init w then (-1, w)
  else
    let next_state := dfu_sm_get_next_state w.dfu_state DFU_EV_GETSTATE 0
    if next_state < 0 then (-1, w)
    else
      let h := _usb_dfu10_get_state w
      if h.1 < 0 then (-1, h.2)
      else
        let c := commit_state h.2 next_state
        if c.1 < 0 then (-1, c.2) else (h.1, c.2)

/-- The function `_dfu_state_verify`: skipped (success) when `GETSTATE` has no next
state; otherwise it asks the device through `dfu_get_state`. -/
def _dfu_state_verify (w : World) (expected_state : Int) : Int × World :=
  if dfu_sm_get_next_state w.dfu_state DFU_EV_GETSTATE 0 < 0 then (0, w)
  else
    let d := dfu_get_state w
    if d.1 ≠ expected_state then (-1, d.2) else (0, d.2)

/-- The function `dfu_detach`. -/
def dfu_detach (w : World) (timeout : Nat) : Int × World :=
  let next_state := dfu_sm_get_next_state w.dfu_state DFU_EV_DETACH 0
  if next_state < 0 then (-1, w)
  else
    let h := _usb_dfu10_detach w timeout
    if h.1 < 0 then (-1, h.2)
    else
      let v := _dfu_state_verify h.2 next_state
      if v.1 < 0 then (-1, v.2) else commit_state v.2 next_state

/-- The function `dfu_usb_reset`. -/
def dfu_usb_reset (w : World) : Int × World :=
  if 0 ≠ _dfu_verify_init w then (-1, w)
  else
    let next_state := dfu_sm_get_next_state w.dfu_state DFU_EV_USB_RESET 0
    if next_state < 0 then (-1, w)
    else
      let h := _usb_dfu10_usb_reset w
      if h.1 < 0 then (-1, h.2) else commit_state h.2 next_state

/-- The function `dfu_status_poll_timeout`. -/
def dfu_status_poll_timeout (w : World) (poll_timeout : Nat) : Int × World :=
  if 0 ≠ _dfu_verify_init w then (-1, w)
  else
    let guards := status_poll_timeout_guards w
    let next_state := dfu_sm_get_next_state w.dfu_state DFU_EV_STATUS_POLL_TIMEOUT guards
    if next_state < 0 then (-1, w)
    else
      let h := _usb_dfu10_status_poll_timeout w poll_timeout
      if h.1 < 0 then (-1, h.2) else commit_state h.2 next_state

/-- The function `dfu_download`; `data` is `none` for a `NULL` pointer, `length` an
`unsigned short`. -/
def dfu_download (w : World) (length : Nat) (data : Option (List Nat)) : Int × World :=
  if 0 ≠ _dfu_verify_init w then (-1, w)
  else if 0 ≠ length ∧ data = none then (-1, w)
  else if 0 = length ∧ data ≠ none then (-2, w)
  else
    let guards := download_guards w length
    let next_state := dfu_sm_get_next_state w.dfu_state DFU_EV_DNLOAD guards
    if next_state < 0 then (-1, w)
    else
      let h := _usb_dfu10_download (bump_transaction w) w.handle.transaction length data
      if h.1 < 0 then (-1, h.2)
      else
        let c := commit_state h.2 next_state
        if c.1 < 0 then (-1, c.2) else (h.1, c.2)

/-- The function `dfu_upload`; `data` is `none` for a `NULL` pointer, otherwise the
caller's buffer, returned as the transfer left it. -/
def dfu_upload (w : World) (length : Nat) (data : Option (Nat → Nat)) :
    Int × Option (Nat → Nat) × World :=
  if 0 ≠ _dfu_verify_init w then (-1, data, w)
  else
    match data with
    | none => (-1, data, w)
    | some buf =>
      if 0 = length then (-1, data, w)
      else if dfu_sm_state_has_event w.dfu_state DFU_EV_UPLOAD = 0 then (-1, data, w)
      else
        let h := _usb_dfu10_upload (bump_transaction w) w.handle.transaction length buf
        if h.1 < 0 then (-1, some h.2.1, h.2.2)
        else
          let w1 := h.2.2
          let guards := upload_guards w1 length h.1
          let next_state := dfu_sm_get_next_state w1.dfu_state DFU_EV_UPLOAD guards
          if next_state < 0 then (-1, some h.2.1, w1)
          else
            let v := _dfu_state_verify w1 next_state
            if v.1 < 0 then (-1, some h.2.1, v.2)
            else
              let c := commit_state v.2 next_state
              if c.1 < 0 then (-1, some h.2.1, c.2) else (h.1, some h.2.1, c.2)

/-- The function `dfu_get_status`: the state committed is the reported `bState`. -/
def dfu_get_status (w : World) (status : dfu_status) : Int × dfu_status × World :=
  if 0 ≠ _dfu_verify_init w then (-1, status, w)
  else if dfu_sm_state_has_event w.dfu_state DFU_EV_GETSTATUS = 0 then (-1, status, w)
  else
    let h := _usb_dfu10_get_status w status
    if h.1 < 0 then (-1, h.2.1, h.2.2)
    else
      let next_state : Int := h.2.1.bState
      let c := commit_state h.2.2 next_state
      (c.1, h.2.1, c.2)

/-- The function `dfu_clear_status`. -/
def dfu_clear_status (w : World) : Int × World :=
  if 0 ≠ _dfu_verify_init w then (-1, w)
  else
    let next_state := dfu_sm_get_next_state w.dfu_state DFU_EV_CLRSTATUS 0
    if next_state < 0 then (-1, w)
    else
      let h := _usb_dfu10_clear_status w
      if h.1 < 0 then (-1, h.2)
      else
        let v := _dfu_state_verify h.2 next_state
        if v.1 < 0 then (-1, v.2) else commit_state v.2 next_state

/-- The function `dfu_abort`. -/
def dfu_abort (w : World) : Int × World :=
  if 0 ≠ _dfu_verify_init w then (-1, w)
  else
    let next_state := dfu_sm_get_next_state w.dfu_state DFU_EV_ABORT 0
    if next_state < 0 then (-1, w)
    else
      let h := _usb_dfu10_abort w
      if h.1 < 0 then (-1, h.2)
      else
        let v := _dfu_state_verify h.2 next_state
        if v.1 < 0 then (-1, v.2) else commit_state v.2 next_state

/-! ## Notions used to state the properties -/

/-- Spec section 4.4, "Structural transition table T", written from the spec's list:
the destinations each source state may legally reach. -/
def spec_T (s : Int) : List Int :=
  if s = DFU_STATE_appIDLE then [DFU_STATE_appIDLE, DFU_STATE_appDETACH]
  else if s = DFU_STATE_appDETACH then
    [DFU_STATE_appIDLE, DFU_STATE_appDETACH, DFU_STATE_dfuIDLE]
  else if s = DFU_STATE_dfuIDLE then
    [DFU_STATE_dfuIDLE, DFU_STATE_dfuDNLOAD_SYNC, DFU_STATE_dfuUPLOAD_IDLE, DFU_STATE_dfuERROR]
  else if s = DFU_STATE_dfuDNLOAD_SYNC then
    [DFU_STATE_dfuDNLOAD_SYNC, DFU_STATE_dfuIDLE, DFU_STATE_dfuDNLOAD_IDLE,
      DFU_STATE_dfuDNBUSY, DFU_STATE_dfuERROR]
  else if s = DFU_STATE_dfuDNBUSY then [DFU_STATE_dfuDNLOAD_SYNC, DFU_STATE_dfuERROR]
  else if s = DFU_STATE_dfuDNLOAD_IDLE then
    [DFU_STATE_dfuDNLOAD_IDLE, DFU_STATE_dfuIDLE, DFU_STATE_dfuDNLOAD_SYNC,
      DFU_STATE_dfuMANIFEST_SYNC, DFU_STATE_dfuERROR]
  else if s = DFU_STATE_dfuMANIFEST_SYNC then
    [DFU_STATE_dfuMANIFEST_SYNC, DFU_STATE_dfuIDLE, DFU_STATE_dfuMANIFEST, DFU_STATE_dfuERROR]
  else if s = DFU_STATE_dfuMANIFEST then
    [DFU_STATE_dfuMANIFEST_SYNC, DFU_STATE_dfuMANIFEST_WAIT_RESET, DFU_STATE_dfuERROR]
  else if s = DFU_STATE_dfuMANIFEST_WAIT_RESET then [DFU_STATE_dfuERROR]
  else if s = DFU_STATE_dfuUPLOAD_IDLE then
    [DFU_STATE_dfuUPLOAD_IDLE, DFU_STATE_dfuIDLE, DFU_STATE_dfuERROR]
  else if s = DFU_STATE_dfuERROR then [DFU_STATE_dfuIDLE, DFU_STATE_dfuERROR]
  else []

/-- The ten flags of `enum dfu_event_guard_flags` (`dfu_sm.h`). -/
def dfu_event_guard_flags : List Nat :=
  [DFU_GUARD_WLENGTH_GT_ZERO, DFU_GUARD_UPLOAD_SHORT_FRAME, DFU_GUARD_BLOCK_IN_PROGRESS,
    DFU_GUARD_MANIFESTATION_IN_PROGRESS, DFU_GUARD_BIT_CAN_DNLOAD,
    DFU_GUARD_BIT_MANIFESTATION_TOLERANT, DFU_GUARD_BIT_CAN_UPLOAD,
    DFU_GUARD_DEV_DISAGREES_DNLOAD_END, DFU_GUARD_DETACH_TIMER_ELAPSED,
    DFU_GUARD_FIRMWARE_VALID]

/-- The guard set `g` contains, among the ten guard flags, exactly those listed in
`fs`. -/
def guards_are (g : Nat) (fs : List Nat) : Prop :=
  ∀ f ∈ dfu_event_guard_flags, (flag_set g f = true ↔ f ∈ fs)

instance (g : Nat) (fs : List Nat) : Decidable (guards_are g fs) := by
  unfold guards_are; infer_instance

/-- A reply stream that answers every request with `ret` and an all-zero buffer
holding `b` at index 0 and index 4. -/
def constant_replies (ret : Int) (b : Nat) : Nat → UsbReply :=
  fun _ => { ret := ret, buffer := fun i => if i = 0 ∨ i = 4 then b else 0 }

/-- A sample world: an initialised handle (timeout 5000 ms) of a device with the
given attribute bits, tracked state `s`, and the given reply stream. -/
def sample_world (s : Int) (bmAttributes : Nat) (usb : Nat → UsbReply) : World :=
  { dfu_state := s
    handle :=
      { interface := 0
        usb_timeout := 5000
        func_dfu :=
          { bLength := 9, bDescriptorType := 0x21, bmAttributes := bmAttributes,
            wDetachTimeOut := 0, wTransferSize := 64, bcdDFUVersion := 0x0100 }
        transaction := 0
        dfu_ver := DFU_VERSION_1_0
        quirk_flags := { q1 := 0 } }
    usb := usb
    trace := [] }


/-- The seven DFU class requests among the events (`dfu_sm.h`: "DFU 1.0 command
events"); the other five are pseudo-events. -/
def class_requests : List DFU_SM_EVENT :=
  [DFU_EV_DETACH, DFU_EV_DNLOAD, DFU_EV_UPLOAD, DFU_EV_GETSTATUS, DFU_EV_CLRSTATUS,
    DFU_EV_GETSTATE, DFU_EV_ABORT]

/-- One step of a client of the state machine: ask `dfu_sm_get_next_state` for the
event and its guards, then commit the answer with `dfu_sm_set_state_checked`. The
result is `none` when there is no transition or the commit is refused. -/
def sm_step (s : Int) (ev : DFU_SM_EVENT × Nat) : Option Int :=
  if dfu_sm_get_next_state s ev.1 ev.2 < 0 then none
  else if (dfu_sm_set_state_checked s (dfu_sm_get_next_state s ev.1 ev.2)).1 < 0 then none
  else some (dfu_sm_set_state_checked s (dfu_sm_get_next_state s ev.1 ev.2)).2

/-- The states visited by `sm_step` along a sequence of events, `none` as soon as one
step fails. -/
def sm_run : Int → List (DFU_SM_EVENT × Nat) → Option (List Int)
  | _, [] => some []
  | s, ev :: evs =>
    match sm_step s ev with
    | none => none
    | some s1 =>
      match sm_run s1 evs with
      | none => none
      | some l => some (s1 :: l)

/-- The polling of one block: `k` times `GETSTATUS{BLOCK_IN_PROGRESS}` then
`STATUS_POLL_TIMEOUT{}`, and a last `GETSTATUS{}`. -/
def block_polls : Nat → List (DFU_SM_EVENT × Nat)
  | 0 => [(DFU_EV_GETSTATUS, 0)]
  | k + 1 =>
    (DFU_EV_GETSTATUS, DFU_GUARD_BLOCK_IN_PROGRESS) :: (DFU_EV_STATUS_POLL_TIMEOUT, 0) ::
      block_polls k

/-- The events of the blocks of a happy-path download, block `i` with `ks[i]` busy
polls: `DNLOAD{WLENGTH_GT_ZERO, BIT_CAN_DNLOAD}` followed by the polling. -/
def happy_blocks : List Nat → List (DFU_SM_EVENT × Nat)
  | [] => []
  | k :: ks =>
    ((DFU_EV_DNLOAD, DFU_GUARD_WLENGTH_GT_ZERO ||| DFU_GUARD_BIT_CAN_DNLOAD) ::
      block_polls k) ++ happy_blocks ks

/-- The whole happy-path event sequence: the blocks, then `DNLOAD{}`. -/
def happy_path_events (ks : List Nat) : List (DFU_SM_EVENT × Nat) :=
  happy_blocks ks ++ [(DFU_EV_DNLOAD, 0)]

/-- The states the polling of one block is claimed to visit:
`(dfuDNBUSY, dfuDNLOAD_SYNC)` `k` times, then `dfuDNLOAD_IDLE`. -/
def block_poll_states : Nat → List Int
  | 0 => [DFU_STATE_dfuDNLOAD_IDLE]
  | k + 1 => DFU_STATE_dfuDNBUSY :: DFU_STATE_dfuDNLOAD_SYNC :: block_poll_states k

/-- The states the blocks are claimed to visit. -/
def happy_block_states : List Nat → List Int
  | [] => []
  | k :: ks => (DFU_STATE_dfuDNLOAD_SYNC :: block_poll_states k) ++ happy_block_states ks

/-- The states the happy path is claimed to visit, ending in `dfuMANIFEST_SYNC`. -/
def happy_path_states (ks : List Nat) : List Int :=
  happy_block_states ks ++ [DFU_STATE_dfuMANIFEST_SYNC]

/-- A handle as `dfu_init` leaves it when called with timeout 0: `usb_timeout` holds the
sentinel and the tracked state is `appIDLE`; every USB request would be answered
with 0. -/
def uninitialized_world : World :=
  dfu_init (sample_world DFU_STATE_dfuERROR 0 (constant_replies 0 0)) 0

/-- An all-zero status record. -/
def zero_status : dfu_status := { bStatus := 0, bwPollTimeout := 0, bState := 0, iString := 0 }

/-! ## crc32.h : the CRC of the file suffix

`crc32.c` is not among the sources; `crc32.h` declares
`uint32_t crc32_init(void)` and `uint32_t crc32_byte(uint32_t accum, uint8_t delta)`. -/

/-- One polynomial reduction of the reflected CRC-32 (polynomial `0xEDB88320`). -/
def crc32_reduce (accum : Nat) : Nat :=
  if accum % 2 = 1 then (accum >>> 1) ^^^ 0xEDB88320 else accum >>> 1

/-- Modelled from the spec: the function `crc32_init` of the absent `crc32.c`; spec
section 4.1: "initial register = 0xFFFFFFFF". -/
def crc32_init : Nat := 0xFFFFFFFF

/-- Modelled from the spec: the function `crc32_byte` of the absent `crc32.c`; spec
section 4.1: "update-byte reflects each input byte into the low byte of the register
and applies eight polynomial reductions; no final inversion is applied". The arguments
are a `uint32_t` and a `uint8_t`. -/
def crc32_byte (accum delta : Nat) : Nat :=
  crc32_reduce^[8] ((accum % 2 ^ 32) ^^^ (delta % 256))

/-- The loop `for (i = 0; i < n; i++) crc = crc32_byte(crc, buf[start + i])`. -/
def crc32_feed (crc : Nat) (buf : Nat → Nat) (start : Nat) : Nat → Nat
  | 0 => crc
  | n + 1 => crc32_byte (crc32_feed crc buf start n) (buf (start + n))

/-! ## Files seen from the program

`open`, `creat`, `fstat`, `read` and `write` are outside the repository. A run sees
one file: its bytes, the results of `open` / `creat` and `fstat`, and for each `read`
and `write` call what the operating system decides. -/

/-- The file of one run and the operating system's answers. `reads k` and `writes k`
steer the `k`-th `read` / `write` call: a negative value is an error return; otherwise
it is the number of bytes the system is ready to transfer, of which at least one and
at most the requested count are transferred while bytes remain. -/
structure FileSys where
  fd : Int
  fstat_ret : Int
  content : List Nat
  reads : Nat → Int
  writes : Nat → Int

/-- Byte `i` of a file. -/
def byte_at (content : List Nat) (i : Nat) : Nat := content.getD i 0 % 256

/-- The return value of `read(fd, buf, count)` at file offset `pos`. -/
def sys_read (content : List Nat) (pos count : Nat) (want : Int) : Int :=
  if want < 0 then want
  else (min (max want.toNat 1) (min count (content.length - pos)) : Nat)

/-- The buffer after a `read` that returned `ret` at file offset `pos`: its first `ret`
bytes are the file's, the rest is as before. -/
def read_into (content : List Nat) (pos : Nat) (ret : Int) (buf : Nat → Nat) : Nat → Nat :=
  fun i => if (i : Int) < ret then byte_at content (pos + i) else buf i

/-- The return value of `write(fd, buf, count)`. -/
def sys_write (count : Nat) (want : Int) : Int :=
  if want < 0 then want else (min (max want.toNat 1) count : Nat)

/-- The file after a `write` that returned `ret` appended bytes of `buf`. -/
def write_from (content : List Nat) (ret : Int) (buf : Nat → Nat) : List Nat :=
  content ++ (List.range ret.toNat).map (fun i => buf i % 256)

/-- The call `memcpy(dst + off, src, n)` on byte arrays. -/
def memcpy (dst : Nat → Nat) (off : Nat) (src : Nat → Nat) (n : Nat) : Nat → Nat :=
  fun i => if off ≤ i ∧ i < off + n then src (i - off) else dst i

/-- The value of four bytes at `off`, least significant first. -/
def le32 (m : Nat → Nat) (off : Nat) : Nat :=
  m off % 256 + 256 * (m (off + 1) % 256) + 65536 * (m (off + 2) % 256) +
    16777216 * (m (off + 3) % 256)

abbrev DFU_FILE_SUFFIX_SIZE : Nat := 16

/-! ## sam7dfu.c : dfu_file_suffix_check -/

/-- The variables of the read loop of `dfu_file_suffix_check`; `calls` counts the
`read` calls made. -/
structure check_state where
  bytes_read : Nat
  calculated_crc : Nat
  suffix_tmp : Nat → Nat
  buf : Nat → Nat
  calls : Nat

/-- The body of the read loop of `dfu_file_suffix_check` after a `read` that returned
`ret > 0` into `buf`: the CRC takes the bytes that lie before the last four of the
file, and the bytes that lie in the last sixteen are copied into `suffix_tmp`.
`bytes_read` and `dfu_suffix_offset` are `int` in the source and natural numbers here:
the two agree while `st_size < 2^31`, the bound the theorems on the decoder carry. -/
def suffix_check_step (st_size : Nat) (s : check_state) (ret : Nat) (buf : Nat → Nat) :
    check_state :=
  let dfu_suffix_offset := st_size - DFU_FILE_SUFFIX_SIZE
  { bytes_read := s.bytes_read + ret
    calculated_crc :=
      crc32_feed s.calculated_crc buf 0 (max 0 (min ret (st_size - 4 - s.bytes_read)))
    suffix_tmp :=
      if s.bytes_read ≥ dfu_suffix_offset then
        memcpy s.suffix_tmp (s.bytes_read - dfu_suffix_offset) buf ret
      else if s.bytes_read + ret > st_size - DFU_FILE_SUFFIX_SIZE then
        memcpy s.suffix_tmp 0
          (fun i => buf (ret - (s.bytes_read + ret - (st_size - DFU_FILE_SUFFIX_SIZE)) + i))
          (s.bytes_read + ret - (st_size - DFU_FILE_SUFFIX_SIZE))
      else s.suffix_tmp
    buf := buf
    calls := s.calls + 1 }

/-- The read loop of `dfu_file_suffix_check`,
`while ((st.st_size-bytes_read) > 0 && (ret = read(fd, buf, MIN(3, st.st_size-bytes_read))) != 0)`.
The result is `none` when the fuel runs out, otherwise the final variables and whether
the loop was left through `goto out_error` (a failed `read`). The counter `bytes_read`
stays within `int` while `st_size < 2^31`. -/
def suffix_check_loop (fs : FileSys) (st_size : Nat) : Nat → check_state →
    Option (Bool × check_state)
  | 0, _ => none
  | fuel + 1, s =>
    if st_size - s.bytes_read > 0 then
      let ret := sys_read fs.content s.bytes_read (min 3 (st_size - s.bytes_read))
        (fs.reads s.calls)
      if ret ≠ 0 then
        if ret < 0 then some (true, { s with calls := s.calls + 1 })
        else
          suffix_check_loop fs st_size fuel
            (suffix_check_step st_size s ret.toNat
              (read_into fs.content s.bytes_read ret s.buf))
      else some (false, { s with calls := s.calls + 1 })
    else some (false, s)

/-- What `dfu_file_suffix_check` hands back: its return value (1 when the computed CRC
equals the stored one, else 0), the first twelve bytes of `*suffix`, the field
`suffix->dwCRC` and `*calculated_crc`. -/
structure suffix_check_result where
  ret : Int
  suffix : Nat → Nat
  dwCRC : Nat
  calculated_crc : Nat

/-- The function `dfu_file_suffix_check` of `sam7dfu.c`. `suffix`, `dwCRC` and
`calculated_crc` are the caller's values, `suffix_tmp` and `buf` the uninitialised
locals. `st_size` is the length of the file. The result is `none` only if the loop
fuel, one more than the file size, runs out. -/
def dfu_file_suffix_check (fs : FileSys) (suffix : Nat → Nat) (dwCRC calculated_crc : Nat)
    (suffix_tmp buf : Nat → Nat) : Option suffix_check_result :=
  let out_error (crc : Nat) : Option suffix_check_result :=
    some { ret := 0, suffix := suffix, dwCRC := dwCRC, calculated_crc := crc }
  let st_size := fs.content.length
  if fs.fd < 0 then out_error calculated_crc
  else if fs.fstat_ret < 0 then out_error calculated_crc
  else if st_size ≤ 0 then out_error calculated_crc
  else if st_size ≤ DFU_FILE_SUFFIX_SIZE then out_error calculated_crc
  else
    match suffix_check_loop fs st_size (st_size + 1)
        { bytes_read := 0, calculated_crc := crc32_init, suffix_tmp := suffix_tmp,
          buf := buf, calls := 0 } with
    | none => none
    | some (true, s) => out_error s.calculated_crc
    | some (false, s) =>
      some
        { ret := if s.calculated_crc = le32 s.suffix_tmp 12 then 1 else 0
          suffix := s.suffix_tmp
          dwCRC := le32 s.suffix_tmp 12
          calculated_crc := s.calculated_crc }

/-! ## dfu_suffix.c : add_file_suffix -/

/-- The memory of the local `struct dfu_file_suffix suffix` of `add_file_suffix` (and of
`sam7dfu_do_upload`) after `bcdDFU`, `ucDfuSignature` and `bLength` are assigned:
`bcdDevice`, `idProduct`, `idVendor` (bytes 0..5) and `dwCRC` (bytes 12..15) still
hold what the stack held, `uninit`. -/
def suffix_image (uninit : Nat → Nat) : Nat → Nat :=
  fun i =>
    if i = 6 then 0x00
    else if i = 7 then 0x01
    else if i = 8 then 0x55
    else if i = 9 then 0x46
    else if i = 10 then 0x44
    else if i = 11 then DFU_FILE_SUFFIX_SIZE
    else uninit i % 256

/-- The suffix memory after `suffix.dwCRC = cpu_to_le32(crc)`. -/
def suffix_with_crc (image : Nat → Nat) (crc : Nat) : Nat → Nat :=
  fun i =>
    if i = 12 then crc % 256
    else if i = 13 then crc / 256 % 256
    else if i = 14 then crc / 65536 % 256
    else if i = 15 then crc / 16777216 % 256
    else image i

/-- The read loop of `add_file_suffix`,
`while (1) { len = read(fd, buf, 2048); if (len == 0) break; for (...) crc = ...; }`:
the CRC when the loop ends, `none` when the fuel runs out. A failed `read` leaves the
loop running. -/
def add_file_suffix_loop (fs : FileSys) : Nat → Nat → Nat → Nat → (Nat → Nat) → Option Nat
  | 0, _, _, _, _ => none
  | fuel + 1, pos, calls, crc, buf =>
    let len := sys_read fs.content pos 2048 (fs.reads calls)
    if len = 0 then some crc
    else
      add_file_suffix_loop fs fuel (pos + len.toNat) (calls + 1)
        (crc32_feed crc (read_into fs.content pos len buf) 0 len.toNat)
        (read_into fs.content pos len buf)

/-- The function `add_file_suffix` of `dfu_suffix.c`: the return value and the file
afterwards. `uninit` is the stack memory under the local `suffix`, `buf` the one under
the local `buf`. The twelve bytes fed to the CRC after `memcpy(buf, &suffix, 16)` are
read from the suffix itself. The result is `none` when the loop fuel runs out. -/
def add_file_suffix (fs : FileSys) (uninit buf : Nat → Nat) (fuel : Nat) :
    Option (Int × List Nat) :=
  if fs.fd < 0 then some (-1, fs.content)
  else
    match add_file_suffix_loop fs fuel 0 0 crc32_init buf with
    | none => none
    | some crc =>
      let image := suffix_image uninit
      let crc := crc32_feed crc image 0 (DFU_FILE_SUFFIX_SIZE - 4)
      let suffix := suffix_with_crc image crc
      let ret := sys_write DFU_FILE_SUFFIX_SIZE (fs.writes 0)
      some (0, write_from fs.content ret suffix)

/-! ## sam7dfu.c : sam7dfu_do_upload -/

abbrev DFU_STATUS_OK : Nat := 0x00

/-- The errno value `ENOMEM` (Linux). -/
abbrev ENOMEM : Int := 12

/-- The variables of `sam7dfu_do_upload` inside its loop: the session world, the file
written so far, the number of `write` calls made, `total_bytes`, `crc`, the heap
buffer `buf` and the status record `dst`. -/
structure upload_vars where
  w : World
  content : List Nat
  wcalls : Nat
  total_bytes : Int
  crc : Nat
  buf : Nat → Nat
  dst : dfu_status

/-- The `while (1)` loop of `sam7dfu_do_upload`. The result is `none` when the fuel runs
out; otherwise the final variables, with `some ret` when the loop was left through
`goto out_close` carrying `ret`, and `none` when it was left through `break` (a block
shorter than `xfer_size`). `dfu_upload` takes the length as an `unsigned short`. -/
def sam7dfu_do_upload_loop (fs : FileSys) (xfer_size : Nat) :
    Nat → upload_vars → Option (Option Int × upload_vars)
  | 0, _ => none
  | fuel + 1, v =>
    let gs := dfu_get_status v.w v.dst
    if gs.1 < 0 then some (some gs.1, { v with w := gs.2.2, dst := gs.2.1 })
    else if gs.2.1.bStatus ≠ DFU_STATUS_OK then
      some (some gs.1, { v with w := gs.2.2, dst := gs.2.1 })
    else
      let up := dfu_upload gs.2.2 (xfer_size % 2 ^ 16) (some v.buf)
      let buf1 := up.2.1.getD v.buf
      if up.1 < 0 then
        some (some up.1, { v with w := up.2.2, dst := gs.2.1, buf := buf1 })
      else
        let write_rc := sys_write up.1.toNat (fs.writes v.wcalls)
        let content1 := write_from v.content write_rc buf1
        if write_rc < up.1 then
          some (some v.total_bytes,
            { v with w := up.2.2, dst := gs.2.1, buf := buf1, content := content1,
                     wcalls := v.wcalls + 1 })
        else
          let v1 : upload_vars :=
            { w := up.2.2
              content := content1
              wcalls := v.wcalls + 1
              total_bytes := v.total_bytes + up.1
              crc := crc32_feed v.crc buf1 0 up.1.toNat
              buf := buf1
              dst := gs.2.1 }
          if up.1 < xfer_size then some (none, v1)
          else sam7dfu_do_upload_loop fs xfer_size fuel v1

/-- The end of `sam7dfu_do_upload`, after the loop was left through `break`: the suffix
is built in the local `suffix` (stack memory `uninit`), copied over `buf`, its first
twelve bytes are fed to the CRC, `dwCRC` is stored and the sixteen bytes are written.
The result is the file afterwards. -/
def upload_append_suffix (fs : FileSys) (v : upload_vars) (uninit : Nat → Nat) : List Nat :=
  let image := suffix_image uninit
  let buf := memcpy v.buf 0 image DFU_FILE_SUFFIX_SIZE
  let crc := crc32_feed v.crc buf 0 (DFU_FILE_SUFFIX_SIZE - 4)
  let suffix := suffix_with_crc image crc
  write_from v.content (sys_write DFU_FILE_SUFFIX_SIZE (fs.writes v.wcalls)) suffix

/-- The function `sam7dfu_do_upload` of `sam7dfu.c`: return value, session world and
file afterwards (`creat` starts it empty). `malloc_ok` says whether `malloc` gave a
buffer, whose bytes are `buf`; `dst` and `uninit` are the stack memory under the locals
`dst` and `suffix`. The result is `none` when the loop fuel runs out. -/
def sam7dfu_do_upload (w : World) (fs : FileSys) (xfer_size : Nat) (malloc_ok : Bool)
    (buf : Nat → Nat) (dst : dfu_status) (uninit : Nat → Nat) (fuel : Nat) :
    Option (Int × World × List Nat) :=
  if !malloc_ok then some (-ENOMEM, w, fs.content)
  else if fs.fd < 0 then some (fs.fd, w, fs.content)
  else
    match sam7dfu_do_upload_loop fs xfer_size fuel
        { w := w, content := [], wcalls := 0, total_bytes := 0, crc := crc32_init,
          buf := buf, dst := dst } with
    | none => none
    | some (some ret, v) => some (ret, v.w, v.content)
    | some (none, v) => some (0, v.w, upload_append_suffix fs v uninit)

/-- A sample file for the file functions: it opens as descriptor 3, `fstat` succeeds,
every `read` delivers at most two bytes and every `write` up to sixteen. -/
def sample_file (content : List Nat) : FileSys :=
  { fd := 3, fstat_ret := 0, content := content, reads := fun _ => 2, writes := fun _ => 16 }

/-- Replies of a device in a one-block upload: GETSTATUS reports status OK and state
`dfuIDLE`, UPLOAD delivers the three bytes 1, 2, 3, GETSTATE reports `dfuUPLOAD_IDLE`. -/
def upload_replies : Nat → UsbReply :=
  fun k =>
    if k = 0 then { ret := 6, buffer := fun i => if i = 4 then 2 else 0 }
    else if k = 1 then { ret := 3, buffer := fun i => i + 1 }
    else { ret := 1, buffer := fun _ => 9 }

/-- The file `add_file_suffix` leaves for the payload 1, 2, 3 over zeroed stack memory. -/
def sample_suffixed : List Nat :=
  [1, 2, 3, 0, 0, 0, 0, 0, 0, 0, 1, 85, 70, 68, 16, 164, 50, 117, 241]

/-! ## dfu_quirks.h, dfu_quirks.c : the quirk set -/

abbrev QUIRK_OPENMOKO_DNLOAD_STATUS_POLL_TIMEOUT : Nat := 1
abbrev QUIRK_OPENMOKO_MANIFEST_STATUS_POLL_TIMEOUT : Nat := 2
abbrev QUIRK_OPENMOKO_DETACH_BEFORE_FINAL_RESET : Nat := 3
abbrev QUIRK_IGNORE_INVALID_FUNCTIONAL_DESCRIPTOR : Nat := 4
abbrev QUIRK_FORCE_DFU_VERSION_1_0 : Nat := 5
abbrev QUIRK_FORCE_DFU_VERSION_1_1 : Nat := 6
abbrev DFU_QUIRK_COUNT : Nat := 7

/-- Conversion of an `unsigned int` to `int` (32 bit, two's complement). -/
def uint_to_int (x : Nat) : Int :=
  if x % 2 ^ 32 < 2 ^ 31 then (x % 2 ^ 32 : Nat) else (x % 2 ^ 32 : Nat) - 2 ^ 32

/-- The function `dfu_quirk_set`: the set behind the pointer after the call, `none`
for a `NULL` pointer. `(quirks->q1) |= (1<<quirk)` on an `unsigned int`. -/
def dfu_quirk_set (quirks : Option dfu_quirks) (quirk : Nat) : Option dfu_quirks :=
  match quirks with
  | none => none
  | some q => some { q1 := (q.q1 ||| (1 <<< quirk)) % 2 ^ 32 }

/-- The function `dfu_quirk_clear`: `(quirks->q1) &= ~ (1<<quirk)`, the complement
taken as an `unsigned int`. -/
def dfu_quirk_clear (quirks : Option dfu_quirks) (quirk : Nat) : Option dfu_quirks :=
  match quirks with
  | none => none
  | some q => some { q1 := q.q1 &&& (2 ^ 32 - 1 - (1 <<< quirk)) }

/-- The function `dfu_quirk_is_set`: `(quirks->q1) & (1<<quirk)` returned as an `int`,
0 for a `NULL` pointer. -/
def dfu_quirk_is_set (quirks : Option dfu_quirks) (quirk : Nat) : Int :=
  match quirks with
  | none => 0
  | some q => uint_to_int (q.q1 &&& (1 <<< quirk))

/-- The function `dfu_quirks_clear`. -/
def dfu_quirks_clear (quirks : Option dfu_quirks) : Option dfu_quirks :=
  match quirks with
  | none => none
  | some _ => some { q1 := 0 }

/-- The function `dfu_quirks_is_empty`; 1 for a `NULL` pointer. -/
def dfu_quirks_is_empty (quirks : Option dfu_quirks) : Int :=
  match quirks with
  | none => 1
  | some q => if q.q1 = 0 then 1 else 0

/-- The `case` labels of the inner `switch(idProduct)` under the vendors `0x1457` and
`0x5117` in `dfu_quirks_detect`. -/
def openmoko_products : List Nat :=
  [0x5117, 0x5118, 0x5119, 0x511a, 0x511b, 0x511c, 0x511d, 0x511e, 0x511f, 0x5120,
   0x5121, 0x5122, 0x5123, 0x5124, 0x5125, 0x5126]

/-- The function `dfu_quirks_detect`. `q` is the stack memory under the local `q`,
which `dfu_quirks_clear(&q)` overwrites; the four arguments are `uint16_t`. -/
def dfu_quirks_detect (q : dfu_quirks) (bcdDFU idVendor idProduct bcdDevice : Nat) :
    dfu_quirks :=
  let _bcdDFU := bcdDFU % 2 ^ 16
  let idVendor := idVendor % 2 ^ 16
  let idProduct := idProduct % 2 ^ 16
  let _bcdDevice := bcdDevice % 2 ^ 16
  let q := (dfu_quirks_clear (some q)).getD q
  if idVendor = 0x1d50 then
    if idProduct = 0x1db5 ∨ idProduct = 0x1db6 then q else q
  else if idVendor = 0x1457 ∨ idVendor = 0x5117 then
    if idProduct ∈ openmoko_products then
      (dfu_quirk_set (some q) QUIRK_OPENMOKO_DNLOAD_STATUS_POLL_TIMEOUT).getD q
    else q
  else q

/-! ## sam7dfu.c : sam7dfu_do_dnload -/

/-- The errno value `EINVAL` (Linux). -/
abbrev EINVAL : Int := 22

/-- The `do { ... } while (dst.bState != DFU_STATE_dfuDNLOAD_IDLE)` loop of
`sam7dfu_do_dnload`, entered with `ret >= 0`. The result is `none` when the fuel runs
out; otherwise the world and `dst` at the end, with `some ret` when the loop was left
through `goto out_error` carrying `ret` (a failed `dfu_status_poll_timeout` leaves `ret`
at the value `dfu_get_status` returned) and `none` when the loop condition failed. -/
def dnload_poll_loop : Nat → World → dfu_status → Option (Option Int × World × dfu_status)
  | 0, _, _ => none
  | fuel + 1, w, dst =>
    let gs := dfu_get_status w dst
    if gs.1 < 0 then some (some gs.1, gs.2.2, gs.2.1)
    else
      let polled : Int × World :=
        if dfu_sm_get_state gs.2.2.dfu_state = DFU_STATE_dfuDNBUSY then
          let timeout := gs.2.1.bwPollTimeout
          let timeout :=
            if dfu_quirk_is_set (some gs.2.2.handle.quirk_flags)
                QUIRK_OPENMOKO_DNLOAD_STATUS_POLL_TIMEOUT ≠ 0 then 5
            else timeout
          dfu_status_poll_timeout gs.2.2 timeout
        else (0, gs.2.2)
      if polled.1 < 0 then some (some gs.1, polled.2, gs.2.1)
      else if (gs.2.1.bState : Int) ≠ DFU_STATE_dfuDNLOAD_IDLE then
        dnload_poll_loop fuel polled.2 gs.2.1
      else some (none, polled.2, gs.2.1)

/-- The variables of `sam7dfu_do_dnload` inside its block loop: the session world, the
offset of the file descriptor, the number of `read` calls made on it, `bytes_sent`, the
heap buffer `buf` and the status record `dst`. -/
structure dnload_vars where
  w : World
  pos : Nat
  rcalls : Nat
  bytes_sent : Int
  buf : Nat → Nat
  dst : dfu_status

/-- The loop `while (bytes_sent < st.st_size - DFU_FILE_SUFFIX_SIZE)` of
`sam7dfu_do_dnload` on a file of more than 16 bytes; `xfer_size` is not negative. The
result is `none` when the fuel runs out; otherwise the final variables, with `some ret`
when the loop was left through `goto out_error` carrying `ret` and `none` when the loop
condition failed. `dfu_download` takes the length as an `unsigned short` and the buffer
of `xfer_size` bytes. -/
def sam7dfu_do_dnload_loop (fs : FileSys) (xfer_size : Nat) :
    Nat → dnload_vars → Option (Option Int × dnload_vars)
  | 0, _ => none
  | fuel + 1, v =>
    if v.bytes_sent < ((fs.content.length - DFU_FILE_SUFFIX_SIZE : Nat) : Int) then
      let ret := sys_read fs.content v.pos
        (min xfer_size (fs.content.length - DFU_FILE_SUFFIX_SIZE - v.bytes_sent.toNat))
        (fs.reads v.rcalls)
      let buf1 := read_into fs.content v.pos ret v.buf
      let v1 : dnload_vars :=
        { v with pos := v.pos + ret.toNat, rcalls := v.rcalls + 1, buf := buf1 }
      if ret < 0 then some (some ret, v1)
      else if ret = 0 then some (some ret, v1)
      else
        let dl := dfu_download v.w (ret.toNat % 2 ^ 16)
          (some ((List.range xfer_size).map (fun i => buf1 i % 256)))
        if dl.1 < 0 then some (some dl.1, { v1 with w := dl.2 })
        else
          let bytes_sent := v.bytes_sent + dl.1
          match dnload_poll_loop fuel dl.2 v.dst with
          | none => none
          | some (some ret, w2, dst2) =>
            some (some ret, { v1 with w := w2, dst := dst2, bytes_sent := bytes_sent })
          | some (none, w2, dst2) =>
            if dst2.bStatus ≠ DFU_STATUS_OK then
              some (some (-1), { v1 with w := w2, dst := dst2, bytes_sent := bytes_sent })
            else
              sam7dfu_do_dnload_loop fs xfer_size fuel
                { v1 with w := w2, dst := dst2, bytes_sent := bytes_sent }
    else some (none, v)

/-- The `switch(dfu_sm_get_state(handle))` that ends `sam7dfu_do_dnload`: a bus reset in
`dfuMANIFEST_WAIT_RESET`, nothing otherwise; `ret` is returned as it is on every path. -/
def dnload_final_switch (ret : Int) (w : World) : Int × World :=
  if dfu_sm_get_state w.dfu_state = DFU_STATE_dfuIDLE then (ret, w)
  else if dfu_sm_get_state w.dfu_state = DFU_STATE_dfuMANIFEST_WAIT_RESET then
    (ret, (dfu_usb_reset w).2)
  else (ret, w)

/-- The part of `sam7dfu_do_dnload` from the label `get_status` on; each `goto
get_status` takes one unit of fuel. The result is the return value and the world. -/
def dnload_manifest : Nat → World → dfu_status → Option (Int × World)
  | 0, _, _ => none
  | fuel + 1, w, dst =>
    let gs := dfu_get_status w dst
    if gs.1 < 0 then some (gs.1, gs.2.2)
    else if dfu_sm_get_state gs.2.2.dfu_state = DFU_STATE_dfuMANIFEST then
      let timeout := gs.2.1.bwPollTimeout
      let timeout :=
        if dfu_quirk_is_set (some gs.2.2.handle.quirk_flags)
            QUIRK_OPENMOKO_MANIFEST_STATUS_POLL_TIMEOUT ≠ 0 then 1 * 1000 * 1000
        else timeout
      let p := dfu_status_poll_timeout gs.2.2 timeout
      if p.1 < 0 then some (gs.1, p.2)
      else if dfu_sm_get_state p.2.dfu_state = DFU_STATE_dfuMANIFEST_SYNC then
        dnload_manifest fuel p.2 gs.2.1
      else some (dnload_final_switch gs.1 p.2)
    else some (dnload_final_switch gs.1 gs.2.2)

/-- The variables of `sam7dfu_do_dnload` when its block loop starts. -/
def dnload_start (w : World) (buf : Nat → Nat) (dst : dfu_status) : dnload_vars :=
  { w := w, pos := 0, rcalls := 0, bytes_sent := 0, buf := buf, dst := dst }

/-- The function `sam7dfu_do_dnload` of `sam7dfu.c`: return value and session world.
`fs1` is the file as `dfu_file_suffix_check` opens it, `fs2` as the function opens it
afterwards; `malloc_ok` says whether `malloc` gave a buffer, whose bytes are `buf`;
`dst`, `suffix_tmp` and `cbuf` are the stack memory under the local `dst` and under the
locals of the check. The value `dfu_download(handle, 0, NULL)` returns is overwritten at
the label `get_status` before it is read. The result is `none` when the fuel runs
out. -/
def sam7dfu_do_dnload (w : World) (fs1 fs2 : FileSys) (xfer_size : Nat) (malloc_ok : Bool)
    (buf : Nat → Nat) (dst : dfu_status) (suffix_tmp cbuf : Nat → Nat) (fuel : Nat) :
    Option (Int × World) :=
  if !malloc_ok then some (-ENOMEM, w)
  else
    match dfu_file_suffix_check fs1 (fun _ => 0) 0 0 suffix_tmp cbuf with
    | none => none
    | some valid =>
      if valid.ret = 0 then some (-1, w)
      else if fs2.fd < 0 then some (fs2.fd, w)
      else if fs2.fstat_ret < 0 then some (fs2.fstat_ret, w)
      else if fs2.content.length ≤ 0 then some (-EINVAL, w)
      else if fs2.content.length ≤ DFU_FILE_SUFFIX_SIZE then some (fs2.fstat_ret, w)
      else
        match sam7dfu_do_dnload_loop fs2 xfer_size fuel (dnload_start w buf dst) with
        | none => none
        | some (some ret, v) => some (ret, v.w)
        | some (none, v) => dnload_manifest fuel (dfu_download v.w 0 none).2 v.dst

/-! ## The file suffix in the words of the specification -/

/-- Spec section 4.1, "updating all bytes at once": the CRC register after the bytes of
a list, started from the initial register. -/
def spec_crc32 (bytes : List Nat) : Nat := bytes.foldl crc32_byte crc32_init

/-- The value of a little-endian byte string. -/
def spec_le (bytes : List Nat) : Nat := bytes.foldr (fun b acc => b % 256 + 256 * acc) 0

/-- What spec section 4.2 has the decoder return: the verdict, the suffix bytes, the
stored and the computed CRC. -/
structure spec_decoded where
  valid : Bool
  suffix : List Nat
  stored_crc : Nat
  computed_crc : Nat

/-- Spec section 4.2, decode / validate: "require size > 16 bytes, stream all bytes;
parse the last 16 bytes as the suffix; compute CRC over all bytes except the last 4;
report valid iff computed == stored CRC". -/
def spec_suffix_decode (file : List Nat) : Option spec_decoded :=
  if file.length > 16 then
    some
      { valid := spec_crc32 (file.take (file.length - 4)) ==
          spec_le (file.drop (file.length - 4))
        suffix := file.drop (file.length - 16)
        stored_crc := spec_le (file.drop (file.length - 4))
        computed_crc := spec_crc32 (file.take (file.length - 4)) }
  else none

/-- The layout spec section 4.2 gives the encoder for the sixteen bytes after a payload
of `n` bytes, from offset 6 on: `bcdDFU = 0x0100`, `'U'`, `'F'`, `'D'`, `bLength = 16`,
then the CRC register over the payload and the first twelve suffix bytes, least
significant byte first. -/
def encoded_suffix_layout (F : List Nat) (n : Nat) : Prop :=
  F.length = n + 16 ∧
  byte_at F (n + 6) = 0x00 ∧ byte_at F (n + 7) = 0x01 ∧
  byte_at F (n + 8) = 0x55 ∧ byte_at F (n + 9) = 0x46 ∧ byte_at F (n + 10) = 0x44 ∧
  byte_at F (n + 11) = 0x10 ∧
  byte_at F (n + 12) = crc32_feed crc32_init (byte_at F) 0 (n + 12) % 256 ∧
  byte_at F (n + 13) = crc32_feed crc32_init (byte_at F) 0 (n + 12) / 256 % 256 ∧
  byte_at F (n + 14) = crc32_feed crc32_init (byte_at F) 0 (n + 12) / 65536 % 256 ∧
  byte_at F (n + 15) = crc32_feed crc32_init (byte_at F) 0 (n + 12) / 16777216 % 256 ∧
  crc32_feed crc32_init (byte_at F) 0 (n + 12) < 2 ^ 32

/-- A file of three payload bytes and sixteen more whose signature and `bLength` bytes
are zero and whose last four bytes are the CRC of the fifteen before. -/
def unsigned_file : List Nat :=
  [1, 2, 3, 0, 0, 0, 0, 0, 0, 0, 0, 0, 0, 0, 0, 147, 143, 115, 205]

/-! ## Notions used to state the properties of a download -/

/-- Whether a call into the USB library is a DNLOAD request. -/
def is_dnload : UsbCall → Bool
  | .control_msg _ bRequest _ _ _ _ _ => bRequest == USB_REQ_DFU_DNLOAD
  | _ => false

/-- The DNLOAD requests of a trace, in order: `wLength` and the bytes of the data
stage. -/
def dnload_requests (trace : List UsbCall) : List (Nat × List Nat) :=
  trace.filterMap fun c =>
    match c with
    | .control_msg _ bRequest _ _ data wLength _ =>
      if bRequest = USB_REQ_DFU_DNLOAD then some (wLength, data.getD []) else none
    | _ => none

/-- The world `w1` continues the trace of `w` by calls none of which is a DNLOAD. -/
def appends_no_dnload (w w1 : World) : Prop :=
  ∃ rest, w1.trace = w.trace ++ rest ∧ ∀ c ∈ rest, is_dnload c = false

/-- A sample file for the download: it opens as descriptor 3, `fstat` succeeds and every
`read` delivers all the bytes asked for. -/
def whole_file (content : List Nat) : FileSys :=
  { fd := 3, fstat_ret := 0, content := content, reads := fun _ => 65536,
    writes := fun _ => 65536 }

/-- The reply to a transfer that moved `n` bytes. -/
def count_reply (n : Int) : UsbReply := { ret := n, buffer := fun _ => 0 }

/-- The reply to a GETSTATUS that reports `bStatus` and `bState`, poll timeout 0. -/
def status_reply (bStatus bState : Nat) : UsbReply :=
  { ret := 6, buffer := fun i => if i = 0 then bStatus else if i = 4 then bState else 0 }

/-- The reply stream that gives the listed replies in turn. -/
def replies_of (l : List UsbReply) : Nat → UsbReply := fun k => l.getD k (count_reply 0)

/-- Replies of a device in a download of one block of three bytes: the block is taken,
the status is OK in `dfuDNLOAD_IDLE`, the end signal is taken, and the status is OK in
`dfuIDLE`. -/
def dnload_replies : Nat → UsbReply :=
  replies_of [count_reply 3, status_reply 0 5, count_reply 0, status_reply 0 2]

/-- A file of four payload bytes 1, 2, 3, 4 and a suffix whose first six bytes are
`0xA0 .. 0xA5` and whose last four are the CRC of the sixteen bytes before. -/
def short_write_file : List Nat :=
  [1, 2, 3, 4, 160, 161, 162, 163, 164, 165, 0, 1, 85, 70, 68, 16, 58, 198, 97, 150]

/-- Replies of a device that reports two bytes written for each DNLOAD of a block, then
takes the end signal and reports `dfuIDLE`. -/
def short_write_replies : Nat → UsbReply :=
  replies_of [count_reply 2, status_reply 0 5, count_reply 2, status_reply 0 5,
    count_reply 0, status_reply 0 2]

/-- The loop `for (i = ...; i < DFU_QUIRK_COUNT; ++i)` of `dfu_quirks_insert` with `n`
turns left at index `i`: the destination set afterwards. -/
def dfu_quirks_insert_loop (quirks_src : Option dfu_quirks) :
    Nat → Nat → Option dfu_quirks → Option dfu_quirks
  | 0, _, quirks_dest => quirks_dest
  | n + 1, i, quirks_dest =>
    dfu_quirks_insert_loop quirks_src n (i + 1)
      (if dfu_quirk_is_set quirks_src i ≠ 0 then dfu_quirk_set quirks_dest i
        else quirks_dest)

/-- The function `dfu_quirks_insert`: the destination set after the call. The source
is only read, through `dfu_quirk_is_set`; the two pointers are taken to be distinct. -/
def dfu_quirks_insert (quirks_dest quirks_src : Option dfu_quirks) : Option dfu_quirks :=
  dfu_quirks_insert_loop quirks_src (DFU_QUIRK_COUNT - 1) 1 quirks_dest

/-- The microsecond counts handed to `usleep` in a trace, in order. -/
def usleep_args (trace : List UsbCall) : List Nat :=
  trace.filterMap fun c =>
    match c with
    | .usleep usec => some usec
    | _ => none

/-- The `bRequest` codes of the control transfers in a trace, in order. -/
def request_codes (trace : List UsbCall) : List Nat :=
  trace.filterMap fun c =>
    match c with
    | .control_msg _ bRequest _ _ _ _ _ => some bRequest
    | _ => none

/-- The number of bus resets in a trace. -/
def bus_resets (trace : List UsbCall) : Nat :=
  trace.countP fun c =>
    match c with
    | .usb_reset => true
    | _ => false

/-- The world with the quirk set of its handle replaced. -/
def with_quirks (w : World) (q1 : Nat) : World :=
  { w with handle := { w.handle with quirk_flags := { q1 := q1 } } }

/-- The reply to a GETSTATUS that reports `bStatus`, `bwPollTimeout` and `bState`. -/
def status_reply_t (bStatus bwPollTimeout bState : Nat) : UsbReply :=
  { ret := 6
    buffer := fun i =>
      if i = 0 then bStatus
      else if i = 1 then bwPollTimeout % 256
      else if i = 2 then bwPollTimeout / 256 % 256
      else if i = 3 then bwPollTimeout / 65536 % 256
      else if i = 4 then bState
      else 0 }

/-- The tracked state after a sequence of `dfu_sm_set_state_checked` calls, one for
each requested state of the list. -/
def checked_run (dfu_state : Int) (requests : List Int) : Int :=
  requests.foldl (fun s t => (dfu_sm_set_state_checked s t).2) dfu_state

/-- The tracked state of `w1` comes from that of `w` by `dfu_sm_set_state_checked`
calls only. -/
def commits_only (w w1 : World) : Prop :=
  ∃ requests, w1.dfu_state = checked_run w.dfu_state requests

/-! ## Lemmas on the transition function -/

/-- The printing wrapper at the end of `_dfu_sm_get_next_state` returns its input. -/
theorem silent_wrapper_eq (r : Int × Int) (silent : Bool) :
    (if (!silent && r.1 == -1) = true then ((-1 : Int), r.2) else r) = r := by
  split_ifs with h
  · simp at h
    ext <;> simp [h.2]
  · rfl

/-- The pair computed by `_dfu_sm_get_next_state` is the one its outer switch selects. -/
theorem get_next_state_dispatch (s : Int) (e : DFU_SM_EVENT) (g : Nat) (silent : Bool) :
    _dfu_sm_get_next_state s e g silent =
      (if s = DFU_STATE_appIDLE then sm_appIDLE s e
      else if s = DFU_STATE_appDETACH then sm_appDETACH s e g
      else if s = DFU_STATE_dfuIDLE then sm_dfuIDLE e g
      else if s = DFU_STATE_dfuDNLOAD_SYNC then sm_dfuDNLOAD_SYNC s e g
      else if s = DFU_STATE_dfuDNBUSY then sm_dfuDNBUSY e g
      else if s = DFU_STATE_dfuDNLOAD_IDLE then sm_dfuDNLOAD_IDLE s e g
      else if s = DFU_STATE_dfuMANIFEST_SYNC then sm_dfuMANIFEST_SYNC s e g
      else if s = DFU_STATE_dfuMANIFEST then sm_dfuMANIFEST e g
      else if s = DFU_STATE_dfuMANIFEST_WAIT_RESET then sm_dfuMANIFEST_WAIT_RESET e g
      else if s = DFU_STATE_dfuUPLOAD_IDLE then sm_dfuUPLOAD_IDLE s e g
      else if s = DFU_STATE_dfuERROR then sm_dfuERROR s e g
      else (-1, 0)) := by
  unfold _dfu_sm_get_next_state
  exact silent_wrapper_eq _ _

/-- The test `guardflags & (1 << k)` reads bit `k` of the guard set. -/
theorem flag_set_shift (g k : Nat) : flag_set g (1 <<< k) = g.testBit k := by
  unfold flag_set
  rw [Nat.one_shiftLeft, Nat.and_two_pow]
  cases g.testBit k <;> simp

/-- The transition function reads the guard set only through the ten flag tests. -/
theorem get_next_state_congr (s : Int) (e : DFU_SM_EVENT) (g g' : Nat)
    (h : ∀ f ∈ dfu_event_guard_flags, flag_set g f = flag_set g' f) :
    dfu_sm_get_next_state s e g = dfu_sm_get_next_state s e g' := by
  have h0 := h DFU_GUARD_WLENGTH_GT_ZERO (by simp [dfu_event_guard_flags])
  have h1 := h DFU_GUARD_UPLOAD_SHORT_FRAME (by simp [dfu_event_guard_flags])
  have h2 := h DFU_GUARD_BLOCK_IN_PROGRESS (by simp [dfu_event_guard_flags])
  have h3 := h DFU_GUARD_MANIFESTATION_IN_PROGRESS (by simp [dfu_event_guard_flags])
  have h4 := h DFU_GUARD_BIT_CAN_DNLOAD (by simp [dfu_event_guard_flags])
  have h5 := h DFU_GUARD_BIT_MANIFESTATION_TOLERANT (by simp [dfu_event_guard_flags])
  have h6 := h DFU_GUARD_BIT_CAN_UPLOAD (by simp [dfu_event_guard_flags])
  have h7 := h DFU_GUARD_DEV_DISAGREES_DNLOAD_END (by simp [dfu_event_guard_flags])
  have h8 := h DFU_GUARD_DETACH_TIMER_ELAPSED (by simp [dfu_event_guard_flags])
  have h9 := h DFU_GUARD_FIRMWARE_VALID (by simp [dfu_event_guard_flags])
  simp only [dfu_sm_get_next_state, get_next_state_dispatch, sm_appIDLE, sm_appDETACH,
    sm_dfuIDLE, sm_dfuDNLOAD_SYNC, sm_dfuDNBUSY, sm_dfuDNLOAD_IDLE, sm_dfuMANIFEST_SYNC,
    sm_dfuMANIFEST, sm_dfuMANIFEST_WAIT_RESET, sm_dfuUPLOAD_IDLE, sm_dfuERROR, reset_case,
    h0, h1, h2, h3, h4, h5, h6, h7, h8, h9]

/-- Two guard sets with the same flags give the same next state. -/
theorem get_next_state_of_guards_are (s : Int) (e : DFU_SM_EVENT) (g g' : Nat)
    (fs : List Nat) (h : guards_are g fs) (h' : guards_are g' fs) :
    dfu_sm_get_next_state s e g = dfu_sm_get_next_state s e g' := by
  apply get_next_state_congr
  intro f hf
  have a := h f hf
  have b := h' f hf
  rw [Bool.eq_iff_iff]
  exact a.trans b.symm

/-! ## Lemmas on the session layer -/

/-- A commit that does not fail leaves the requested state as the tracked state. -/
theorem commit_state_ok (w : World) (t : Int) (h : ¬ (commit_state w t).1 < 0) :
    (commit_state w t).2.dfu_state = t := by
  unfold commit_state dfu_sm_set_state_checked at h ⊢
  dsimp only at h ⊢
  split_ifs at h ⊢
  · exact absurd (show ((-1 : Int)) < 0 by decide) h
  · rfl

/-- The flags in the guard set `dfu_download` computes. -/
theorem download_guards_are (w : World) (length : Nat) :
    guards_are (download_guards w length)
      ((if 0 < length then [DFU_GUARD_WLENGTH_GT_ZERO] else []) ++
        (if w.handle.func_dfu.bmAttributes &&& USB_DFU_CAN_DOWNLOAD ≠ 0 then
          [DFU_GUARD_BIT_CAN_DNLOAD] else [])) := by
  unfold download_guards
  dsimp only
  split_ifs <;> decide

/-- The flags in the guard set `dfu_upload` computes. -/
theorem upload_guards_are (w : World) (length : Nat) (ret : Int) :
    guards_are (upload_guards w length ret)
      ((if w.handle.func_dfu.bmAttributes &&& USB_DFU_CAN_UPLOAD ≠ 0 then
          [DFU_GUARD_BIT_CAN_UPLOAD] else []) ++
        (if 0 < length then [DFU_GUARD_WLENGTH_GT_ZERO] else []) ++
        (if ret < length then [DFU_GUARD_UPLOAD_SHORT_FRAME] else [])) := by
  unfold upload_guards
  dsimp only
  split_ifs <;> decide

/-- The flags in the guard set `dfu_status_poll_timeout` computes. -/
theorem status_poll_timeout_guards_are (w : World) :
    guards_are (status_poll_timeout_guards w)
      (if w.handle.func_dfu.bmAttributes &&& USB_DFU_MANIFEST_TOL ≠ 0 then
        [DFU_GUARD_BIT_MANIFESTATION_TOLERANT] else []) := by
  unfold status_poll_timeout_guards
  dsimp only
  split_ifs <;> decide

/-- The protocol handlers and the transaction bump leave `dfu_state` alone. -/
theorem upload_handler_dfu_state (w : World) (t length : Nat) (buf : Nat → Nat) :
    (_usb_dfu10_upload (bump_transaction w) t length buf).2.2.dfu_state = w.dfu_state := by
  unfold _usb_dfu10_upload
  dsimp only
  split_ifs <;> rfl

/-- The upload handler leaves the descriptor snapshot alone. -/
theorem upload_handler_attrs (w : World) (t length : Nat) (buf : Nat → Nat) :
    (_usb_dfu10_upload (bump_transaction w) t length buf).2.2.handle.func_dfu =
      w.handle.func_dfu := by
  unfold _usb_dfu10_upload
  dsimp only
  split_ifs <;> rfl

/-- The error value `-1` is not a success value. -/
theorem neg_one_not_nonneg : ¬ (0 : Int) ≤ -1 := by decide

/-- The error value `-2` is not a success value. -/
theorem neg_two_not_nonneg : ¬ (0 : Int) ≤ -2 := by decide

/-- A successful `dfu_download` leaves the state predicted for its guards. -/
theorem download_state (w : World) (length : Nat) (data : Option (List Nat))
    (h : 0 ≤ (dfu_download w length data).1) :
    (dfu_download w length data).2.dfu_state =
      dfu_sm_get_next_state w.dfu_state DFU_EV_DNLOAD (download_guards w length) := by
  unfold dfu_download at h ⊢
  dsimp only at h ⊢
  split_ifs at h ⊢ <;>
    first
    | exact absurd h neg_one_not_nonneg
    | exact absurd h neg_two_not_nonneg
    | exact commit_state_ok _ _ (by assumption)

/-- A successful `dfu_get_state` leaves the state predicted for `GETSTATE`. -/
theorem get_state_state (w : World) (h : 0 ≤ (dfu_get_state w).1) :
    (dfu_get_state w).2.dfu_state = dfu_sm_get_next_state w.dfu_state DFU_EV_GETSTATE 0 := by
  unfold dfu_get_state at h ⊢
  dsimp only at h ⊢
  split_ifs at h ⊢ <;>
    first
    | exact absurd h neg_one_not_nonneg
    | exact absurd h neg_two_not_nonneg
    | exact commit_state_ok _ _ (by assumption)

/-- A successful `dfu_usb_reset` leaves the state predicted for `USB_RESET`. -/
theorem usb_reset_state (w : World) (h : 0 ≤ (dfu_usb_reset w).1) :
    (dfu_usb_reset w).2.dfu_state = dfu_sm_get_next_state w.dfu_state DFU_EV_USB_RESET 0 := by
  unfold dfu_usb_reset at h ⊢
  dsimp only at h ⊢
  split_ifs at h ⊢ <;>
    first
    | exact absurd h neg_one_not_nonneg
    | exact absurd h neg_two_not_nonneg
    | exact commit_state_ok _ _ (not_lt.mpr h)

/-- A successful `dfu_status_poll_timeout` leaves the state predicted for its guards. -/
theorem status_poll_timeout_state (w : World) (t : Nat)
    (h : 0 ≤ (dfu_status_poll_timeout w t).1) :
    (dfu_status_poll_timeout w t).2.dfu_state =
      dfu_sm_get_next_state w.dfu_state DFU_EV_STATUS_POLL_TIMEOUT
        (status_poll_timeout_guards w) := by
  unfold dfu_status_poll_timeout at h ⊢
  dsimp only at h ⊢
  split_ifs at h ⊢ <;>
    first
    | exact absurd h neg_one_not_nonneg
    | exact absurd h neg_two_not_nonneg
    | exact commit_state_ok _ _ (not_lt.mpr h)

/-- A successful `dfu_detach` leaves the state predicted for `DETACH`. -/
theorem detach_state (w : World) (t : Nat) (h : 0 ≤ (dfu_detach w t).1) :
    (dfu_detach w t).2.dfu_state = dfu_sm_get_next_state w.dfu_state DFU_EV_DETACH 0 := by
  unfold dfu_detach at h ⊢
  dsimp only at h ⊢
  split_ifs at h ⊢ <;>
    first
    | exact absurd h neg_one_not_nonneg
    | exact absurd h neg_two_not_nonneg
    | exact commit_state_ok _ _ (not_lt.mpr h)

/-- A successful `dfu_clear_status` leaves the state predicted for `CLRSTATUS`. -/
theorem clear_status_state (w : World) (h : 0 ≤ (dfu_clear_status w).1) :
    (dfu_clear_status w).2.dfu_state =
      dfu_sm_get_next_state w.dfu_state DFU_EV_CLRSTATUS 0 := by
  unfold dfu_clear_status at h ⊢
  dsimp only at h ⊢
  split_ifs at h ⊢ <;>
    first
    | exact absurd h neg_one_not_nonneg
    | exact absurd h neg_two_not_nonneg
    | exact commit_state_ok _ _ (not_lt.mpr h)

/-- A successful `dfu_abort` leaves the state predicted for `ABORT`. -/
theorem abort_state (w : World) (h : 0 ≤ (dfu_abort w).1) :
    (dfu_abort w).2.dfu_state = dfu_sm_get_next_state w.dfu_state DFU_EV_ABORT 0 := by
  unfold dfu_abort at h ⊢
  dsimp only at h ⊢
  split_ifs at h ⊢ <;>
    first
    | exact absurd h neg_one_not_nonneg
    | exact absurd h neg_two_not_nonneg
    | exact commit_state_ok _ _ (not_lt.mpr h)

/-- A successful `dfu_get_status` leaves the reported `bState`, byte 4 of the reply. -/
theorem get_status_state (w : World) (st : dfu_status) (h : 0 ≤ (dfu_get_status w st).1) :
    (dfu_get_status w st).2.2.dfu_state = ((dfu_get_status w st).2.1.bState : Int) ∧
    (dfu_get_status w st).2.1.bState = buf_byte (usb_reply w).buffer 4 := by
  unfold dfu_get_status at h ⊢
  dsimp only at h ⊢
  split_ifs at h ⊢ with a b c <;>
    first
    | exact absurd h neg_one_not_nonneg
    | exact absurd h neg_two_not_nonneg
    | (refine ⟨commit_state_ok _ _ (not_lt.mpr h), ?_⟩
       unfold _usb_dfu10_get_status at c ⊢
       dsimp only at c ⊢
       split_ifs at c ⊢ with d
       · simp at c
       · rfl)

/-- A successful `dfu_upload` leaves the state predicted for its guards. -/
theorem upload_state (w : World) (length : Nat) (data : Option (Nat → Nat))
    (h : 0 ≤ (dfu_upload w length data).1) :
    ∃ g0, guards_are g0
      ((if w.handle.func_dfu.bmAttributes &&& USB_DFU_CAN_UPLOAD ≠ 0 then
          [DFU_GUARD_BIT_CAN_UPLOAD] else []) ++
        (if 0 < length then [DFU_GUARD_WLENGTH_GT_ZERO] else []) ++
        (if (dfu_upload w length data).1 < length then [DFU_GUARD_UPLOAD_SHORT_FRAME]
          else [])) ∧
    (dfu_upload w length data).2.2.dfu_state =
      dfu_sm_get_next_state w.dfu_state DFU_EV_UPLOAD g0 := by
  unfold dfu_upload at h ⊢
  by_cases a : 0 ≠ _dfu_verify_init w
  · rw [if_pos a] at h
    exact absurd h neg_one_not_nonneg
  · rw [if_neg a] at h ⊢
    cases data with
    | none => exact absurd h neg_one_not_nonneg
    | some buf =>
      dsimp only at h ⊢
      by_cases b : 0 = length
      · rw [if_pos b] at h
        exact absurd h neg_one_not_nonneg
      rw [if_neg b] at h ⊢
      by_cases c : dfu_sm_state_has_event w.dfu_state DFU_EV_UPLOAD = 0
      · rw [if_pos c] at h
        exact absurd h neg_one_not_nonneg
      rw [if_neg c] at h ⊢
      generalize hH : _usb_dfu10_upload (bump_transaction w) w.handle.transaction length buf = H
        at h ⊢
      have hs : H.2.2.dfu_state = w.dfu_state := by
        rw [← hH]; exact upload_handler_dfu_state _ _ _ _
      have ha : H.2.2.handle.func_dfu = w.handle.func_dfu := by
        rw [← hH]; exact upload_handler_attrs _ _ _ _
      by_cases d : H.1 < 0
      · rw [if_pos d] at h
        exact absurd h neg_one_not_nonneg
      rw [if_neg d] at h ⊢
      by_cases e : dfu_sm_get_next_state H.2.2.dfu_state DFU_EV_UPLOAD
          (upload_guards H.2.2 length H.1) < 0
      · rw [if_pos e] at h
        exact absurd h neg_one_not_nonneg
      rw [if_neg e] at h ⊢
      generalize hV : _dfu_state_verify H.2.2 (dfu_sm_get_next_state H.2.2.dfu_state
        DFU_EV_UPLOAD (upload_guards H.2.2 length H.1)) = V at h ⊢
      by_cases f : V.1 < 0
      · rw [if_pos f] at h
        exact absurd h neg_one_not_nonneg
      rw [if_neg f] at h ⊢
      by_cases g : (commit_state V.2 (dfu_sm_get_next_state H.2.2.dfu_state
          DFU_EV_UPLOAD (upload_guards H.2.2 length H.1))).1 < 0
      · rw [if_pos g] at h
        exact absurd h neg_one_not_nonneg
      rw [if_neg g]
      refine ⟨upload_guards H.2.2 length H.1, ?_, ?_⟩
      · have := upload_guards_are H.2.2 length H.1
        rw [ha] at this
        exact this
      · show (commit_state V.2 _).2.dfu_state = _
        rw [commit_state_ok _ _ g, hs]

/-! ## The transition function at each state -/

/-- In state `appIDLE` the next state is the one the inner switch of that case gives. -/
theorem next_state_in_appIDLE (e : DFU_SM_EVENT) (g : Nat) :
    dfu_sm_get_next_state DFU_STATE_appIDLE e g = (sm_appIDLE DFU_STATE_appIDLE e).1 := by
  rw [dfu_sm_get_next_state, get_next_state_dispatch]
  rfl

/-- In state `appDETACH` the next state is the one the inner switch of that case gives. -/
theorem next_state_in_appDETACH (e : DFU_SM_EVENT) (g : Nat) :
    dfu_sm_get_next_state DFU_STATE_appDETACH e g = (sm_appDETACH DFU_STATE_appDETACH e g).1 := by
  rw [dfu_sm_get_next_state, get_next_state_dispatch]
  rfl

/-- In state `dfuIDLE` the next state is the one the inner switch of that case gives. -/
theorem next_state_in_dfuIDLE (e : DFU_SM_EVENT) (g : Nat) :
    dfu_sm_get_next_state DFU_STATE_dfuIDLE e g = (sm_dfuIDLE e g).1 := by
  rw [dfu_sm_get_next_state, get_next_state_dispatch]
  rfl

/-- In state `dfuDNLOAD_SYNC` the next state is the one the inner switch of that case gives. -/
theorem next_state_in_dfuDNLOAD_SYNC (e : DFU_SM_EVENT) (g : Nat) :
    dfu_sm_get_next_state DFU_STATE_dfuDNLOAD_SYNC e g = (sm_dfuDNLOAD_SYNC DFU_STATE_dfuDNLOAD_SYNC e g).1 := by
  rw [dfu_sm_get_next_state, get_next_state_dispatch]
  rfl

/-- In state `dfuDNBUSY` the next state is the one the inner switch of that case gives. -/
theorem next_state_in_dfuDNBUSY (e : DFU_SM_EVENT) (g : Nat) :
    dfu_sm_get_next_state DFU_STATE_dfuDNBUSY e g = (sm_dfuDNBUSY e g).1 := by
  rw [dfu_sm_get_next_state, get_next_state_dispatch]
  rfl

/-- In state `dfuDNLOAD_IDLE` the next state is the one the inner switch of that case gives. -/
theorem next_state_in_dfuDNLOAD_IDLE (e : DFU_SM_EVENT) (g : Nat) :
    dfu_sm_get_next_state DFU_STATE_dfuDNLOAD_IDLE e g = (sm_dfuDNLOAD_IDLE DFU_STATE_dfuDNLOAD_IDLE e g).1 := by
  rw [dfu_sm_get_next_state, get_next_state_dispatch]
  rfl

/-- In state `dfuMANIFEST_SYNC` the next state is the one the inner switch of that case gives. -/
theorem next_state_in_dfuMANIFEST_SYNC (e : DFU_SM_EVENT) (g : Nat) :
    dfu_sm_get_next_state DFU_STATE_dfuMANIFEST_SYNC e g = (sm_dfuMANIFEST_SYNC DFU_STATE_dfuMANIFEST_SYNC e g).1 := by
  rw [dfu_sm_get_next_state, get_next_state_dispatch]
  rfl

/-- In state `dfuMANIFEST` the next state is the one the inner switch of that case gives. -/
theorem next_state_in_dfuMANIFEST (e : DFU_SM_EVENT) (g : Nat) :
    dfu_sm_get_next_state DFU_STATE_dfuMANIFEST e g = (sm_dfuMANIFEST e g).1 := by
  rw [dfu_sm_get_next_state, get_next_state_dispatch]
  rfl

/-- In state `dfuMANIFEST_WAIT_RESET` the next state is the one the inner switch of that case gives. -/
theorem next_state_in_dfuMANIFEST_WAIT_RESET (e : DFU_SM_EVENT) (g : Nat) :
    dfu_sm_get_next_state DFU_STATE_dfuMANIFEST_WAIT_RESET e g = (sm_dfuMANIFEST_WAIT_RESET e g).1 := by
  rw [dfu_sm_get_next_state, get_next_state_dispatch]
  rfl

/-- In state `dfuUPLOAD_IDLE` the next state is the one the inner switch of that case gives. -/
theorem next_state_in_dfuUPLOAD_IDLE (e : DFU_SM_EVENT) (g : Nat) :
    dfu_sm_get_next_state DFU_STATE_dfuUPLOAD_IDLE e g = (sm_dfuUPLOAD_IDLE DFU_STATE_dfuUPLOAD_IDLE e g).1 := by
  rw [dfu_sm_get_next_state, get_next_state_dispatch]
  rfl

/-- In state `dfuERROR` the next state is the one the inner switch of that case gives. -/
theorem next_state_in_dfuERROR (e : DFU_SM_EVENT) (g : Nat) :
    dfu_sm_get_next_state DFU_STATE_dfuERROR e g = (sm_dfuERROR DFU_STATE_dfuERROR e g).1 := by
  rw [dfu_sm_get_next_state, get_next_state_dispatch]
  rfl

/-! ## Claims on the state machine -/

/-- C1, as stated, fails: in `dfuIDLE` the event `USB_RESET` with guard
`FIRMWARE_VALID` has the next state `appIDLE`, which is not in the table entry of
`dfuIDLE`, so `dfu_sm_set_state_checked` rejects it. -/
theorem C1_counterexample_reset_with_valid_firmware :
    dfu_sm_get_next_state DFU_STATE_dfuIDLE DFU_EV_USB_RESET DFU_GUARD_FIRMWARE_VALID =
      DFU_STATE_appIDLE ∧
    DFU_STATE_appIDLE ≠ -1 ∧
    _sm_transitions.getD DFU_STATE_dfuIDLE.toNat 0 &&& state_bit DFU_STATE_appIDLE = 0 ∧
    dfu_sm_set_state_checked DFU_STATE_dfuIDLE DFU_STATE_appIDLE =
      (-1, DFU_STATE_dfuIDLE) := by
  decide

/-- C1, amended: for a valid state `s`, whenever `dfu_sm_get_next_state` returns a next
state `n`, `n` is in `_sm_transitions[s]` and `dfu_sm_set_state_checked(n)` from `s` is
accepted, unless the transition is a reset taken with `FIRMWARE_VALID` from a DFU-mode
state; the non-reset events of `dfuMANIFEST_WAIT_RESET` are left out. -/
theorem C1_next_state_in_transition_table (s : Int) (e : DFU_SM_EVENT) (g : Nat)
    (hs : 0 ≤ s ∧ s < dfu_state_count)
    (hn : dfu_sm_get_next_state s e g ≠ -1)
    (hfw : ¬ (DFU_STATE_dfuIDLE ≤ s ∧ (e = DFU_EV_POWER_RESET ∨ e = DFU_EV_USB_RESET) ∧
      flag_set g DFU_GUARD_FIRMWARE_VALID = true))
    (hwr : ¬ (s = DFU_STATE_dfuMANIFEST_WAIT_RESET ∧ e ≠ DFU_EV_POWER_RESET ∧
      e ≠ DFU_EV_USB_RESET)) :
    _sm_transitions.getD s.toNat 0 &&& state_bit (dfu_sm_get_next_state s e g) ≠ 0 ∧
    dfu_sm_set_state_checked s (dfu_sm_get_next_state s e g) =
      (0, dfu_sm_get_next_state s e g) := by
  obtain ⟨h0, h1⟩ := hs
  simp only [dfu_state_count] at h1
  interval_cases s
  · simp only [next_state_in_appIDLE, sm_appIDLE, reset_case] at hn ⊢
    generalize flag_set g DFU_GUARD_FIRMWARE_VALID = b0 at *
    revert e b0
    decide
  · simp only [next_state_in_appDETACH, sm_appDETACH, reset_case] at hn ⊢
    generalize flag_set g DFU_GUARD_FIRMWARE_VALID = b0 at *
    generalize flag_set g DFU_GUARD_DETACH_TIMER_ELAPSED = b1 at *
    revert e b0 b1
    decide
  · simp only [next_state_in_dfuIDLE, sm_dfuIDLE, reset_case] at hn ⊢
    generalize flag_set g DFU_GUARD_FIRMWARE_VALID = b0 at *
    generalize flag_set g DFU_GUARD_WLENGTH_GT_ZERO = b1 at *
    generalize flag_set g DFU_GUARD_BIT_CAN_DNLOAD = b2 at *
    generalize flag_set g DFU_GUARD_BIT_CAN_UPLOAD = b3 at *
    revert e b0 b1 b2 b3
    decide
  · simp only [next_state_in_dfuDNLOAD_SYNC, sm_dfuDNLOAD_SYNC, reset_case] at hn ⊢
    generalize flag_set g DFU_GUARD_FIRMWARE_VALID = b0 at *
    generalize flag_set g DFU_GUARD_BLOCK_IN_PROGRESS = b1 at *
    revert e b0 b1
    decide
  · simp only [next_state_in_dfuDNBUSY, sm_dfuDNBUSY, reset_case] at hn ⊢
    generalize flag_set g DFU_GUARD_FIRMWARE_VALID = b0 at *
    revert e b0
    decide
  · simp only [next_state_in_dfuDNLOAD_IDLE, sm_dfuDNLOAD_IDLE, reset_case] at hn ⊢
    generalize flag_set g DFU_GUARD_FIRMWARE_VALID = b0 at *
    generalize flag_set g DFU_GUARD_WLENGTH_GT_ZERO = b1 at *
    generalize flag_set g DFU_GUARD_DEV_DISAGREES_DNLOAD_END = b2 at *
    revert e b0 b1 b2
    decide
  · simp only [next_state_in_dfuMANIFEST_SYNC, sm_dfuMANIFEST_SYNC, reset_case] at hn ⊢
    generalize flag_set g DFU_GUARD_FIRMWARE_VALID = b0 at *
    generalize flag_set g DFU_GUARD_MANIFESTATION_IN_PROGRESS = b1 at *
    generalize flag_set g DFU_GUARD_BIT_MANIFESTATION_TOLERANT = b2 at *
    revert e b0 b1 b2
    decide
  · simp only [next_state_in_dfuMANIFEST, sm_dfuMANIFEST, reset_case] at hn ⊢
    generalize flag_set g DFU_GUARD_FIRMWARE_VALID = b0 at *
    generalize flag_set g DFU_GUARD_BIT_MANIFESTATION_TOLERANT = b1 at *
    revert e b0 b1
    decide
  · simp only [next_state_in_dfuMANIFEST_WAIT_RESET, sm_dfuMANIFEST_WAIT_RESET, reset_case] at hn ⊢
    generalize flag_set g DFU_GUARD_FIRMWARE_VALID = b0 at *
    revert e b0
    decide
  · simp only [next_state_in_dfuUPLOAD_IDLE, sm_dfuUPLOAD_IDLE, reset_case] at hn ⊢
    generalize flag_set g DFU_GUARD_FIRMWARE_VALID = b0 at *
    generalize flag_set g DFU_GUARD_WLENGTH_GT_ZERO = b1 at *
    generalize flag_set g DFU_GUARD_UPLOAD_SHORT_FRAME = b2 at *
    revert e b0 b1 b2
    decide
  · simp only [next_state_in_dfuERROR, sm_dfuERROR, reset_case] at hn ⊢
    generalize flag_set g DFU_GUARD_FIRMWARE_VALID = b0 at *
    revert e b0
    decide

/-- Witness for C1 (amended): `dfuIDLE`, `DNLOAD` with `WLENGTH_GT_ZERO` and
`BIT_CAN_DNLOAD`. -/
theorem C1_next_state_in_transition_table_witness :
    dfu_sm_get_next_state DFU_STATE_dfuIDLE DFU_EV_DNLOAD 17 = DFU_STATE_dfuDNLOAD_SYNC ∧
    dfu_sm_set_state_checked DFU_STATE_dfuIDLE
        (dfu_sm_get_next_state DFU_STATE_dfuIDLE DFU_EV_DNLOAD 17) =
      (0, dfu_sm_get_next_state DFU_STATE_dfuIDLE DFU_EV_DNLOAD 17) :=
  ⟨by decide,
    (C1_next_state_in_transition_table DFU_STATE_dfuIDLE DFU_EV_DNLOAD 17 (by decide)
      (by decide) (by decide) (by decide)).2⟩

/-- C2: from a valid current state `s`, `dfu_sm_set_state_checked` returns 0 and makes
`t` the current state when `t` is one of the eleven states and lies in the spec's
table entry `T[s]`; in every other case it returns -1 and leaves the state as it was. -/
theorem C2_set_state_checked_iff_spec_table (s t : Int)
    (hs : 0 ≤ s ∧ s < dfu_state_count) :
    ((0 ≤ t ∧ t < dfu_state_count ∧ t ∈ spec_T s) →
        dfu_sm_set_state_checked s t = (0, t)) ∧
    (¬ (0 ≤ t ∧ t < dfu_state_count ∧ t ∈ spec_T s) →
        dfu_sm_set_state_checked s t = (-1, s)) := by
  obtain ⟨h0, h1⟩ := hs
  simp only [dfu_state_count] at h1 ⊢
  by_cases ht : 0 ≤ t ∧ t < 11
  · obtain ⟨t0, t1⟩ := ht
    interval_cases s <;> interval_cases t <;> decide
  · have hv : (decide (t ≥ 0) && decide (t < 11)) = false := by
      by_cases h : 0 ≤ t
      · have : ¬ t < 11 := fun h' => ht ⟨h, h'⟩
        simp [this]
      · simp [h]
    constructor
    · intro h
      exact absurd ⟨h.1, h.2.1⟩ ht
    · intro _
      simp [dfu_sm_set_state_checked, hv]

/-- Witness for C2: from `dfuIDLE`, `dfuDNLOAD_SYNC` is accepted; `appIDLE` is not. -/
theorem C2_set_state_checked_iff_spec_table_witness :
    dfu_sm_set_state_checked DFU_STATE_dfuIDLE DFU_STATE_dfuDNLOAD_SYNC =
      (0, DFU_STATE_dfuDNLOAD_SYNC) ∧
    dfu_sm_set_state_checked DFU_STATE_dfuIDLE DFU_STATE_appIDLE =
      (-1, DFU_STATE_dfuIDLE) :=
  ⟨(C2_set_state_checked_iff_spec_table DFU_STATE_dfuIDLE DFU_STATE_dfuDNLOAD_SYNC
      (by decide)).1 (by decide),
    (C2_set_state_checked_iff_spec_table DFU_STATE_dfuIDLE DFU_STATE_appIDLE
      (by decide)).2 (by decide)⟩

/-- C4: for a valid state, `dfu_sm_get_next_state` returns -1 exactly in `appIDLE` for
an event other than `DETACH`, `GETSTATUS`, `GETSTATE`; in `appIDLE`, `DETACH` gives
`appDETACH` and `GETSTATUS` / `GETSTATE` give `appIDLE`; whether a transition exists
does not depend on the guard set. -/
theorem C4_no_transition_only_in_appIDLE (s : Int) (e : DFU_SM_EVENT) (g : Nat)
    (hs : 0 ≤ s ∧ s < dfu_state_count) :
    (dfu_sm_get_next_state s e g = -1 ↔
      (s = DFU_STATE_appIDLE ∧ e ≠ DFU_EV_DETACH ∧ e ≠ DFU_EV_GETSTATUS ∧
        e ≠ DFU_EV_GETSTATE)) ∧
    dfu_sm_get_next_state DFU_STATE_appIDLE DFU_EV_DETACH g = DFU_STATE_appDETACH ∧
    dfu_sm_get_next_state DFU_STATE_appIDLE DFU_EV_GETSTATUS g = DFU_STATE_appIDLE ∧
    dfu_sm_get_next_state DFU_STATE_appIDLE DFU_EV_GETSTATE g = DFU_STATE_appIDLE ∧
    (∀ g' : Nat, dfu_sm_get_next_state s e g' = -1 ↔ dfu_sm_get_next_state s e g = -1) := by
  have key : ∀ g : Nat, (dfu_sm_get_next_state s e g = -1 ↔
      (s = DFU_STATE_appIDLE ∧ e ≠ DFU_EV_DETACH ∧ e ≠ DFU_EV_GETSTATUS ∧
        e ≠ DFU_EV_GETSTATE)) := by
    intro g
    obtain ⟨h0, h1⟩ := hs
    simp only [dfu_state_count] at h1
    interval_cases s
    · simp only [next_state_in_appIDLE, sm_appIDLE, reset_case] 
      generalize flag_set g DFU_GUARD_FIRMWARE_VALID = b0 at *
      revert e b0
      decide
    · simp only [next_state_in_appDETACH, sm_appDETACH, reset_case] 
      generalize flag_set g DFU_GUARD_FIRMWARE_VALID = b0 at *
      generalize flag_set g DFU_GUARD_DETACH_TIMER_ELAPSED = b1 at *
      revert e b0 b1
      decide
    · simp only [next_state_in_dfuIDLE, sm_dfuIDLE, reset_case] 
      generalize flag_set g DFU_GUARD_FIRMWARE_VALID = b0 at *
      generalize flag_set g DFU_GUARD_WLENGTH_GT_ZERO = b1 at *
      generalize flag_set g DFU_GUARD_BIT_CAN_DNLOAD = b2 at *
      generalize flag_set g DFU_GUARD_BIT_CAN_UPLOAD = b3 at *
      revert e b0 b1 b2 b3
      decide
    · simp only [next_state_in_dfuDNLOAD_SYNC, sm_dfuDNLOAD_SYNC, reset_case] 
      generalize flag_set g DFU_GUARD_FIRMWARE_VALID = b0 at *
      generalize flag_set g DFU_GUARD_BLOCK_IN_PROGRESS = b1 at *
      revert e b0 b1
      decide
    · simp only [next_state_in_dfuDNBUSY, sm_dfuDNBUSY, reset_case] 
      generalize flag_set g DFU_GUARD_FIRMWARE_VALID = b0 at *
      revert e b0
      decide
    · simp only [next_state_in_dfuDNLOAD_IDLE, sm_dfuDNLOAD_IDLE, reset_case] 
      generalize flag_set g DFU_GUARD_FIRMWARE_VALID = b0 at *
      generalize flag_set g DFU_GUARD_WLENGTH_GT_ZERO = b1 at *
      generalize flag_set g DFU_GUARD_DEV_DISAGREES_DNLOAD_END = b2 at *
      revert e b0 b1 b2
      decide
    · simp only [next_state_in_dfuMANIFEST_SYNC, sm_dfuMANIFEST_SYNC, reset_case] 
      generalize flag_set g DFU_GUARD_FIRMWARE_VALID = b0 at *
      generalize flag_set g DFU_GUARD_MANIFESTATION_IN_PROGRESS = b1 at *
      generalize flag_set g DFU_GUARD_BIT_MANIFESTATION_TOLERANT = b2 at *
      revert e b0 b1 b2
      decide
    · simp only [next_state_in_dfuMANIFEST, sm_dfuMANIFEST, reset_case] 
      generalize flag_set g DFU_GUARD_FIRMWARE_VALID = b0 at *
      generalize flag_set g DFU_GUARD_BIT_MANIFESTATION_TOLERANT = b1 at *
      revert e b0 b1
      decide
    · simp only [next_state_in_dfuMANIFEST_WAIT_RESET, sm_dfuMANIFEST_WAIT_RESET, reset_case] 
      generalize flag_set g DFU_GUARD_FIRMWARE_VALID = b0 at *
      revert e b0
      decide
    · simp only [next_state_in_dfuUPLOAD_IDLE, sm_dfuUPLOAD_IDLE, reset_case] 
      generalize flag_set g DFU_GUARD_FIRMWARE_VALID = b0 at *
      generalize flag_set g DFU_GUARD_WLENGTH_GT_ZERO = b1 at *
      generalize flag_set g DFU_GUARD_UPLOAD_SHORT_FRAME = b2 at *
      revert e b0 b1 b2
      decide
    · simp only [next_state_in_dfuERROR, sm_dfuERROR, reset_case] 
      generalize flag_set g DFU_GUARD_FIRMWARE_VALID = b0 at *
      revert e b0
      decide
  refine ⟨key g, ?_, ?_, ?_, fun g' => (key g').trans (key g).symm⟩
  · rw [next_state_in_appIDLE]; rfl
  · rw [next_state_in_appIDLE]; rfl
  · rw [next_state_in_appIDLE]; rfl

/-- Witness for C4: `appIDLE` has no transition for `DNLOAD`, `dfuIDLE` has one. -/
theorem C4_no_transition_only_in_appIDLE_witness :
    dfu_sm_get_next_state DFU_STATE_appIDLE DFU_EV_DNLOAD 17 = -1 ∧
    dfu_sm_get_next_state DFU_STATE_dfuIDLE DFU_EV_DNLOAD 17 ≠ -1 :=
  ⟨(C4_no_transition_only_in_appIDLE DFU_STATE_appIDLE DFU_EV_DNLOAD 17 (by decide)).1.mpr
      (by decide),
    fun h => absurd
      ((C4_no_transition_only_in_appIDLE DFU_STATE_dfuIDLE DFU_EV_DNLOAD 17
        (by decide)).1.mp h).1 (by decide)⟩

/-- C5: in `dfuIDLE`, `DNLOAD` leads to `dfuDNLOAD_SYNC` exactly when the guards contain
both `WLENGTH_GT_ZERO` and `BIT_CAN_DNLOAD` and to `dfuERROR` otherwise; `UPLOAD` leads
to `dfuUPLOAD_IDLE` exactly when they contain `BIT_CAN_UPLOAD` and to `dfuERROR`
otherwise; `DNLOAD` with `WLENGTH_GT_ZERO` alone gives `dfuERROR`. -/
theorem C5_dfuIDLE_dnload_upload (g : Nat) :
    dfu_sm_get_next_state DFU_STATE_dfuIDLE DFU_EV_DNLOAD g =
      (if flag_set g DFU_GUARD_WLENGTH_GT_ZERO = true ∧
          flag_set g DFU_GUARD_BIT_CAN_DNLOAD = true
        then DFU_STATE_dfuDNLOAD_SYNC else DFU_STATE_dfuERROR) ∧
    dfu_sm_get_next_state DFU_STATE_dfuIDLE DFU_EV_UPLOAD g =
      (if flag_set g DFU_GUARD_BIT_CAN_UPLOAD = true
        then DFU_STATE_dfuUPLOAD_IDLE else DFU_STATE_dfuERROR) ∧
    dfu_sm_get_next_state DFU_STATE_dfuIDLE DFU_EV_DNLOAD DFU_GUARD_WLENGTH_GT_ZERO =
      DFU_STATE_dfuERROR := by
  refine ⟨?_, ?_, by decide⟩
  · simp only [next_state_in_dfuIDLE, sm_dfuIDLE]
    generalize flag_set g DFU_GUARD_WLENGTH_GT_ZERO = b0
    generalize flag_set g DFU_GUARD_BIT_CAN_DNLOAD = b1
    revert b0 b1
    decide
  · simp only [next_state_in_dfuIDLE, sm_dfuIDLE]
    generalize flag_set g DFU_GUARD_BIT_CAN_UPLOAD = b0
    revert b0
    decide

/-- C6: in `dfuDNLOAD_IDLE`, `DNLOAD` leads to `dfuDNLOAD_SYNC` if the guards contain
`WLENGTH_GT_ZERO`; otherwise to `dfuERROR` if they contain `DEV_DISAGREES_DNLOAD_END`
and to `dfuMANIFEST_SYNC` if they do not. -/
theorem C6_dfuDNLOAD_IDLE_dnload (g : Nat) :
    dfu_sm_get_next_state DFU_STATE_dfuDNLOAD_IDLE DFU_EV_DNLOAD g =
      (if flag_set g DFU_GUARD_WLENGTH_GT_ZERO = true then DFU_STATE_dfuDNLOAD_SYNC
        else if flag_set g DFU_GUARD_DEV_DISAGREES_DNLOAD_END = true then DFU_STATE_dfuERROR
        else DFU_STATE_dfuMANIFEST_SYNC) := by
  simp only [next_state_in_dfuDNLOAD_IDLE, sm_dfuDNLOAD_IDLE]
  generalize flag_set g DFU_GUARD_WLENGTH_GT_ZERO = b0
  generalize flag_set g DFU_GUARD_DEV_DISAGREES_DNLOAD_END = b1
  revert b0 b1
  decide

/-- C7: in `dfuMANIFEST_SYNC`, `GETSTATUS` leads to `dfuMANIFEST` if the guards contain
`MANIFESTATION_IN_PROGRESS`; otherwise to `dfuIDLE` if they contain
`BIT_MANIFESTATION_TOLERANT`; otherwise to `dfuERROR`. -/
theorem C7_dfuMANIFEST_SYNC_getstatus (g : Nat) :
    dfu_sm_get_next_state DFU_STATE_dfuMANIFEST_SYNC DFU_EV_GETSTATUS g =
      (if flag_set g DFU_GUARD_MANIFESTATION_IN_PROGRESS = true then DFU_STATE_dfuMANIFEST
        else if flag_set g DFU_GUARD_BIT_MANIFESTATION_TOLERANT = true then DFU_STATE_dfuIDLE
        else DFU_STATE_dfuERROR) := by
  simp only [next_state_in_dfuMANIFEST_SYNC, sm_dfuMANIFEST_SYNC]
  generalize flag_set g DFU_GUARD_MANIFESTATION_IN_PROGRESS = b0
  generalize flag_set g DFU_GUARD_BIT_MANIFESTATION_TOLERANT = b1
  revert b0 b1
  decide

/-- C8: in `dfuUPLOAD_IDLE`, `UPLOAD` leads to `dfuIDLE` when the guards contain
`UPLOAD_SHORT_FRAME`, stays in `dfuUPLOAD_IDLE` when they contain `WLENGTH_GT_ZERO` and
not `UPLOAD_SHORT_FRAME`, and leads to `dfuERROR` when they contain neither flag;
`UPLOAD` with `UPLOAD_SHORT_FRAME` alone gives `dfuIDLE`. -/
theorem C8_dfuUPLOAD_IDLE_upload (g : Nat) :
    dfu_sm_get_next_state DFU_STATE_dfuUPLOAD_IDLE DFU_EV_UPLOAD g =
      (if flag_set g DFU_GUARD_UPLOAD_SHORT_FRAME = true then DFU_STATE_dfuIDLE
        else if flag_set g DFU_GUARD_WLENGTH_GT_ZERO = true then DFU_STATE_dfuUPLOAD_IDLE
        else DFU_STATE_dfuERROR) ∧
    dfu_sm_get_next_state DFU_STATE_dfuUPLOAD_IDLE DFU_EV_UPLOAD
      DFU_GUARD_UPLOAD_SHORT_FRAME = DFU_STATE_dfuIDLE := by
  refine ⟨?_, by decide⟩
  simp only [next_state_in_dfuUPLOAD_IDLE, sm_dfuUPLOAD_IDLE]
  generalize flag_set g DFU_GUARD_UPLOAD_SHORT_FRAME = b0
  generalize flag_set g DFU_GUARD_WLENGTH_GT_ZERO = b1
  revert b0 b1
  decide

/-- C9: in each of the nine DFU-mode states, for `POWER_RESET` and `USB_RESET`, the next
state is `appIDLE` if the guards contain `FIRMWARE_VALID` and `dfuERROR` otherwise,
whatever the other guard flags are. -/
theorem C9_reset_in_dfu_mode (s : Int) (e : DFU_SM_EVENT) (g : Nat)
    (hs : DFU_STATE_dfuIDLE ≤ s ∧ s ≤ DFU_STATE_dfuERROR)
    (he : e = DFU_EV_POWER_RESET ∨ e = DFU_EV_USB_RESET) :
    dfu_sm_get_next_state s e g =
      (if flag_set g DFU_GUARD_FIRMWARE_VALID = true then DFU_STATE_appIDLE
        else DFU_STATE_dfuERROR) ∧
    (∀ g' : Nat, flag_set g' DFU_GUARD_FIRMWARE_VALID = flag_set g DFU_GUARD_FIRMWARE_VALID →
      dfu_sm_get_next_state s e g' = dfu_sm_get_next_state s e g) := by
  have key : ∀ g : Nat, dfu_sm_get_next_state s e g =
      (if flag_set g DFU_GUARD_FIRMWARE_VALID = true then DFU_STATE_appIDLE
        else DFU_STATE_dfuERROR) := by
    intro g
    obtain ⟨h0, h1⟩ := hs
    simp only [DFU_STATE_dfuIDLE] at h0
    simp only [DFU_STATE_dfuERROR] at h1
    interval_cases s
    · simp only [next_state_in_dfuIDLE, sm_dfuIDLE, reset_case] 
      generalize flag_set g DFU_GUARD_FIRMWARE_VALID = b0 at *
      generalize flag_set g DFU_GUARD_WLENGTH_GT_ZERO = b1 at *
      generalize flag_set g DFU_GUARD_BIT_CAN_DNLOAD = b2 at *
      generalize flag_set g DFU_GUARD_BIT_CAN_UPLOAD = b3 at *
      revert e b0 b1 b2 b3
      decide
    · simp only [next_state_in_dfuDNLOAD_SYNC, sm_dfuDNLOAD_SYNC, reset_case] 
      generalize flag_set g DFU_GUARD_FIRMWARE_VALID = b0 at *
      generalize flag_set g DFU_GUARD_BLOCK_IN_PROGRESS = b1 at *
      revert e b0 b1
      decide
    · simp only [next_state_in_dfuDNBUSY, sm_dfuDNBUSY, reset_case] 
      generalize flag_set g DFU_GUARD_FIRMWARE_VALID = b0 at *
      revert e b0
      decide
    · simp only [next_state_in_dfuDNLOAD_IDLE, sm_dfuDNLOAD_IDLE, reset_case] 
      generalize flag_set g DFU_GUARD_FIRMWARE_VALID = b0 at *
      generalize flag_set g DFU_GUARD_WLENGTH_GT_ZERO = b1 at *
      generalize flag_set g DFU_GUARD_DEV_DISAGREES_DNLOAD_END = b2 at *
      revert e b0 b1 b2
      decide
    · simp only [next_state_in_dfuMANIFEST_SYNC, sm_dfuMANIFEST_SYNC, reset_case] 
      generalize flag_set g DFU_GUARD_FIRMWARE_VALID = b0 at *
      generalize flag_set g DFU_GUARD_MANIFESTATION_IN_PROGRESS = b1 at *
      generalize flag_set g DFU_GUARD_BIT_MANIFESTATION_TOLERANT = b2 at *
      revert e b0 b1 b2
      decide
    · simp only [next_state_in_dfuMANIFEST, sm_dfuMANIFEST, reset_case] 
      generalize flag_set g DFU_GUARD_FIRMWARE_VALID = b0 at *
      generalize flag_set g DFU_GUARD_BIT_MANIFESTATION_TOLERANT = b1 at *
      revert e b0 b1
      decide
    · simp only [next_state_in_dfuMANIFEST_WAIT_RESET, sm_dfuMANIFEST_WAIT_RESET, reset_case] 
      generalize flag_set g DFU_GUARD_FIRMWARE_VALID = b0 at *
      revert e b0
      decide
    · simp only [next_state_in_dfuUPLOAD_IDLE, sm_dfuUPLOAD_IDLE, reset_case] 
      generalize flag_set g DFU_GUARD_FIRMWARE_VALID = b0 at *
      generalize flag_set g DFU_GUARD_WLENGTH_GT_ZERO = b1 at *
      generalize flag_set g DFU_GUARD_UPLOAD_SHORT_FRAME = b2 at *
      revert e b0 b1 b2
      decide
    · simp only [next_state_in_dfuERROR, sm_dfuERROR, reset_case] 
      generalize flag_set g DFU_GUARD_FIRMWARE_VALID = b0 at *
      revert e b0
      decide
  refine ⟨key g, fun g' h => ?_⟩
  rw [key g', key g, h]

/-- Witness for C9: `dfuMANIFEST_WAIT_RESET`, `USB_RESET`, guards `FIRMWARE_VALID`. -/
theorem C9_reset_in_dfu_mode_witness :
    dfu_sm_get_next_state DFU_STATE_dfuMANIFEST_WAIT_RESET DFU_EV_USB_RESET
      DFU_GUARD_FIRMWARE_VALID = DFU_STATE_appIDLE :=
  (C9_reset_in_dfu_mode DFU_STATE_dfuMANIFEST_WAIT_RESET DFU_EV_USB_RESET
    DFU_GUARD_FIRMWARE_VALID (by decide) (by decide)).1.trans (by decide)

/-- C10: in `appDETACH`, `GETSTATUS` and `GETSTATE` stay in `appDETACH`; `POWER_RESET`
leads to `dfuIDLE`; `USB_RESET` leads to `appIDLE` when the guards contain
`DETACH_TIMER_ELAPSED` and to `dfuIDLE` when they do not; every other event leads to
`appIDLE`. -/
theorem C10_appDETACH_transitions (e : DFU_SM_EVENT) (g : Nat) :
    dfu_sm_get_next_state DFU_STATE_appDETACH e g =
      (if e = DFU_EV_GETSTATUS ∨ e = DFU_EV_GETSTATE then DFU_STATE_appDETACH
        else if e = DFU_EV_POWER_RESET then DFU_STATE_dfuIDLE
        else if e = DFU_EV_USB_RESET then
          (if flag_set g DFU_GUARD_DETACH_TIMER_ELAPSED = true then DFU_STATE_appIDLE
            else DFU_STATE_dfuIDLE)
        else DFU_STATE_appIDLE) := by
  simp only [next_state_in_appDETACH, sm_appDETACH]
  generalize flag_set g DFU_GUARD_DETACH_TIMER_ELAPSED = b0
  revert e b0
  decide

/-! ## Claims on the session layer -/

/-- C3: whenever `dfu_detach`, `dfu_download`, `dfu_upload`, `dfu_clear_status`,
`dfu_get_state`, `dfu_abort`, `dfu_usb_reset` or `dfu_status_poll_timeout` returns
success (a non-negative value), the tracked state afterwards is the value the transition
function gives for the state before the call, the operation's event and any guard set
holding exactly the flags derived from the call; and whenever `dfu_get_status` returns
success the tracked state is the `bState` byte the device reported. This holds for every
handle, starting state and reply stream. -/
theorem C3_session_state_follows_transition (w : World) :
    (∀ (timeout g : Nat), 0 ≤ (dfu_detach w timeout).1 → guards_are g [] →
      (dfu_detach w timeout).2.dfu_state =
        dfu_sm_get_next_state w.dfu_state DFU_EV_DETACH g) ∧
    (∀ (length : Nat) (data : Option (List Nat)) (g : Nat),
      0 ≤ (dfu_download w length data).1 →
      guards_are g
        ((if 0 < length then [DFU_GUARD_WLENGTH_GT_ZERO] else []) ++
          (if w.handle.func_dfu.bmAttributes &&& USB_DFU_CAN_DOWNLOAD ≠ 0 then
            [DFU_GUARD_BIT_CAN_DNLOAD] else [])) →
      (dfu_download w length data).2.dfu_state =
        dfu_sm_get_next_state w.dfu_state DFU_EV_DNLOAD g) ∧
    (∀ (length : Nat) (data : Option (Nat → Nat)) (g : Nat),
      0 ≤ (dfu_upload w length data).1 →
      guards_are g
        ((if w.handle.func_dfu.bmAttributes &&& USB_DFU_CAN_UPLOAD ≠ 0 then
            [DFU_GUARD_BIT_CAN_UPLOAD] else []) ++
          (if 0 < length then [DFU_GUARD_WLENGTH_GT_ZERO] else []) ++
          (if (dfu_upload w length data).1 < length then [DFU_GUARD_UPLOAD_SHORT_FRAME]
            else [])) →
      (dfu_upload w length data).2.2.dfu_state =
        dfu_sm_get_next_state w.dfu_state DFU_EV_UPLOAD g) ∧
    (∀ g : Nat, 0 ≤ (dfu_clear_status w).1 → guards_are g [] →
      (dfu_clear_status w).2.dfu_state =
        dfu_sm_get_next_state w.dfu_state DFU_EV_CLRSTATUS g) ∧
    (∀ g : Nat, 0 ≤ (dfu_get_state w).1 → guards_are g [] →
      (dfu_get_state w).2.dfu_state =
        dfu_sm_get_next_state w.dfu_state DFU_EV_GETSTATE g) ∧
    (∀ g : Nat, 0 ≤ (dfu_abort w).1 → guards_are g [] →
      (dfu_abort w).2.dfu_state = dfu_sm_get_next_state w.dfu_state DFU_EV_ABORT g) ∧
    (∀ g : Nat, 0 ≤ (dfu_usb_reset w).1 → guards_are g [] →
      (dfu_usb_reset w).2.dfu_state =
        dfu_sm_get_next_state w.dfu_state DFU_EV_USB_RESET g) ∧
    (∀ (poll_timeout g : Nat), 0 ≤ (dfu_status_poll_timeout w poll_timeout).1 →
      guards_are g
        (if w.handle.func_dfu.bmAttributes &&& USB_DFU_MANIFEST_TOL ≠ 0 then
          [DFU_GUARD_BIT_MANIFESTATION_TOLERANT] else []) →
      (dfu_status_poll_timeout w poll_timeout).2.dfu_state =
        dfu_sm_get_next_state w.dfu_state DFU_EV_STATUS_POLL_TIMEOUT g) ∧
    (∀ status : dfu_status, 0 ≤ (dfu_get_status w status).1 →
      (dfu_get_status w status).2.2.dfu_state =
        ((dfu_get_status w status).2.1.bState : Int) ∧
      (dfu_get_status w status).2.1.bState = buf_byte (usb_reply w).buffer 4) := by
  have empty : guards_are 0 [] := by decide
  refine ⟨?_, ?_, ?_, ?_, ?_, ?_, ?_, ?_, ?_⟩
  · intro timeout g h hg
    rw [detach_state w timeout h]
    exact get_next_state_of_guards_are _ _ _ _ _ empty hg
  · intro length data g h hg
    rw [download_state w length data h]
    exact get_next_state_of_guards_are _ _ _ _ _ (download_guards_are w length) hg
  · intro length data g h hg
    obtain ⟨g0, hg0, hst⟩ := upload_state w length data h
    rw [hst]
    exact get_next_state_of_guards_are _ _ _ _ _ hg0 hg
  · intro g h hg
    rw [clear_status_state w h]
    exact get_next_state_of_guards_are _ _ _ _ _ empty hg
  · intro g h hg
    rw [get_state_state w h]
    exact get_next_state_of_guards_are _ _ _ _ _ empty hg
  · intro g h hg
    rw [abort_state w h]
    exact get_next_state_of_guards_are _ _ _ _ _ empty hg
  · intro g h hg
    rw [usb_reset_state w h]
    exact get_next_state_of_guards_are _ _ _ _ _ empty hg
  · intro poll_timeout g h hg
    rw [status_poll_timeout_state w poll_timeout h]
    exact get_next_state_of_guards_are _ _ _ _ _ (status_poll_timeout_guards_are w) hg
  · intro status h
    exact get_status_state w status h

/-- Witness for C3: a download of four bytes in `dfuIDLE` to a device that can download
succeeds and leaves `dfuDNLOAD_SYNC`, the next state for `DNLOAD` with
`WLENGTH_GT_ZERO` and `BIT_CAN_DNLOAD`. -/
theorem C3_session_state_follows_transition_witness :
    0 ≤ (dfu_download (sample_world DFU_STATE_dfuIDLE USB_DFU_CAN_DOWNLOAD
      (constant_replies 4 0)) 4 (some [1, 2, 3, 4])).1 ∧
    (dfu_download (sample_world DFU_STATE_dfuIDLE USB_DFU_CAN_DOWNLOAD
      (constant_replies 4 0)) 4 (some [1, 2, 3, 4])).2.dfu_state =
        DFU_STATE_dfuDNLOAD_SYNC :=
  ⟨by decide,
    ((C3_session_state_follows_transition (sample_world DFU_STATE_dfuIDLE
      USB_DFU_CAN_DOWNLOAD (constant_replies 4 0))).2.1 4 (some [1, 2, 3, 4])
      (DFU_GUARD_WLENGTH_GT_ZERO ||| DFU_GUARD_BIT_CAN_DNLOAD) (by decide)
      (by decide)).trans (by decide)⟩

/-! ## Claims on the state machine, continued -/

/-- C11: in `dfuERROR`, `CLRSTATUS` leads to `dfuIDLE`; `GETSTATUS`, `GETSTATE` and every
event other than `CLRSTATUS`, `POWER_RESET` and `USB_RESET` leave the machine in
`dfuERROR` (the resets follow the reset rows); so a class request leaves the error state
exactly when it is `CLRSTATUS`. -/
theorem C11_dfuERROR_transitions (e : DFU_SM_EVENT) (g : Nat) :
    dfu_sm_get_next_state DFU_STATE_dfuERROR e g =
      (if e = DFU_EV_CLRSTATUS then DFU_STATE_dfuIDLE
        else if e = DFU_EV_POWER_RESET ∨ e = DFU_EV_USB_RESET then
          (if flag_set g DFU_GUARD_FIRMWARE_VALID = true then DFU_STATE_appIDLE
            else DFU_STATE_dfuERROR)
        else DFU_STATE_dfuERROR) ∧
    dfu_sm_get_next_state DFU_STATE_dfuERROR DFU_EV_GETSTATUS g = DFU_STATE_dfuERROR ∧
    dfu_sm_get_next_state DFU_STATE_dfuERROR DFU_EV_GETSTATE g = DFU_STATE_dfuERROR ∧
    ((e ∈ class_requests ∧ dfu_sm_get_next_state DFU_STATE_dfuERROR e g ≠ DFU_STATE_dfuERROR)
      ↔ e = DFU_EV_CLRSTATUS) := by
  simp only [next_state_in_dfuERROR, sm_dfuERROR, reset_case]
  generalize flag_set g DFU_GUARD_FIRMWARE_VALID = b0
  revert e b0
  decide

/-- C12: in `dfuMANIFEST`, `STATUS_POLL_TIMEOUT` leads to `dfuMANIFEST_SYNC` if the
guards contain `BIT_MANIFESTATION_TOLERANT` and to `dfuMANIFEST_WAIT_RESET` otherwise;
every event other than `STATUS_POLL_TIMEOUT`, `POWER_RESET` and `USB_RESET` leads to
`dfuERROR` (the resets follow the reset rows). Spec scenario F: the tolerant poll
timeout gives `dfuMANIFEST_SYNC`, and `GETSTATUS` with `BIT_MANIFESTATION_TOLERANT` alone
then gives `dfuIDLE`. -/
theorem C12_dfuMANIFEST_transitions (e : DFU_SM_EVENT) (g : Nat) :
    dfu_sm_get_next_state DFU_STATE_dfuMANIFEST e g =
      (if e = DFU_EV_STATUS_POLL_TIMEOUT then
          (if flag_set g DFU_GUARD_BIT_MANIFESTATION_TOLERANT = true then
            DFU_STATE_dfuMANIFEST_SYNC else DFU_STATE_dfuMANIFEST_WAIT_RESET)
        else if e = DFU_EV_POWER_RESET ∨ e = DFU_EV_USB_RESET then
          (if flag_set g DFU_GUARD_FIRMWARE_VALID = true then DFU_STATE_appIDLE
            else DFU_STATE_dfuERROR)
        else DFU_STATE_dfuERROR) ∧
    dfu_sm_get_next_state DFU_STATE_dfuMANIFEST DFU_EV_STATUS_POLL_TIMEOUT
      DFU_GUARD_BIT_MANIFESTATION_TOLERANT = DFU_STATE_dfuMANIFEST_SYNC ∧
    dfu_sm_get_next_state DFU_STATE_dfuMANIFEST_SYNC DFU_EV_GETSTATUS
      DFU_GUARD_BIT_MANIFESTATION_TOLERANT = DFU_STATE_dfuIDLE := by
  refine ⟨?_, by decide, by decide⟩
  simp only [next_state_in_dfuMANIFEST, sm_dfuMANIFEST, reset_case]
  generalize flag_set g DFU_GUARD_FIRMWARE_VALID = b0
  generalize flag_set g DFU_GUARD_BIT_MANIFESTATION_TOLERANT = b1
  revert e b0 b1
  decide

/-- Running a concatenation: the second part starts where the first one ended. -/
theorem sm_run_append (s : Int) (a b : List (DFU_SM_EVENT × Nat)) (la lb : List Int)
    (ha : sm_run s a = some la) (hb : sm_run (la.getLastD s) b = some lb) :
    sm_run s (a ++ b) = some (la ++ lb) := by
  induction a generalizing s la with
  | nil =>
    simp only [sm_run, Option.some.injEq] at ha
    subst ha
    simpa using hb
  | cons ev evs ih =>
    simp only [sm_run] at ha
    cases h1 : sm_step s ev with
    | none => simp [h1] at ha
    | some s1 =>
      simp only [h1] at ha
      cases h2 : sm_run s1 evs with
      | none => simp [h2] at ha
      | some l =>
        simp only [h2, Option.some.injEq] at ha
        subst ha
        have hb' : sm_run (l.getLastD s1) b = some lb := by
          cases l with
          | nil => simpa using hb
          | cons x xs => simpa using hb
        have := ih s1 l h2 hb'
        simp [sm_run, h1, this]

/-- The polling of one block, from `dfuDNLOAD_SYNC`, visits the claimed states. -/
theorem block_polls_run (k : Nat) :
    sm_run DFU_STATE_dfuDNLOAD_SYNC (block_polls k) = some (block_poll_states k) := by
  induction k with
  | zero => decide
  | succ k ih =>
    have h1 : sm_step DFU_STATE_dfuDNLOAD_SYNC
        (DFU_EV_GETSTATUS, DFU_GUARD_BLOCK_IN_PROGRESS) = some DFU_STATE_dfuDNBUSY := by
      decide
    have h2 : sm_step DFU_STATE_dfuDNBUSY (DFU_EV_STATUS_POLL_TIMEOUT, 0) =
        some DFU_STATE_dfuDNLOAD_SYNC := by decide
    simp only [block_polls, block_poll_states, sm_run, h1, h2, ih]

/-- The polling of a block ends in `dfuDNLOAD_IDLE`. -/
theorem block_poll_states_last (k : Nat) (l : List Int) (d : Int) :
    (l ++ block_poll_states k).getLastD d = DFU_STATE_dfuDNLOAD_IDLE := by
  induction k generalizing l with
  | zero => simp [block_poll_states]
  | succ k ih =>
    have := ih (l ++ [DFU_STATE_dfuDNBUSY, DFU_STATE_dfuDNLOAD_SYNC])
    simpa [block_poll_states] using this

/-- The blocks of a happy path, started in `dfuIDLE` or `dfuDNLOAD_IDLE`, visit the
claimed states. -/
theorem happy_blocks_run (ks : List Nat) (s : Int)
    (hs : s = DFU_STATE_dfuIDLE ∨ s = DFU_STATE_dfuDNLOAD_IDLE) :
    sm_run s (happy_blocks ks) = some (happy_block_states ks) := by
  induction ks generalizing s with
  | nil => rfl
  | cons k ks ih =>
    have h1 : sm_step s (DFU_EV_DNLOAD, DFU_GUARD_WLENGTH_GT_ZERO ||| DFU_GUARD_BIT_CAN_DNLOAD)
        = some DFU_STATE_dfuDNLOAD_SYNC := by
      rcases hs with h | h <;> subst h <;> decide
    have hblock : sm_run s ((DFU_EV_DNLOAD,
        DFU_GUARD_WLENGTH_GT_ZERO ||| DFU_GUARD_BIT_CAN_DNLOAD) :: block_polls k) =
        some (DFU_STATE_dfuDNLOAD_SYNC :: block_poll_states k) := by
      simp only [sm_run, h1, block_polls_run]
    have hlast : (DFU_STATE_dfuDNLOAD_SYNC :: block_poll_states k).getLastD s =
        DFU_STATE_dfuDNLOAD_IDLE := block_poll_states_last k [DFU_STATE_dfuDNLOAD_SYNC] s
    have hrest := ih DFU_STATE_dfuDNLOAD_IDLE (Or.inr rfl)
    rw [← hlast] at hrest
    exact sm_run_append s _ _ _ _ hblock hrest

/-- The states of a non-empty sequence of blocks end in `dfuDNLOAD_IDLE`. -/
theorem happy_block_states_last (ks : List Nat) (hks : ks ≠ []) (l : List Int) (d : Int) :
    (l ++ happy_block_states ks).getLastD d = DFU_STATE_dfuDNLOAD_IDLE := by
  induction ks generalizing l with
  | nil => exact absurd rfl hks
  | cons k ks ih =>
    cases ks with
    | nil =>
      have := block_poll_states_last k (l ++ [DFU_STATE_dfuDNLOAD_SYNC]) d
      simpa [happy_block_states] using this
    | cons k2 ks2 =>
      have h := ih (by simp) (l ++ (DFU_STATE_dfuDNLOAD_SYNC :: block_poll_states k))
      have e : l ++ happy_block_states (k :: k2 :: ks2) =
          l ++ (DFU_STATE_dfuDNLOAD_SYNC :: block_poll_states k) ++
            happy_block_states (k2 :: ks2) := by
        simp [happy_block_states]
      rw [e]
      exact h

/-- C13: from `dfuIDLE`, committing every predicted state with
`dfu_sm_set_state_checked`, the happy-path download with `n >= 1` blocks and `ks[i]`
busy polls in block `i` has every transition defined and every commit accepted, visits
`dfuDNLOAD_SYNC`, `(dfuDNBUSY, dfuDNLOAD_SYNC)` `ks[i]` times and `dfuDNLOAD_IDLE` per
block, and ends in `dfuMANIFEST_SYNC`. -/
theorem C13_happy_path_download (ks : List Nat) (hks : ks ≠ []) :
    sm_run DFU_STATE_dfuIDLE (happy_path_events ks) = some (happy_path_states ks) ∧
    (happy_path_states ks).getLast? = some DFU_STATE_dfuMANIFEST_SYNC := by
  constructor
  · have hblocks := happy_blocks_run ks DFU_STATE_dfuIDLE (Or.inl rfl)
    have hfinal : sm_run ((happy_block_states ks).getLastD DFU_STATE_dfuIDLE)
        [(DFU_EV_DNLOAD, 0)] = some [DFU_STATE_dfuMANIFEST_SYNC] := by
      have := happy_block_states_last ks hks [] DFU_STATE_dfuIDLE
      rw [List.nil_append] at this
      rw [this]
      decide
    exact sm_run_append _ _ _ _ _ hblocks hfinal
  · simp [happy_path_states]

/-- Witness for C13: one block with one busy poll is spec scenario A. -/
theorem C13_happy_path_download_witness :
    happy_path_events [1] =
      [(DFU_EV_DNLOAD, DFU_GUARD_WLENGTH_GT_ZERO ||| DFU_GUARD_BIT_CAN_DNLOAD),
        (DFU_EV_GETSTATUS, DFU_GUARD_BLOCK_IN_PROGRESS), (DFU_EV_STATUS_POLL_TIMEOUT, 0),
        (DFU_EV_GETSTATUS, 0), (DFU_EV_DNLOAD, 0)] ∧
    sm_run DFU_STATE_dfuIDLE (happy_path_events [1]) =
      some [DFU_STATE_dfuDNLOAD_SYNC, DFU_STATE_dfuDNBUSY, DFU_STATE_dfuDNLOAD_SYNC,
        DFU_STATE_dfuDNLOAD_IDLE, DFU_STATE_dfuMANIFEST_SYNC] :=
  ⟨rfl, (C13_happy_path_download [1] (by decide)).1⟩

/-- C14, at the failing input: in `dfuMANIFEST_WAIT_RESET` the transition function
returns a next state for `GETSTATUS` (the state itself), for every guard set, yet
`dfu_sm_state_has_event` returns 0. -/
theorem C14_has_event_zero_where_transition_defined :
    dfu_sm_state_has_event DFU_STATE_dfuMANIFEST_WAIT_RESET DFU_EV_GETSTATUS = 0 ∧
    (∀ g : Nat, dfu_sm_get_next_state DFU_STATE_dfuMANIFEST_WAIT_RESET DFU_EV_GETSTATUS g =
      DFU_STATE_dfuMANIFEST_WAIT_RESET) := by
  refine ⟨by decide, fun g => ?_⟩
  rw [next_state_in_dfuMANIFEST_WAIT_RESET]
  rfl

/-! ## Claims on the session layer, continued -/

/-- With the sentinel in `usb_timeout`, the eight operations that start with
`_dfu_verify_init` return an error and leave the world (tracked state, transaction
counter, trace of USB calls) as it was. -/
theorem uninitialized_rejected (w : World) (h : _dfu_verify_init w ≠ 0) :
    (∀ length data, dfu_download w length data = (-1, w)) ∧
    (∀ length data, dfu_upload w length data = (-1, data, w)) ∧
    (∀ status, dfu_get_status w status = (-1, status, w)) ∧
    dfu_clear_status w = (-1, w) ∧
    dfu_get_state w = (-1, w) ∧
    dfu_abort w = (-1, w) ∧
    dfu_usb_reset w = (-1, w) ∧
    (∀ t, dfu_status_poll_timeout w t = (-1, w)) := by
  have h' : (0 : Int) ≠ _dfu_verify_init w := fun e => h e.symm
  refine ⟨?_, ?_, ?_, ?_, ?_, ?_, ?_, ?_⟩
  · intro length data
    unfold dfu_download
    rw [if_pos h']
  · intro length data
    unfold dfu_upload
    rw [if_pos h']
  · intro status
    unfold dfu_get_status
    rw [if_pos h']
  · unfold dfu_clear_status
    rw [if_pos h']
  · unfold dfu_get_state
    rw [if_pos h']
  · unfold dfu_abort
    rw [if_pos h']
  · unfold dfu_usb_reset
    rw [if_pos h']
  · intro t
    unfold dfu_status_poll_timeout
    rw [if_pos h']

/-- C15, at the failing input: on the handle `dfu_init` leaves for timeout 0 (sentinel in
`usb_timeout`, state `appIDLE`), `dfu_detach` returns the error -1 and keeps the
tracked state and the transaction counter, but it has issued the DETACH request: the
trace holds the control transfer of the `detach` handler. -/
theorem C15_detach_issues_request_on_uninitialized_handle :
    uninitialized_world.handle.usb_timeout = INVALID_DFU_TIMEOUT ∧
    _dfu_verify_init uninitialized_world = -1 ∧
    uninitialized_world.dfu_state = DFU_STATE_appIDLE ∧
    uninitialized_world.trace = [] ∧
    (dfu_detach uninitialized_world 1000).1 = -1 ∧
    (dfu_detach uninitialized_world 1000).2.dfu_state = DFU_STATE_appIDLE ∧
    (dfu_detach uninitialized_world 1000).2.handle.transaction = 0 ∧
    (dfu_detach uninitialized_world 1000).2.trace =
      [UsbCall.control_msg false USB_REQ_DFU_DETACH 1000 0 none 0 INVALID_DFU_TIMEOUT] := by
  refine ⟨by decide, by decide, by decide, rfl, by decide, by decide, by decide, rfl⟩

/-- C16, as stated, fails: in `dfuIDLE` (where `GETSTATUS` is recognised), when the
transfer succeeds and the device reports `bState = dfuMANIFEST`, `dfu_get_status`
returns -1 and the tracked state stays `dfuIDLE`. -/
theorem C16_counterexample_reported_state_refused :
    dfu_sm_state_has_event DFU_STATE_dfuIDLE DFU_EV_GETSTATUS = 1 ∧
    (_usb_dfu10_get_status (sample_world DFU_STATE_dfuIDLE 0 (constant_replies 6 7))
      zero_status).1 = 0 ∧
    (dfu_get_status (sample_world DFU_STATE_dfuIDLE 0 (constant_replies 6 7))
      zero_status).2.1.bState = 7 ∧
    (dfu_get_status (sample_world DFU_STATE_dfuIDLE 0 (constant_replies 6 7))
      zero_status).1 = -1 ∧
    (dfu_get_status (sample_world DFU_STATE_dfuIDLE 0 (constant_replies 6 7))
      zero_status).2.2.dfu_state = DFU_STATE_dfuIDLE := by
  decide

/-- C16, amended: on an initialised handle, in a state where `GETSTATUS` is recognised,
when the transfer succeeds (6 bytes), `dfu_get_status` makes the reported `bState` the
tracked state if `dfu_sm_set_state_checked` accepts it from the current state, and
then returns 0; otherwise it returns -1 and the tracked state is unchanged. -/
theorem C16_get_status_commits_reported_state (w : World) (status : dfu_status)
    (hinit : w.handle.usb_timeout ≠ INVALID_DFU_TIMEOUT)
    (hev : dfu_sm_state_has_event w.dfu_state DFU_EV_GETSTATUS ≠ 0)
    (hret : (usb_reply w).ret = 6) :
    (dfu_get_status w status).2.1.bState = buf_byte (usb_reply w).buffer 4 ∧
    ((dfu_sm_set_state_checked w.dfu_state (buf_byte (usb_reply w).buffer 4 : Nat)).1 = 0 →
      (dfu_get_status w status).1 = 0 ∧
      (dfu_get_status w status).2.2.dfu_state = (buf_byte (usb_reply w).buffer 4 : Nat)) ∧
    ((dfu_sm_set_state_checked w.dfu_state (buf_byte (usb_reply w).buffer 4 : Nat)).1 ≠ 0 →
      (dfu_get_status w status).1 = -1 ∧
      (dfu_get_status w status).2.2.dfu_state = w.dfu_state) := by
  have hv : ¬ (0 : Int) ≠ _dfu_verify_init w := by
    unfold _dfu_verify_init
    rw [if_neg (fun e => hinit e.symm)]
    simp
  have hh : _usb_dfu10_get_status w status =
      (0,
        { bStatus := buf_byte (usb_reply w).buffer 0,
          bwPollTimeout := ((0xff &&& buf_byte (usb_reply w).buffer 3) <<< 16) |||
            ((0xff &&& buf_byte (usb_reply w).buffer 2) <<< 8) |||
            (0xff &&& buf_byte (usb_reply w).buffer 1),
          bState := buf_byte (usb_reply w).buffer 4,
          iString := buf_byte (usb_reply w).buffer 5 },
        usb_issue w (.control_msg true USB_REQ_DFU_GETSTATUS 0 w.handle.interface
          none 6 w.handle.usb_timeout)) := by
    unfold _usb_dfu10_get_status
    simp only [hret]
    rfl
  have hres : dfu_get_status w status =
      ((commit_state (_usb_dfu10_get_status w status).2.2
          ((_usb_dfu10_get_status w status).2.1.bState : Int)).1,
        (_usb_dfu10_get_status w status).2.1,
        (commit_state (_usb_dfu10_get_status w status).2.2
          ((_usb_dfu10_get_status w status).2.1.bState : Int)).2) := by
    unfold dfu_get_status
    rw [if_neg hv, if_neg hev]
    have : ¬ (_usb_dfu10_get_status w status).1 < 0 := by
      rw [hh]
      exact (by decide : ¬ (0 : Int) < 0)
    rw [if_neg this]
  rw [hres, hh]
  simp only [commit_state, usb_issue]
  refine ⟨trivial, ?_, ?_⟩
  · intro h
    refine ⟨h, ?_⟩
    unfold dfu_sm_set_state_checked at h ⊢
    dsimp only at h ⊢
    split_ifs at h ⊢
    · exact absurd h (by decide : ¬ (-1 : Int) = 0)
    · rfl
  · intro h
    unfold dfu_sm_set_state_checked at h ⊢
    dsimp only at h ⊢
    split_ifs at h ⊢
    · exact ⟨rfl, rfl⟩
    · exact absurd rfl h

/-- Witness for C16 (amended): in `dfuDNLOAD_SYNC` a reported `dfuDNBUSY` becomes the
tracked state. -/
theorem C16_get_status_commits_reported_state_witness :
    (dfu_get_status (sample_world DFU_STATE_dfuDNLOAD_SYNC 0 (constant_replies 6 4))
      zero_status).1 = 0 ∧
    (dfu_get_status (sample_world DFU_STATE_dfuDNLOAD_SYNC 0 (constant_replies 6 4))
      zero_status).2.2.dfu_state = DFU_STATE_dfuDNBUSY :=
  (C16_get_status_commits_reported_state
    (sample_world DFU_STATE_dfuDNLOAD_SYNC 0 (constant_replies 6 4)) zero_status
    (by decide) (by decide) (by decide)).2.1 (by decide)

/-- The call `dfu_get_state` only appends to the trace and keeps the handle. -/
theorem get_state_trace (w : World) :
    (∃ rest, (dfu_get_state w).2.trace = w.trace ++ rest) ∧
    (dfu_get_state w).2.handle = w.handle := by
  unfold dfu_get_state
  dsimp only
  split_ifs
  · exact ⟨⟨[], by simp⟩, rfl⟩
  · exact ⟨⟨[], by simp⟩, rfl⟩
  · unfold _usb_dfu10_get_state
    dsimp only
    split_ifs <;> exact ⟨⟨_, rfl⟩, rfl⟩
  · unfold _usb_dfu10_get_state
    dsimp only
    split_ifs <;> exact ⟨⟨_, rfl⟩, rfl⟩
  · unfold _usb_dfu10_get_state
    dsimp only
    split_ifs <;> exact ⟨⟨_, rfl⟩, rfl⟩

/-- The call `_dfu_state_verify` only appends to the trace and keeps the handle. -/
theorem state_verify_trace (w : World) (expected : Int) :
    (∃ rest, (_dfu_state_verify w expected).2.trace = w.trace ++ rest) ∧
    (_dfu_state_verify w expected).2.handle = w.handle := by
  unfold _dfu_state_verify
  dsimp only
  split_ifs
  · exact ⟨⟨[], by simp⟩, rfl⟩
  · exact get_state_trace w
  · exact get_state_trace w

/-- What `dfu_download` does to trace and counter when it gets past its checks. -/
theorem download_issued (w : World) (length : Nat) (data : Option (List Nat))
    (hv : ¬ (0 : Int) ≠ _dfu_verify_init w) (h1 : ¬ (0 ≠ length ∧ data = none))
    (h2 : ¬ (0 = length ∧ data ≠ none))
    (hn : ¬ dfu_sm_get_next_state w.dfu_state DFU_EV_DNLOAD (download_guards w length) < 0) :
    (dfu_download w length data).2.trace =
      w.trace ++ [UsbCall.control_msg false USB_REQ_DFU_DNLOAD w.handle.transaction
        w.handle.interface (data.map (List.take length)) length w.handle.usb_timeout] ∧
    (dfu_download w length data).2.handle.transaction =
      (w.handle.transaction + 1) % 65536 := by
  unfold dfu_download
  rw [if_neg hv, if_neg h1, if_neg h2]
  dsimp only
  rw [if_neg hn]
  unfold _usb_dfu10_download
  dsimp only
  split_ifs <;> exact ⟨rfl, rfl⟩

/-- What `dfu_upload` does to trace and counter when it gets past its checks. -/
theorem upload_issued (w : World) (length : Nat) (buf : Nat → Nat)
    (hv : ¬ (0 : Int) ≠ _dfu_verify_init w) (hl : ¬ 0 = length)
    (he : ¬ dfu_sm_state_has_event w.dfu_state DFU_EV_UPLOAD = 0) :
    (∃ rest, (dfu_upload w length (some buf)).2.2.trace =
      w.trace ++ UsbCall.control_msg true USB_REQ_DFU_UPLOAD w.handle.transaction
        w.handle.interface none length w.handle.usb_timeout :: rest) ∧
    (dfu_upload w length (some buf)).2.2.handle.transaction =
      (w.handle.transaction + 1) % 65536 := by
  unfold dfu_upload
  rw [if_neg hv]
  dsimp only
  rw [if_neg hl, if_neg he]
  generalize hH : _usb_dfu10_upload (bump_transaction w) w.handle.transaction length buf = H
  have ht : H.2.2.trace = w.trace ++ [UsbCall.control_msg true USB_REQ_DFU_UPLOAD
      w.handle.transaction w.handle.interface none length w.handle.usb_timeout] := by
    rw [← hH]
    unfold _usb_dfu10_upload
    dsimp only
    split_ifs <;> rfl
  have hh : H.2.2.handle.transaction = (w.handle.transaction + 1) % 65536 := by
    rw [← hH]
    unfold _usb_dfu10_upload
    dsimp only
    split_ifs <;> rfl
  by_cases d : H.1 < 0
  · rw [if_pos d]
    exact ⟨⟨[], ht⟩, hh⟩
  rw [if_neg d]
  by_cases e : dfu_sm_get_next_state H.2.2.dfu_state DFU_EV_UPLOAD
      (upload_guards H.2.2 length H.1) < 0
  · rw [if_pos e]
    exact ⟨⟨[], ht⟩, hh⟩
  rw [if_neg e]
  generalize hV : _dfu_state_verify H.2.2 (dfu_sm_get_next_state H.2.2.dfu_state
    DFU_EV_UPLOAD (upload_guards H.2.2 length H.1)) = V
  obtain ⟨⟨rest, hrest⟩, hhandle⟩ := state_verify_trace H.2.2
    (dfu_sm_get_next_state H.2.2.dfu_state DFU_EV_UPLOAD (upload_guards H.2.2 length H.1))
  rw [hV] at hrest hhandle
  have hVt : V.2.trace = w.trace ++ UsbCall.control_msg true USB_REQ_DFU_UPLOAD
      w.handle.transaction w.handle.interface none length w.handle.usb_timeout :: rest := by
    rw [hrest, ht]
    simp
  have hVh : V.2.handle.transaction = (w.handle.transaction + 1) % 65536 := by
    rw [hhandle, hh]
  by_cases f : V.1 < 0
  · rw [if_pos f]
    exact ⟨⟨rest, hVt⟩, hVh⟩
  rw [if_neg f]
  split_ifs
  · exact ⟨⟨rest, hVt⟩, hVh⟩
  · exact ⟨⟨rest, hVt⟩, hVh⟩

/-- C17: the transaction counter is 0 after `dfu_init`; a `dfu_download` or `dfu_upload`
call rejected before its request (uninitialised handle, bad arguments, no transition /
unknown event) returns an error and leaves the world, the counter included, unchanged;
every other call issues its USB request with the counter's old value as `wValue` and
leaves the counter at `(old + 1) mod 65536`. -/
theorem C17_transaction_counter (w : World) :
    (∀ usb_timeout : Int, (dfu_init w usb_timeout).handle.transaction = 0) ∧
    (∀ (length : Nat) (data : Option (List Nat)),
      ((_dfu_verify_init w ≠ 0 ∨ (length ≠ 0 ∧ data = none) ∨ (length = 0 ∧ data ≠ none) ∨
          dfu_sm_get_next_state w.dfu_state DFU_EV_DNLOAD (download_guards w length) < 0) →
        (dfu_download w length data).1 < 0 ∧ (dfu_download w length data).2 = w) ∧
      (¬ (_dfu_verify_init w ≠ 0 ∨ (length ≠ 0 ∧ data = none) ∨ (length = 0 ∧ data ≠ none) ∨
          dfu_sm_get_next_state w.dfu_state DFU_EV_DNLOAD (download_guards w length) < 0) →
        (dfu_download w length data).2.trace =
          w.trace ++ [UsbCall.control_msg false USB_REQ_DFU_DNLOAD w.handle.transaction
            w.handle.interface (data.map (List.take length)) length
            w.handle.usb_timeout] ∧
        (dfu_download w length data).2.handle.transaction =
          (w.handle.transaction + 1) % 65536)) ∧
    (∀ (length : Nat) (data : Option (Nat → Nat)),
      ((_dfu_verify_init w ≠ 0 ∨ data = none ∨ length = 0 ∨
          dfu_sm_state_has_event w.dfu_state DFU_EV_UPLOAD = 0) →
        (dfu_upload w length data).1 < 0 ∧ (dfu_upload w length data).2.2 = w) ∧
      (¬ (_dfu_verify_init w ≠ 0 ∨ data = none ∨ length = 0 ∨
          dfu_sm_state_has_event w.dfu_state DFU_EV_UPLOAD = 0) →
        (∃ rest, (dfu_upload w length data).2.2.trace =
          w.trace ++ UsbCall.control_msg true USB_REQ_DFU_UPLOAD w.handle.transaction
            w.handle.interface none length w.handle.usb_timeout :: rest) ∧
        (dfu_upload w length data).2.2.handle.transaction =
          (w.handle.transaction + 1) % 65536)) := by
  refine ⟨fun _ => rfl, ?_, ?_⟩
  · intro length data
    constructor
    · intro hrej
      unfold dfu_download
      by_cases hv : (0 : Int) ≠ _dfu_verify_init w
      · rw [if_pos hv]
        exact ⟨(by decide : (-1 : Int) < 0), rfl⟩
      rw [if_neg hv]
      by_cases h1 : 0 ≠ length ∧ data = none
      · rw [if_pos h1]
        exact ⟨(by decide : (-1 : Int) < 0), rfl⟩
      rw [if_neg h1]
      by_cases h2 : 0 = length ∧ data ≠ none
      · rw [if_pos h2]
        exact ⟨(by decide : (-2 : Int) < 0), rfl⟩
      rw [if_neg h2]
      dsimp only
      have hn : dfu_sm_get_next_state w.dfu_state DFU_EV_DNLOAD (download_guards w length) < 0 := by
        rcases hrej with h | h | h | h
        · exact absurd (fun e => h e.symm) hv
        · exact absurd ⟨fun e => h.1 e.symm, h.2⟩ h1
        · exact absurd ⟨h.1.symm, h.2⟩ h2
        · exact h
      rw [if_pos hn]
      exact ⟨(by decide : (-1 : Int) < 0), rfl⟩
    · intro hok
      have hv : ¬ (0 : Int) ≠ _dfu_verify_init w := fun h => hok (Or.inl (fun e => h e.symm))
      have h1 : ¬ (0 ≠ length ∧ data = none) :=
        fun h => hok (Or.inr (Or.inl ⟨fun e => h.1 e.symm, h.2⟩))
      have h2 : ¬ (0 = length ∧ data ≠ none) :=
        fun h => hok (Or.inr (Or.inr (Or.inl ⟨h.1.symm, h.2⟩)))
      have hn : ¬ dfu_sm_get_next_state w.dfu_state DFU_EV_DNLOAD
          (download_guards w length) < 0 := fun h => hok (Or.inr (Or.inr (Or.inr h)))
      exact download_issued w length data hv h1 h2 hn
  · intro length data
    constructor
    · intro hrej
      unfold dfu_upload
      by_cases hv : (0 : Int) ≠ _dfu_verify_init w
      · rw [if_pos hv]
        exact ⟨(by decide : (-1 : Int) < 0), rfl⟩
      rw [if_neg hv]
      cases data with
      | none => exact ⟨(by decide : (-1 : Int) < 0), rfl⟩
      | some buf =>
        dsimp only
        by_cases hl : 0 = length
        · rw [if_pos hl]
          exact ⟨(by decide : (-1 : Int) < 0), rfl⟩
        rw [if_neg hl]
        have he : dfu_sm_state_has_event w.dfu_state DFU_EV_UPLOAD = 0 := by
          rcases hrej with h | h | h | h
          · exact absurd (fun e => h e.symm) hv
          · exact absurd h (by simp)
          · exact absurd h.symm hl
          · exact h
        rw [if_pos he]
        exact ⟨(by decide : (-1 : Int) < 0), rfl⟩
    · intro hok
      have hv : ¬ (0 : Int) ≠ _dfu_verify_init w := fun h => hok (Or.inl (fun e => h e.symm))
      cases data with
      | none => exact absurd (Or.inr (Or.inl rfl)) hok
      | some buf =>
        have hl : ¬ 0 = length := fun h => hok (Or.inr (Or.inr (Or.inl h.symm)))
        have he : ¬ dfu_sm_state_has_event w.dfu_state DFU_EV_UPLOAD = 0 :=
          fun h => hok (Or.inr (Or.inr (Or.inr h)))
        exact upload_issued w length buf hv hl he

/-- Witness for C17: an accepted download in `dfuIDLE` with the counter at 65535 sends
block number 65535 and wraps the counter to 0. -/
theorem C17_transaction_counter_witness :
    (dfu_download (bump_transaction
      { sample_world DFU_STATE_dfuIDLE USB_DFU_CAN_DOWNLOAD (constant_replies 4 0) with
        handle := { (sample_world DFU_STATE_dfuIDLE USB_DFU_CAN_DOWNLOAD
          (constant_replies 4 0)).handle with transaction := 65534 } })
      4 (some [1, 2, 3, 4])).2.handle.transaction = 0 :=
  (((C17_transaction_counter (bump_transaction
      { sample_world DFU_STATE_dfuIDLE USB_DFU_CAN_DOWNLOAD (constant_replies 4 0) with
        handle := { (sample_world DFU_STATE_dfuIDLE USB_DFU_CAN_DOWNLOAD
          (constant_replies 4 0)).handle with transaction := 65534 } })).2.1 4
      (some [1, 2, 3, 4])).2 (by decide)).2.trans (by decide)

/-- The masked byte combination of `_usb_dfu10_get_status` is the little-endian value
of three bytes. -/
theorem poll_timeout_bytes (b1 b2 b3 : Nat) (h1 : b1 < 256) (h2 : b2 < 256) (h3 : b3 < 256) :
    ((0xff &&& b3) <<< 16) ||| ((0xff &&& b2) <<< 8) ||| (0xff &&& b1) =
      b1 + 256 * b2 + 65536 * b3 := by
  have m : ∀ b : Nat, b < 256 → 0xff &&& b = b := by
    intro b hb
    rw [Nat.land_comm]
    exact Nat.and_pow_two_sub_one_of_lt_two_pow (n := 8) hb
  rw [m b1 h1, m b2 h2, m b3 h3]
  have s3 : b3 <<< 16 = 2 ^ 16 * b3 := by rw [Nat.shiftLeft_eq, Nat.mul_comm]
  have s2 : b2 <<< 8 = 2 ^ 8 * b2 := by rw [Nat.shiftLeft_eq, Nat.mul_comm]
  have l2 : 2 ^ 8 * b2 < 2 ^ 16 := by omega
  rw [s3, s2, ← Nat.mul_add_lt_is_or l2 b3]
  have e : 2 ^ 16 * b3 + 2 ^ 8 * b2 = 2 ^ 8 * (2 ^ 8 * b3 + b2) := by omega
  rw [e, ← Nat.mul_add_lt_is_or (show b1 < 2 ^ 8 from h1)]
  omega

/-- C18: for a GETSTATUS transfer that returns 6 bytes `b[0..5]`, the handler succeeds
with `bStatus = b[0]`, `bwPollTimeout = b[1] + 256*b[2] + 65536*b[3]` (below `2^24`, and
its three little-endian bytes are `b[1..3]` again), `bState = b[4]` and
`iString = b[5]`; a transfer that returns any other length makes the handler fail. -/
theorem C18_get_status_decoding (w : World) (status : dfu_status) :
    ((usb_reply w).ret = 6 →
      (_usb_dfu10_get_status w status).1 = 0 ∧
      (_usb_dfu10_get_status w status).2.1.bStatus = buf_byte (usb_reply w).buffer 0 ∧
      (_usb_dfu10_get_status w status).2.1.bwPollTimeout =
        buf_byte (usb_reply w).buffer 1 + 256 * buf_byte (usb_reply w).buffer 2 +
          65536 * buf_byte (usb_reply w).buffer 3 ∧
      (_usb_dfu10_get_status w status).2.1.bwPollTimeout < 2 ^ 24 ∧
      (_usb_dfu10_get_status w status).2.1.bwPollTimeout % 256 =
        buf_byte (usb_reply w).buffer 1 ∧
      (_usb_dfu10_get_status w status).2.1.bwPollTimeout / 256 % 256 =
        buf_byte (usb_reply w).buffer 2 ∧
      (_usb_dfu10_get_status w status).2.1.bwPollTimeout / 65536 % 256 =
        buf_byte (usb_reply w).buffer 3 ∧
      (_usb_dfu10_get_status w status).2.1.bState = buf_byte (usb_reply w).buffer 4 ∧
      (_usb_dfu10_get_status w status).2.1.iString = buf_byte (usb_reply w).buffer 5) ∧
    ((usb_reply w).ret ≠ 6 →
      (_usb_dfu10_get_status w status).1 = -1 ∧
      (_usb_dfu10_get_status w status).2.1 = status) := by
  have hb : ∀ i, buf_byte (usb_reply w).buffer i < 256 := by
    intro i
    unfold buf_byte
    exact Nat.mod_lt _ (by decide)
  constructor
  · intro hret
    unfold _usb_dfu10_get_status
    dsimp only
    rw [if_neg (fun h => h hret)]
    dsimp only
    rw [poll_timeout_bytes _ _ _ (hb 1) (hb 2) (hb 3)]
    have h1 := hb 1
    have h2 := hb 2
    have h3 := hb 3
    refine ⟨rfl, rfl, rfl, ?_, ?_, ?_, ?_, rfl, rfl⟩ <;> omega
  · intro hret
    unfold _usb_dfu10_get_status
    dsimp only
    rw [if_pos hret]
    exact ⟨rfl, rfl⟩

/-- Witness for C18: a 6-byte reply with `b[0] = b[4] = 5` and zeros elsewhere. -/
theorem C18_get_status_decoding_witness :
    (_usb_dfu10_get_status (sample_world DFU_STATE_dfuIDLE 0 (constant_replies 6 5))
      zero_status).1 = 0 ∧
    (_usb_dfu10_get_status (sample_world DFU_STATE_dfuIDLE 0 (constant_replies 6 5))
      zero_status).2.1.bState = 5 ∧
    (_usb_dfu10_get_status (sample_world DFU_STATE_dfuIDLE 0 (constant_replies 5 5))
      zero_status).1 = -1 :=
  ⟨((C18_get_status_decoding (sample_world DFU_STATE_dfuIDLE 0 (constant_replies 6 5))
      zero_status).1 (by decide)).1,
    ((C18_get_status_decoding (sample_world DFU_STATE_dfuIDLE 0 (constant_replies 6 5))
      zero_status).1 (by decide)).2.2.2.2.2.2.2.1.trans (by decide),
    ((C18_get_status_decoding (sample_world DFU_STATE_dfuIDLE 0 (constant_replies 5 5))
      zero_status).2 (by decide)).1⟩

/-! ## Lemmas on the CRC loops and the file suffix -/

/-- The CRC update reads its byte argument modulo 256. -/
theorem crc32_byte_mod (accum delta : Nat) :
    crc32_byte accum (delta % 256) = crc32_byte accum delta := by
  unfold crc32_byte
  rw [Nat.mod_mod]

/-- Feeding two byte sources that agree (modulo 256) gives the same CRC. -/
theorem crc32_feed_congr (crc : Nat) (f g : Nat → Nat) (s t n : Nat)
    (h : ∀ i, i < n → f (s + i) % 256 = g (t + i) % 256) :
    crc32_feed crc f s n = crc32_feed crc g t n := by
  induction n with
  | zero => rfl
  | succ n ih =>
    simp only [crc32_feed]
    rw [ih (fun i hi => h i (Nat.lt_succ_of_lt hi)), ← crc32_byte_mod _ (f (s + n)),
      h n (Nat.lt_succ_self n), crc32_byte_mod]

/-- Feeding `a` bytes and then the next `b` is feeding `a + b` bytes. -/
theorem crc32_feed_add (crc : Nat) (f : Nat → Nat) (s a b : Nat) :
    crc32_feed (crc32_feed crc f s a) f (s + a) b = crc32_feed crc f s (a + b) := by
  induction b with
  | zero => rfl
  | succ b ih =>
    have e : a + (b + 1) = (a + b) + 1 := by omega
    rw [e]
    simp only [crc32_feed]
    rw [ih, Nat.add_assoc]

/-- The bytes a `read` delivered are the file's. -/
theorem read_into_lt (content : List Nat) (pos : Nat) (ret : Int) (buf : Nat → Nat) (i : Nat)
    (h : (i : Int) < ret) : read_into content pos ret buf i = byte_at content (pos + i) := by
  unfold read_into
  rw [if_pos h]

/-- A byte of a file is below 256. -/
theorem byte_at_lt (content : List Nat) (i : Nat) : byte_at content i < 256 := by
  unfold byte_at
  exact Nat.mod_lt _ (by decide)

/-- A `read` that does not fail, with room in the buffer and bytes left in the file,
returns between 1 byte and the smaller of the two. -/
theorem sys_read_bounds (content : List Nat) (pos count : Nat) (want : Int)
    (hw : 0 ≤ want) (hc : 0 < count) (hp : pos < content.length) :
    ∃ r : Nat, sys_read content pos count want = (r : Int) ∧ 1 ≤ r ∧ r ≤ count ∧
      r ≤ content.length - pos := by
  unfold sys_read
  rw [if_neg (not_lt.mpr hw)]
  refine ⟨_, rfl, ?_, ?_, ?_⟩ <;> omega

/-- One turn of the read loop of `dfu_file_suffix_check` keeps its invariant: the CRC
covers the bytes read so far that lie before the last four, and `suffix_tmp` holds the
bytes read so far that lie in the last sixteen. -/
theorem suffix_check_step_inv (c : List Nat) (s : check_state) (r : Nat) (buf : Nat → Nat)
    (hn : 16 < c.length) (hr1 : 1 ≤ r) (hp : s.bytes_read < c.length)
    (hbuf : ∀ i, i < r → buf i = byte_at c (s.bytes_read + i))
    (hcrc : s.calculated_crc =
      crc32_feed crc32_init (byte_at c) 0 (min s.bytes_read (c.length - 4)))
    (hsfx : ∀ i, i < 16 → c.length - 16 + i < s.bytes_read →
      s.suffix_tmp i = byte_at c (c.length - 16 + i)) :
    (suffix_check_step c.length s r buf).bytes_read = s.bytes_read + r ∧
    (suffix_check_step c.length s r buf).calculated_crc =
      crc32_feed crc32_init (byte_at c) 0 (min (s.bytes_read + r) (c.length - 4)) ∧
    (∀ i, i < 16 → c.length - 16 + i < s.bytes_read + r →
      (suffix_check_step c.length s r buf).suffix_tmp i = byte_at c (c.length - 16 + i)) := by
  refine ⟨rfl, ?_, ?_⟩
  · simp only [suffix_check_step]
    rw [hcrc, Nat.zero_max]
    have hc : crc32_feed (crc32_feed crc32_init (byte_at c) 0 (min s.bytes_read (c.length - 4)))
        buf 0 (min r (c.length - 4 - s.bytes_read)) =
        crc32_feed (crc32_feed crc32_init (byte_at c) 0 (min s.bytes_read (c.length - 4)))
          (byte_at c) (0 + min s.bytes_read (c.length - 4))
          (min r (c.length - 4 - s.bytes_read)) := by
      apply crc32_feed_congr
      intro i hi
      have hi' : i < r := by omega
      rw [Nat.zero_add, hbuf i hi']
      have e : s.bytes_read + i = 0 + min s.bytes_read (c.length - 4) + i := by omega
      rw [e]
    rw [hc, crc32_feed_add]
    have e : min s.bytes_read (c.length - 4) + min r (c.length - 4 - s.bytes_read) =
        min (s.bytes_read + r) (c.length - 4) := by omega
    rw [e]
  · intro i hi hlt
    simp only [suffix_check_step, DFU_FILE_SUFFIX_SIZE]
    split_ifs with h1 h2
    · unfold memcpy
      split_ifs with h3
      · have hj : i - (s.bytes_read - (c.length - 16)) < r := by omega
        rw [hbuf _ hj]
        have e : s.bytes_read + (i - (s.bytes_read - (c.length - 16))) = c.length - 16 + i := by
          omega
        rw [e]
      · exact hsfx i hi (by omega)
    · unfold memcpy
      split_ifs with h3
      · have hj : r - (s.bytes_read + r - (c.length - 16)) + (i - 0) < r := by omega
        show buf (r - (s.bytes_read + r - (c.length - 16)) + (i - 0)) = _
        rw [hbuf _ hj]
        have e : s.bytes_read + (r - (s.bytes_read + r - (c.length - 16)) + (i - 0)) =
            c.length - 16 + i := by omega
        rw [e]
      · omega
    · omega

/-- With reads that do not fail, the read loop of `dfu_file_suffix_check` ends, without
error, after the whole file, the invariant still holding. -/
theorem suffix_check_loop_spec (fs : FileSys) (hn : 16 < fs.content.length)
    (hreads : ∀ k, 0 ≤ fs.reads k) (fuel : Nat) (s : check_state)
    (hp : s.bytes_read ≤ fs.content.length)
    (hfuel : fs.content.length - s.bytes_read + 1 ≤ fuel)
    (hcrc : s.calculated_crc =
      crc32_feed crc32_init (byte_at fs.content) 0 (min s.bytes_read (fs.content.length - 4)))
    (hsfx : ∀ i, i < 16 → fs.content.length - 16 + i < s.bytes_read →
      s.suffix_tmp i = byte_at fs.content (fs.content.length - 16 + i)) :
    ∃ s1, suffix_check_loop fs fs.content.length fuel s = some (false, s1) ∧
      s1.calculated_crc = crc32_feed crc32_init (byte_at fs.content) 0 (fs.content.length - 4) ∧
      (∀ i, i < 16 → s1.suffix_tmp i = byte_at fs.content (fs.content.length - 16 + i)) := by
  induction fuel generalizing s with
  | zero => omega
  | succ fuel ih =>
    unfold suffix_check_loop
    by_cases hrem : fs.content.length - s.bytes_read > 0
    · rw [if_pos hrem]
      dsimp only
      obtain ⟨r, hr, hr1, hr2, hr3⟩ := sys_read_bounds fs.content s.bytes_read
        (min 3 (fs.content.length - s.bytes_read)) (fs.reads s.calls) (hreads _)
        (by omega) (by omega)
      rw [hr]
      have hne : (r : Int) ≠ 0 := by omega
      have hnn : ¬ (r : Int) < 0 := by omega
      rw [if_pos hne, if_neg hnn, Int.toNat_ofNat]
      have hbuf : ∀ i, i < r → read_into fs.content s.bytes_read (r : Int) s.buf i =
          byte_at fs.content (s.bytes_read + i) := by
        intro i hi
        exact read_into_lt _ _ _ _ _ (by omega)
      obtain ⟨hb, hc, hs⟩ := suffix_check_step_inv fs.content s r
        (read_into fs.content s.bytes_read (r : Int) s.buf) hn hr1 (by omega) hbuf hcrc hsfx
      exact ih _ (by rw [hb]; omega) (by rw [hb]; omega) (by rw [hb]; exact hc)
        (by rw [hb]; exact hs)
    · rw [if_neg hrem]
      have hp' : s.bytes_read = fs.content.length := by omega
      refine ⟨s, rfl, ?_, ?_⟩
      · rw [hcrc, hp']
        congr 1
        omega
      · intro i hi
        exact hsfx i hi (by omega)

/-- What `dfu_file_suffix_check` computes for a file longer than 16 bytes that opens and
reads without error: the CRC of all bytes but the last four, the last sixteen bytes as
suffix, the little-endian value of the last four as `dwCRC`, and 1 exactly when the two
values are equal. -/
theorem dfu_file_suffix_check_spec (fs : FileSys) (suffix : Nat → Nat)
    (dwCRC calculated_crc : Nat) (suffix_tmp buf : Nat → Nat)
    (hfd : 0 ≤ fs.fd) (hstat : 0 ≤ fs.fstat_ret) (hn : 16 < fs.content.length)
    (hreads : ∀ k, 0 ≤ fs.reads k) :
    ∃ r, dfu_file_suffix_check fs suffix dwCRC calculated_crc suffix_tmp buf = some r ∧
      r.calculated_crc =
        crc32_feed crc32_init (byte_at fs.content) 0 (fs.content.length - 4) ∧
      r.dwCRC = le32 (fun i => byte_at fs.content (fs.content.length - 16 + i)) 12 ∧
      r.ret = (if r.calculated_crc = r.dwCRC then 1 else 0) ∧
      (∀ i, i < 16 → r.suffix i = byte_at fs.content (fs.content.length - 16 + i)) := by
  obtain ⟨s1, hloop, hc, hs⟩ := suffix_check_loop_spec fs hn hreads (fs.content.length + 1)
    { bytes_read := 0, calculated_crc := crc32_init, suffix_tmp := suffix_tmp,
      buf := buf, calls := 0 } (Nat.zero_le _) (by simp) (by simp [crc32_feed])
    (by intro i _ h; exact absurd h (Nat.not_lt_zero _))
  unfold dfu_file_suffix_check
  dsimp only
  rw [if_neg (not_lt.mpr hfd), if_neg (not_lt.mpr hstat), if_neg (by omega),
    if_neg (by simp only [DFU_FILE_SUFFIX_SIZE]; omega), hloop]
  have hle : le32 s1.suffix_tmp 12 =
      le32 (fun i => byte_at fs.content (fs.content.length - 16 + i)) 12 := by
    unfold le32
    rw [hs 12 (by omega), hs 13 (by omega), hs 14 (by omega), hs 15 (by omega)]
  exact ⟨_, rfl, hc, hle, rfl, hs⟩

/-- A polynomial reduction keeps the register within 32 bits. -/
theorem crc32_reduce_lt (x : Nat) (h : x < 2 ^ 32) : crc32_reduce x < 2 ^ 32 := by
  unfold crc32_reduce
  have hs : x >>> 1 < 2 ^ 32 := by
    rw [Nat.shiftRight_eq_div_pow]
    omega
  split_ifs
  · exact Nat.xor_lt_two_pow hs (by decide)
  · exact hs

/-- Eight polynomial reductions keep the register within 32 bits. -/
theorem crc32_reduce_iterate_lt (k x : Nat) (h : x < 2 ^ 32) : crc32_reduce^[k] x < 2 ^ 32 := by
  induction k generalizing x with
  | zero => exact h
  | succ k ih =>
    rw [Function.iterate_succ_apply]
    exact ih _ (crc32_reduce_lt x h)

/-- The CRC update returns a 32-bit value. -/
theorem crc32_byte_lt (accum delta : Nat) : crc32_byte accum delta < 2 ^ 32 := by
  unfold crc32_byte
  apply crc32_reduce_iterate_lt
  apply Nat.xor_lt_two_pow
  · exact Nat.mod_lt _ (by decide)
  · have : delta % 256 < 256 := Nat.mod_lt _ (by decide)
    omega

/-- With the polynomial folded in, the register has bit 31 set. -/
theorem xor_poly_ge (a : Nat) (h : a < 2 ^ 31) : 2 ^ 31 ≤ a ^^^ 0xEDB88320 := by
  apply Nat.testBit_implies_ge
  rw [Nat.testBit_xor, Nat.testBit_lt_two_pow h]
  decide

/-- A polynomial reduction is injective on 32-bit registers. -/
theorem crc32_reduce_inj (x y : Nat) (hx : x < 2 ^ 32) (hy : y < 2 ^ 32)
    (h : crc32_reduce x = crc32_reduce y) : x = y := by
  unfold crc32_reduce at h
  have sx : x >>> 1 = x / 2 := by rw [Nat.shiftRight_eq_div_pow, Nat.pow_one]
  have sy : y >>> 1 = y / 2 := by rw [Nat.shiftRight_eq_div_pow, Nat.pow_one]
  rw [sx, sy] at h
  have bx : x / 2 < 2 ^ 31 := by omega
  have b_y : y / 2 < 2 ^ 31 := by omega
  by_cases px : x % 2 = 1 <;> by_cases py : y % 2 = 1
  · rw [if_pos px, if_pos py] at h
    have e : x / 2 = y / 2 := by
      have := congrArg (fun t => t ^^^ 0xEDB88320) h
      simpa [Nat.xor_cancel_right] using this
    omega
  · rw [if_pos px, if_neg py] at h
    have := xor_poly_ge (x / 2) bx
    omega
  · rw [if_neg px, if_pos py] at h
    have := xor_poly_ge (y / 2) b_y
    omega
  · rw [if_neg px, if_neg py] at h
    omega

/-- Any number of polynomial reductions is injective on 32-bit registers. -/
theorem crc32_reduce_iterate_inj (k x y : Nat) (hx : x < 2 ^ 32) (hy : y < 2 ^ 32)
    (h : crc32_reduce^[k] x = crc32_reduce^[k] y) : x = y := by
  induction k generalizing x y with
  | zero => exact h
  | succ k ih =>
    rw [Function.iterate_succ_apply, Function.iterate_succ_apply] at h
    exact crc32_reduce_inj x y hx hy
      (ih _ _ (crc32_reduce_lt x hx) (crc32_reduce_lt y hy) h)

/-- The value the CRC update reduces is a 32-bit value. -/
theorem crc32_mix_lt (accum delta : Nat) : (accum % 2 ^ 32) ^^^ (delta % 256) < 2 ^ 32 := by
  apply Nat.xor_lt_two_pow
  · exact Nat.mod_lt _ (by decide)
  · have : delta % 256 < 256 := Nat.mod_lt _ (by decide)
    omega

/-- Equal CRC updates come from equal mixed registers. -/
theorem crc32_byte_mix_eq (a d a1 d1 : Nat) (h : crc32_byte a d = crc32_byte a1 d1) :
    (a % 2 ^ 32) ^^^ (d % 256) = (a1 % 2 ^ 32) ^^^ (d1 % 256) := by
  unfold crc32_byte at h
  exact crc32_reduce_iterate_inj 8 _ _ (crc32_mix_lt a d) (crc32_mix_lt a1 d1) h

/-- For the same byte, equal CRC updates come from equal registers. -/
theorem crc32_byte_inj_accum (a d a1 d1 : Nat) (h : crc32_byte a d = crc32_byte a1 d1)
    (hd : d % 256 = d1 % 256) : a % 2 ^ 32 = a1 % 2 ^ 32 := by
  have := crc32_byte_mix_eq a d a1 d1 h
  rw [hd] at this
  have e := congrArg (fun t => t ^^^ (d1 % 256)) this
  simpa [Nat.xor_cancel_right] using e

/-- For the same register, equal CRC updates come from equal bytes. -/
theorem crc32_byte_inj_delta (a d a1 d1 : Nat) (h : crc32_byte a d = crc32_byte a1 d1)
    (ha : a % 2 ^ 32 = a1 % 2 ^ 32) : d % 256 = d1 % 256 := by
  have := crc32_byte_mix_eq a d a1 d1 h
  rw [ha] at this
  exact Nat.xor_right_injective this

/-- The CRC update reads its register argument modulo `2^32`. -/
theorem crc32_byte_accum_mod (a a1 d : Nat) (h : a % 2 ^ 32 = a1 % 2 ^ 32) :
    crc32_byte a d = crc32_byte a1 d := by
  unfold crc32_byte
  rw [h]

/-- Feeding the same bytes to registers that end equal: they started equal. -/
theorem crc32_feed_inj (X Y : Nat) (f g : Nat → Nat) (s t n : Nat)
    (hfg : ∀ i, i < n → f (s + i) % 256 = g (t + i) % 256)
    (h : crc32_feed X f s n % 2 ^ 32 = crc32_feed Y g t n % 2 ^ 32) :
    X % 2 ^ 32 = Y % 2 ^ 32 := by
  induction n with
  | zero => exact h
  | succ n ih =>
    simp only [crc32_feed] at h
    rw [Nat.mod_eq_of_lt (crc32_byte_lt _ _), Nat.mod_eq_of_lt (crc32_byte_lt _ _)] at h
    exact ih (fun i hi => hfg i (Nat.lt_succ_of_lt hi))
      (crc32_byte_inj_accum _ _ _ _ h (hfg n (Nat.lt_succ_self n)))

/-- Two byte sequences that differ in exactly one of the first `n` bytes have different
CRCs. -/
theorem crc32_feed_single_change (X : Nat) (f g : Nat → Nat) (p n : Nat) (hp : p < n)
    (hdiff : f p % 256 ≠ g p % 256)
    (hsame : ∀ i, i ≠ p → f i % 256 = g i % 256) :
    crc32_feed X f 0 n ≠ crc32_feed X g 0 n := by
  intro h
  have en : n = (p + 1) + (n - (p + 1)) := by omega
  rw [en, ← crc32_feed_add X f 0 (p + 1) (n - (p + 1)),
    ← crc32_feed_add X g 0 (p + 1) (n - (p + 1))] at h
  have h1 := crc32_feed_inj _ _ f g (0 + (p + 1)) (0 + (p + 1)) (n - (p + 1))
    (fun i _ => hsame _ (by omega)) (congrArg (fun t => t % 2 ^ 32) h)
  simp only [crc32_feed] at h1
  rw [Nat.mod_eq_of_lt (crc32_byte_lt _ _), Nat.mod_eq_of_lt (crc32_byte_lt _ _)] at h1
  have h0 : crc32_feed X f 0 p = crc32_feed X g 0 p :=
    crc32_feed_congr X f g 0 0 p (fun i hi => hsame _ (by omega))
  rw [h0, Nat.zero_add] at h1
  exact hdiff (crc32_byte_inj_delta _ _ _ _ h1 rfl)

/-- The length of a file after a `write`. -/
theorem write_from_length (c : List Nat) (ret : Int) (buf : Nat → Nat) :
    (write_from c ret buf).length = c.length + ret.toNat := by
  simp [write_from]

/-- A `write` leaves the bytes already in the file alone. -/
theorem byte_at_write_from_left (c : List Nat) (ret : Int) (buf : Nat → Nat) (i : Nat)
    (h : i < c.length) : byte_at (write_from c ret buf) i = byte_at c i := by
  unfold byte_at write_from
  rw [List.getD_append _ _ _ _ h]

/-- The bytes a `write` appended are those of the buffer. -/
theorem byte_at_write_from_right (c : List Nat) (ret : Int) (buf : Nat → Nat) (j : Nat)
    (h : j < ret.toNat) : byte_at (write_from c ret buf) (c.length + j) = buf j % 256 := by
  unfold byte_at write_from
  rw [List.getD_append_right _ _ _ _ (Nat.le_add_right _ _), Nat.add_sub_cancel_left,
    List.getD_eq_getElem _ _ (by simpa using h)]
  simp

/-- Replacing the byte at `p` changes that byte and no other. -/
theorem byte_at_set (c : List Nat) (p v i : Nat) (hp : p < c.length) :
    byte_at (c.set p v) i = if i = p then v % 256 else byte_at c i := by
  unfold byte_at
  rw [List.getD_eq_getElem?_getD, List.getD_eq_getElem?_getD, List.getElem?_set]
  by_cases h : p = i
  · subst h
    simp [hp]
  · have h' : ¬ i = p := fun e => h e.symm
    simp [h, h']

/-- A `write` never returns more than the requested count. -/
theorem sys_write_le (count : Nat) (want : Int) : sys_write count want ≤ count := by
  unfold sys_write
  split_ifs with h
  · omega
  · have : min (max want.toNat 1) count ≤ count := Nat.min_le_right _ _
    omega

/-- A `write` the system is ready to take in full returns the requested count. -/
theorem sys_write_complete (count : Nat) (want : Int) (h : (count : Int) ≤ want) :
    sys_write count want = count := by
  unfold sys_write
  rw [if_neg (by omega)]
  have : min (max want.toNat 1) count = count := by omega
  rw [this]

/-- The four `dwCRC` bytes of the suffix are the little-endian bytes of a 32-bit CRC. -/
theorem le32_suffix_with_crc (image : Nat → Nat) (crc : Nat) (h : crc < 2 ^ 32) :
    le32 (suffix_with_crc image crc) 12 = crc := by
  unfold le32 suffix_with_crc
  simp only [show (12 : Nat) + 1 = 13 from rfl, show (12 : Nat) + 2 = 14 from rfl,
    show (12 : Nat) + 3 = 15 from rfl, if_true, if_false, Nat.reduceEqDiff, reduceIte,
    Nat.mod_mod]
  omega

/-- A payload whose CRC register is `crc0`, followed by the suffix built from it, is a
file whose CRC over all bytes but the last four equals the stored `dwCRC`. -/
theorem suffixed_file_valid (payload : List Nat) (image src : Nat → Nat) (crc0 : Nat)
    (hcrc0 : crc0 = crc32_feed crc32_init (byte_at payload) 0 payload.length)
    (hsrc : ∀ i, i < 12 → src i % 256 = image i % 256) :
    (write_from payload 16 (suffix_with_crc image (crc32_feed crc0 src 0 12))).length =
      payload.length + 16 ∧
    crc32_feed crc32_init
        (byte_at (write_from payload 16 (suffix_with_crc image (crc32_feed crc0 src 0 12))))
        0 (payload.length + 16 - 4) = crc32_feed crc0 src 0 12 ∧
    le32 (fun i => byte_at
        (write_from payload 16 (suffix_with_crc image (crc32_feed crc0 src 0 12)))
        (payload.length + 16 - 16 + i)) 12 = crc32_feed crc0 src 0 12 := by
  have hlt : crc32_feed crc0 src 0 12 < 2 ^ 32 := by
    show crc32_byte _ _ < 2 ^ 32
    exact crc32_byte_lt _ _
  generalize hcrc : crc32_feed crc0 src 0 12 = crc at hlt
  refine ⟨by rw [write_from_length]; rfl, ?_, ?_⟩
  · have e : payload.length + 16 - 4 = payload.length + 12 := by omega
    rw [e, ← crc32_feed_add]
    have h1 : crc32_feed crc32_init (byte_at (write_from payload 16 (suffix_with_crc image crc)))
        0 payload.length = crc0 := by
      rw [hcrc0]
      apply crc32_feed_congr
      intro i hi
      rw [Nat.zero_add, byte_at_write_from_left _ _ _ _ hi]
    rw [h1, ← hcrc]
    apply crc32_feed_congr
    intro i hi
    rw [Nat.zero_add, Nat.zero_add, byte_at_write_from_right _ _ _ _ (by
      show i < 16
      omega), Nat.mod_mod, hsrc i hi]
    unfold suffix_with_crc
    rw [if_neg (by omega), if_neg (by omega), if_neg (by omega), if_neg (by omega)]
  · have hb : ∀ j, j < 16 → byte_at (write_from payload 16 (suffix_with_crc image crc))
        (payload.length + 16 - 16 + j) = suffix_with_crc image crc j % 256 := by
      intro j hj
      have e : payload.length + 16 - 16 + j = payload.length + j := by omega
      rw [e, byte_at_write_from_right _ _ _ _ (by
        show j < 16
        exact hj)]
    have := le32_suffix_with_crc image crc hlt
    unfold le32 at this ⊢
    simp only [hb 12 (by omega), hb 13 (by omega), hb 14 (by omega), hb 15 (by omega),
      Nat.mod_mod]
    exact this

/-- With reads that do not fail and enough fuel, the read loop of `add_file_suffix` ends
with the CRC of the rest of the file fed to the register. -/
theorem add_file_suffix_loop_spec (fs : FileSys) (hreads : ∀ k, 0 ≤ fs.reads k)
    (fuel pos calls crc : Nat) (buf : Nat → Nat) (hp : pos ≤ fs.content.length)
    (hfuel : fs.content.length - pos + 1 ≤ fuel) :
    add_file_suffix_loop fs fuel pos calls crc buf =
      some (crc32_feed crc (byte_at fs.content) pos (fs.content.length - pos)) := by
  induction fuel generalizing pos calls crc buf with
  | zero => omega
  | succ fuel ih =>
    unfold add_file_suffix_loop
    dsimp only
    by_cases hend : pos = fs.content.length
    · have h0 : sys_read fs.content pos 2048 (fs.reads calls) = 0 := by
        unfold sys_read
        rw [if_neg (not_lt.mpr (hreads _)), hend, Nat.sub_self]
        simp
      rw [h0, if_pos rfl, hend, Nat.sub_self]
      rfl
    · obtain ⟨r, hr, hr1, _, hr3⟩ := sys_read_bounds fs.content pos 2048 (fs.reads calls)
        (hreads _) (by omega) (by omega)
      rw [hr, if_neg (by omega), Int.toNat_ofNat, ih _ _ _ _ (by omega) (by omega)]
      have hc : crc32_feed crc (read_into fs.content pos (r : Int) buf) 0 r =
          crc32_feed crc (byte_at fs.content) pos r := by
        apply crc32_feed_congr
        intro i hi
        rw [Nat.zero_add, read_into_lt _ _ _ _ _ (by omega)]
      have e : fs.content.length - pos = r + (fs.content.length - (pos + r)) := by omega
      rw [hc, crc32_feed_add, ← e]

/-- What `add_file_suffix` produces when the file opens, the reads do not fail and the
suffix is written in full: the file followed by the sixteen suffix bytes. -/
theorem add_file_suffix_spec (fs : FileSys) (uninit buf : Nat → Nat) (fuel : Nat)
    (hfd : 0 ≤ fs.fd) (hreads : ∀ k, 0 ≤ fs.reads k) (hwrite : 16 ≤ fs.writes 0)
    (hfuel : fs.content.length + 1 ≤ fuel) :
    add_file_suffix fs uninit buf fuel =
      some (0, write_from fs.content 16 (suffix_with_crc (suffix_image uninit)
        (crc32_feed (crc32_feed crc32_init (byte_at fs.content) 0 fs.content.length)
          (suffix_image uninit) 0 12))) := by
  unfold add_file_suffix
  rw [if_neg (not_lt.mpr hfd),
    add_file_suffix_loop_spec fs hreads fuel 0 0 crc32_init buf (Nat.zero_le _) (by omega)]
  dsimp only
  rw [sys_write_complete DFU_FILE_SUFFIX_SIZE (fs.writes 0) hwrite]
  rfl

/-- Along the loop of `sam7dfu_do_upload`, when it is left through `break`, the CRC
register is the CRC of the file written so far. -/
theorem upload_loop_crc (fs : FileSys) (xfer_size fuel : Nat) (v : upload_vars)
    (r : Option Int × upload_vars)
    (hinv : v.crc = crc32_feed crc32_init (byte_at v.content) 0 v.content.length)
    (hloop : sam7dfu_do_upload_loop fs xfer_size fuel v = some r) (hbreak : r.1 = none) :
    r.2.crc = crc32_feed crc32_init (byte_at r.2.content) 0 r.2.content.length := by
  induction fuel generalizing v with
  | zero => simp [sam7dfu_do_upload_loop] at hloop
  | succ fuel ih =>
    unfold sam7dfu_do_upload_loop at hloop
    dsimp only at hloop
    generalize dfu_get_status v.w v.dst = gs at hloop
    by_cases h1 : gs.1 < 0
    · rw [if_pos h1] at hloop
      cases hloop
      cases hbreak
    rw [if_neg h1] at hloop
    by_cases h2 : gs.2.1.bStatus ≠ DFU_STATUS_OK
    · rw [if_pos h2] at hloop
      cases hloop
      cases hbreak
    rw [if_neg h2] at hloop
    generalize dfu_upload gs.2.2 (xfer_size % 2 ^ 16) (some v.buf) = up at hloop
    by_cases h3 : up.1 < 0
    · rw [if_pos h3] at hloop
      cases hloop
      cases hbreak
    rw [if_neg h3] at hloop
    by_cases h4 : sys_write up.1.toNat (fs.writes v.wcalls) < up.1
    · rw [if_pos h4] at hloop
      cases hloop
      cases hbreak
    rw [if_neg h4] at hloop
    have hle := sys_write_le up.1.toNat (fs.writes v.wcalls)
    have hw : sys_write up.1.toNat (fs.writes v.wcalls) = up.1 := by omega
    rw [hw] at hloop
    have hstep : crc32_feed v.crc (up.2.1.getD v.buf) 0 up.1.toNat =
        crc32_feed crc32_init (byte_at (write_from v.content up.1 (up.2.1.getD v.buf))) 0
          (write_from v.content up.1 (up.2.1.getD v.buf)).length := by
      rw [write_from_length, ← crc32_feed_add, hinv]
      have h0 : crc32_feed crc32_init
          (byte_at (write_from v.content up.1 (up.2.1.getD v.buf))) 0 v.content.length =
          crc32_feed crc32_init (byte_at v.content) 0 v.content.length := by
        apply crc32_feed_congr
        intro i hi
        rw [Nat.zero_add, byte_at_write_from_left _ _ _ _ hi]
      rw [h0]
      apply crc32_feed_congr
      intro i hi
      rw [Nat.zero_add, Nat.zero_add, byte_at_write_from_right _ _ _ _ hi, Nat.mod_mod]
    by_cases h5 : up.1 < xfer_size
    · rw [if_pos h5] at hloop
      cases hloop
      exact hstep
    · rw [if_neg h5] at hloop
      exact ih _ hstep hloop

/-- The decoder reports 1 for a file longer than 16 bytes whose CRC over all bytes but
the last four equals the little-endian value of the last four, however it is read. -/
theorem decoder_accepts (F : List Nat) (hlen : 16 < F.length)
    (hvalid : crc32_feed crc32_init (byte_at F) 0 (F.length - 4) =
      le32 (fun i => byte_at F (F.length - 16 + i)) 12)
    (fs2 : FileSys) (suffix : Nat → Nat) (dwCRC calculated_crc : Nat)
    (suffix_tmp buf2 : Nat → Nat) (hc : fs2.content = F) (hfd : 0 ≤ fs2.fd)
    (hstat : 0 ≤ fs2.fstat_ret) (hreads : ∀ k, 0 ≤ fs2.reads k) :
    ∃ r, dfu_file_suffix_check fs2 suffix dwCRC calculated_crc suffix_tmp buf2 = some r ∧
      r.ret = 1 ∧ r.calculated_crc = r.dwCRC := by
  subst hc
  obtain ⟨r, hr, h1, h2, h3, _⟩ := dfu_file_suffix_check_spec fs2 suffix dwCRC calculated_crc
    suffix_tmp buf2 hfd hstat hlen hreads
  have e : r.calculated_crc = r.dwCRC := by rw [h1, h2, hvalid]
  exact ⟨r, hr, by rw [h3, if_pos e], e⟩

/-- Replacing one byte of a file the decoder accepts gives a file it rejects: before the
last four bytes the computed CRC changes, inside them the stored one does. -/
theorem tamper_detected (F : List Nat) (hlen : 16 < F.length)
    (hvalid : crc32_feed crc32_init (byte_at F) 0 (F.length - 4) =
      le32 (fun i => byte_at F (F.length - 16 + i)) 12)
    (p v : Nat) (hp : p < F.length) (hv : v % 256 ≠ byte_at F p) :
    crc32_feed crc32_init (byte_at (F.set p v)) 0 (F.length - 4) ≠
      le32 (fun i => byte_at (F.set p v) (F.length - 16 + i)) 12 := by
  by_cases hcase : p < F.length - 4
  · have hD : le32 (fun i => byte_at (F.set p v) (F.length - 16 + i)) 12 =
        le32 (fun i => byte_at F (F.length - 16 + i)) 12 := by
      unfold le32
      simp only [byte_at_set F p v _ hp]
      rw [if_neg (by omega), if_neg (by omega), if_neg (by omega), if_neg (by omega)]
    rw [hD, ← hvalid]
    apply crc32_feed_single_change crc32_init _ _ p _ hcase
    · rw [byte_at_set F p v p hp, if_pos rfl, Nat.mod_mod,
        Nat.mod_eq_of_lt (byte_at_lt F p)]
      exact hv
    · intro i hi
      rw [byte_at_set F p v i hp, if_neg hi]
  · have hC : crc32_feed crc32_init (byte_at (F.set p v)) 0 (F.length - 4) =
        crc32_feed crc32_init (byte_at F) 0 (F.length - 4) := by
      apply crc32_feed_congr
      intro i hi
      rw [Nat.zero_add, byte_at_set F p v i hp, if_neg (by omega)]
    rw [hC, hvalid]
    unfold le32
    simp only [byte_at_set F p v _ hp]
    have hv0 : v % 256 < 256 := Nat.mod_lt _ (by decide)
    have hk : p = F.length - 16 + 12 ∨ p = F.length - 16 + (12 + 1) ∨
        p = F.length - 16 + (12 + 2) ∨ p = F.length - 16 + (12 + 3) := by omega
    rcases hk with h | h | h | h
    · rw [if_pos h.symm, if_neg (by omega), if_neg (by omega), if_neg (by omega)]
      rw [h] at hv
      have := byte_at_lt F (F.length - 16 + 12)
      omega
    · rw [if_neg (by omega), if_pos h.symm, if_neg (by omega), if_neg (by omega)]
      rw [h] at hv
      have := byte_at_lt F (F.length - 16 + (12 + 1))
      omega
    · rw [if_neg (by omega), if_neg (by omega), if_pos h.symm, if_neg (by omega)]
      rw [h] at hv
      have := byte_at_lt F (F.length - 16 + (12 + 2))
      omega
    · rw [if_neg (by omega), if_neg (by omega), if_neg (by omega), if_pos h.symm]
      rw [h] at hv
      have := byte_at_lt F (F.length - 16 + (12 + 3))
      omega

/-- The decoder reports 0 for a file longer than 16 bytes whose CRC over all bytes but
the last four differs from the little-endian value of the last four. -/
theorem decoder_rejects (F : List Nat) (hlen : 16 < F.length)
    (hbad : crc32_feed crc32_init (byte_at F) 0 (F.length - 4) ≠
      le32 (fun i => byte_at F (F.length - 16 + i)) 12)
    (fs2 : FileSys) (suffix : Nat → Nat) (dwCRC calculated_crc : Nat)
    (suffix_tmp buf2 : Nat → Nat) (hc : fs2.content = F) (hfd : 0 ≤ fs2.fd)
    (hstat : 0 ≤ fs2.fstat_ret) (hreads : ∀ k, 0 ≤ fs2.reads k) :
    ∃ r, dfu_file_suffix_check fs2 suffix dwCRC calculated_crc suffix_tmp buf2 = some r ∧
      r.ret = 0 ∧ r.calculated_crc ≠ r.dwCRC := by
  subst hc
  obtain ⟨r, hr, h1, h2, h3, _⟩ := dfu_file_suffix_check_spec fs2 suffix dwCRC calculated_crc
    suffix_tmp buf2 hfd hstat hlen hreads
  have e : ¬ r.calculated_crc = r.dwCRC := by rw [h1, h2]; exact hbad
  exact ⟨r, hr, by rw [h3, if_neg e], e⟩

/-- The first twelve bytes of the buffer after `memcpy(buf, &suffix, 16)` are the
suffix's. -/
theorem memcpy_suffix_head (buf image : Nat → Nat) (i : Nat) (hi : i < 12) :
    memcpy buf 0 image 16 i % 256 = image i % 256 := by
  unfold memcpy
  rw [if_pos ⟨Nat.zero_le _, by omega⟩, Nat.sub_zero]

/-- C19 (suffix round trip). First part: for every file of at least one byte that opens,
whose reads do not fail and whose suffix write is complete, `add_file_suffix` returns 0
and leaves the payload followed by sixteen bytes, and `dfu_file_suffix_check` run on that
file (shorter than 2^31 bytes, the range of the decoder's `int` counters; opened, `fstat`
and reads without error, whatever the chunking of the reads and the caller's and locals'
previous contents) returns 1, the CRC it computes being equal to the `dwCRC` it reads
back. Second part: the same for the file `sam7dfu_do_upload`
writes when its loop is left through `break` (last block shorter than `xfer_size`) with
at least one byte written, a buffer that holds the sixteen suffix bytes and a complete
suffix write. -/
theorem C19_suffix_round_trip :
    (∀ (fs : FileSys) (uninit buf : Nat → Nat) (fuel : Nat),
      0 ≤ fs.fd → (∀ k, 0 ≤ fs.reads k) → 16 ≤ fs.writes 0 →
      1 ≤ fs.content.length → fs.content.length + 1 ≤ fuel →
      ∃ F, add_file_suffix fs uninit buf fuel = some (0, F) ∧
        F.length = fs.content.length + 16 ∧
        (∀ i, i < fs.content.length → byte_at F i = byte_at fs.content i) ∧
        ∀ (fs2 : FileSys) (suffix : Nat → Nat) (dwCRC calculated_crc : Nat)
          (suffix_tmp buf2 : Nat → Nat),
          fs2.content = F → fs2.content.length < 2 ^ 31 → 0 ≤ fs2.fd →
          0 ≤ fs2.fstat_ret → (∀ k, 0 ≤ fs2.reads k) →
          ∃ r, dfu_file_suffix_check fs2 suffix dwCRC calculated_crc suffix_tmp buf2 = some r ∧
            r.ret = 1 ∧ r.calculated_crc = r.dwCRC) ∧
    (∀ (w : World) (fs : FileSys) (xfer_size : Nat) (buf : Nat → Nat) (dst : dfu_status)
        (uninit : Nat → Nat) (fuel : Nat) (r : Option Int × upload_vars),
      0 ≤ fs.fd → 16 ≤ xfer_size →
      sam7dfu_do_upload_loop fs xfer_size fuel
        { w := w, content := [], wcalls := 0, total_bytes := 0, crc := crc32_init,
          buf := buf, dst := dst } = some r →
      r.1 = none → 16 ≤ fs.writes r.2.wcalls → 1 ≤ r.2.content.length →
      sam7dfu_do_upload w fs xfer_size true buf dst uninit fuel =
        some (0, r.2.w, upload_append_suffix fs r.2 uninit) ∧
      (upload_append_suffix fs r.2 uninit).length = r.2.content.length + 16 ∧
      (∀ i, i < r.2.content.length →
        byte_at (upload_append_suffix fs r.2 uninit) i = byte_at r.2.content i) ∧
      ∀ (fs2 : FileSys) (suffix : Nat → Nat) (dwCRC calculated_crc : Nat)
        (suffix_tmp buf2 : Nat → Nat),
        fs2.content = upload_append_suffix fs r.2 uninit → fs2.content.length < 2 ^ 31 →
        0 ≤ fs2.fd → 0 ≤ fs2.fstat_ret → (∀ k, 0 ≤ fs2.reads k) →
        ∃ c, dfu_file_suffix_check fs2 suffix dwCRC calculated_crc suffix_tmp buf2 = some c ∧
          c.ret = 1 ∧ c.calculated_crc = c.dwCRC) := by
  constructor
  · intro fs uninit buf fuel hfd hreads hwrite hlen hfuel
    obtain ⟨h1, h2, h3⟩ := suffixed_file_valid fs.content (suffix_image uninit)
      (suffix_image uninit)
      (crc32_feed crc32_init (byte_at fs.content) 0 fs.content.length) rfl (fun _ _ => rfl)
    refine ⟨_, add_file_suffix_spec fs uninit buf fuel hfd hreads hwrite hfuel, h1, ?_, ?_⟩
    · intro i hi
      exact byte_at_write_from_left _ _ _ _ hi
    · intro fs2 suffix dwCRC calculated_crc suffix_tmp buf2 hc _
      apply decoder_accepts _ (by rw [h1]; omega) _ fs2 suffix dwCRC calculated_crc
        suffix_tmp buf2 hc
      rw [h1, h2, h3]
  · intro w fs xfer_size buf dst uninit fuel r hfd _ hloop hbreak hwrite hlen
    have hcrc := upload_loop_crc fs xfer_size fuel _ r rfl hloop hbreak
    have hF : upload_append_suffix fs r.2 uninit =
        write_from r.2.content 16 (suffix_with_crc (suffix_image uninit)
          (crc32_feed r.2.crc (memcpy r.2.buf 0 (suffix_image uninit) 16) 0 12)) := by
      unfold upload_append_suffix
      dsimp only
      rw [sys_write_complete DFU_FILE_SUFFIX_SIZE (fs.writes r.2.wcalls) hwrite]
      rfl
    obtain ⟨h1, h2, h3⟩ := suffixed_file_valid r.2.content (suffix_image uninit)
      (memcpy r.2.buf 0 (suffix_image uninit) 16) r.2.crc hcrc
      (memcpy_suffix_head r.2.buf (suffix_image uninit))
    rw [hF]
    refine ⟨?_, h1, ?_, ?_⟩
    · unfold sam7dfu_do_upload
      rw [hloop, ← hF]
      obtain ⟨r1, r2⟩ := r
      cases hbreak
      have hfd2 : ¬ fs.fd < 0 := not_lt.mpr hfd
      simp only [Bool.not_true, Bool.false_eq_true, if_false, hfd2]
    · intro i hi
      exact byte_at_write_from_left _ _ _ _ hi
    · intro fs2 suffix dwCRC calculated_crc suffix_tmp buf2 hc _
      apply decoder_accepts _ (by rw [h1]; omega) _ fs2 suffix dwCRC calculated_crc
        suffix_tmp buf2 hc
      rw [h1, h2, h3]

/-- The one-block upload of the sample device leaves its loop with a result. -/
theorem sample_upload_some :
    (sam7dfu_do_upload_loop (sample_file []) 64 1
      { w := sample_world DFU_STATE_dfuIDLE USB_DFU_CAN_UPLOAD upload_replies,
        content := [], wcalls := 0, total_bytes := 0, crc := crc32_init,
        buf := fun _ => 0, dst := zero_status }).isSome = true := by decide

/-- The round trip of C19 on the payload 1, 2, 3: `add_file_suffix` makes a file of 19
bytes which the decoder accepts, and so does a one-block upload of the same bytes. -/
theorem C19_suffix_round_trip_witness :
    (∃ F, add_file_suffix (sample_file [1, 2, 3]) (fun _ => 0) (fun _ => 0) 4 = some (0, F) ∧
      F.length = 19 ∧
      ∃ r, dfu_file_suffix_check (sample_file F) (fun _ => 0) 0 0 (fun _ => 0) (fun _ => 0) =
        some r ∧ r.ret = 1) ∧
    (∃ r, sam7dfu_do_upload_loop (sample_file []) 64 1
        { w := sample_world DFU_STATE_dfuIDLE USB_DFU_CAN_UPLOAD upload_replies,
          content := [], wcalls := 0, total_bytes := 0, crc := crc32_init,
          buf := fun _ => 0, dst := zero_status } = some r ∧
      r.2.content = [1, 2, 3] ∧
      (upload_append_suffix (sample_file []) r.2 (fun _ => 0)).length = 19 ∧
      ∃ c, dfu_file_suffix_check
          (sample_file (upload_append_suffix (sample_file []) r.2 (fun _ => 0)))
          (fun _ => 0) 0 0 (fun _ => 0) (fun _ => 0) = some c ∧ c.ret = 1) := by
  constructor
  · obtain ⟨F, h1, h2, _, h4⟩ := C19_suffix_round_trip.1 (sample_file [1, 2, 3])
      (fun _ => 0) (fun _ => 0) 4 (by decide) (fun _ => (by decide : (0 : Int) ≤ 2))
      (by decide) (by decide) (by decide)
    obtain ⟨r, hr, hr1, _⟩ := h4 (sample_file F) (fun _ => 0) 0 0 (fun _ => 0) (fun _ => 0)
      rfl (by show F.length < 2 ^ 31; rw [h2]; decide) (by decide : (0 : Int) ≤ 3)
      (by decide : (0 : Int) ≤ 0) (fun _ => (by decide : (0 : Int) ≤ 2))
    exact ⟨F, h1, h2, r, hr, hr1⟩
  · obtain ⟨_, h2, _, h4⟩ := C19_suffix_round_trip.2
      (sample_world DFU_STATE_dfuIDLE USB_DFU_CAN_UPLOAD upload_replies) (sample_file []) 64
      (fun _ => 0) zero_status (fun _ => 0) 1 (Option.get _ sample_upload_some) (by decide)
      (by decide) (Option.some_get sample_upload_some).symm (by decide) (by decide) (by decide)
    have hl : (upload_append_suffix (sample_file []) (Option.get _ sample_upload_some).2
        (fun _ => 0)).length < 2 ^ 31 := by
      rw [h2]
      decide
    obtain ⟨c, hc, hc1, _⟩ := h4 (sample_file _) (fun _ => 0) 0 0 (fun _ => 0) (fun _ => 0)
      rfl hl (by decide : (0 : Int) ≤ 3) (by decide : (0 : Int) ≤ 0)
      (fun _ => (by decide : (0 : Int) ≤ 2))
    exact ⟨_, (Option.some_get sample_upload_some).symm, by decide, h2, c, hc, hc1⟩

/-- C20 (suffix tamper detection), with the CRC of spec section 4.1 (`crc32_init`,
`crc32_byte`). First part: let `F` be the file `add_file_suffix` leaves for a payload of
at least one byte (file opened, reads without error, suffix written in full). Replacing
the byte at any position `p` of `F` (payload, suffix header fields, or the stored CRC
itself) by a different byte `v` gives a file on which `dfu_file_suffix_check` (file
shorter than 2^31 bytes, the range of the decoder's `int` counters; opened, `fstat` and
reads without error, whatever the chunking) returns 0, the CRC it computes being
different from the `dwCRC` it reads back. Second part: the same for the file
`sam7dfu_do_upload` writes when its loop is left through `break` with at least one byte
written. -/
theorem C20_suffix_tamper_detection :
    (∀ (fs : FileSys) (uninit buf : Nat → Nat) (fuel : Nat) (F : List Nat) (p v : Nat)
        (fs2 : FileSys) (suffix : Nat → Nat) (dwCRC calculated_crc : Nat)
        (suffix_tmp buf2 : Nat → Nat),
      0 ≤ fs.fd → (∀ k, 0 ≤ fs.reads k) → 16 ≤ fs.writes 0 →
      1 ≤ fs.content.length → fs.content.length + 1 ≤ fuel →
      add_file_suffix fs uninit buf fuel = some (0, F) →
      p < F.length → v % 256 ≠ byte_at F p →
      fs2.content = F.set p v → fs2.content.length < 2 ^ 31 → 0 ≤ fs2.fd →
      0 ≤ fs2.fstat_ret → (∀ k, 0 ≤ fs2.reads k) →
      ∃ r, dfu_file_suffix_check fs2 suffix dwCRC calculated_crc suffix_tmp buf2 = some r ∧
        r.ret = 0 ∧ r.calculated_crc ≠ r.dwCRC) ∧
    (∀ (w : World) (fs : FileSys) (xfer_size : Nat) (buf : Nat → Nat) (dst : dfu_status)
        (uninit : Nat → Nat) (fuel : Nat) (r : Option Int × upload_vars) (p v : Nat)
        (fs2 : FileSys) (suffix : Nat → Nat) (dwCRC calculated_crc : Nat)
        (suffix_tmp buf2 : Nat → Nat),
      16 ≤ xfer_size →
      sam7dfu_do_upload_loop fs xfer_size fuel
        { w := w, content := [], wcalls := 0, total_bytes := 0, crc := crc32_init,
          buf := buf, dst := dst } = some r →
      r.1 = none → 16 ≤ fs.writes r.2.wcalls → 1 ≤ r.2.content.length →
      p < (upload_append_suffix fs r.2 uninit).length →
      v % 256 ≠ byte_at (upload_append_suffix fs r.2 uninit) p →
      fs2.content = (upload_append_suffix fs r.2 uninit).set p v →
      fs2.content.length < 2 ^ 31 → 0 ≤ fs2.fd →
      0 ≤ fs2.fstat_ret → (∀ k, 0 ≤ fs2.reads k) →
      ∃ c, dfu_file_suffix_check fs2 suffix dwCRC calculated_crc suffix_tmp buf2 = some c ∧
        c.ret = 0 ∧ c.calculated_crc ≠ c.dwCRC) := by
  constructor
  · intro fs uninit buf fuel F p v fs2 suffix dwCRC calculated_crc suffix_tmp buf2
      hfd hreads hwrite hlen hfuel henc hp hv hc _
    obtain ⟨h1, h2, h3⟩ := suffixed_file_valid fs.content (suffix_image uninit)
      (suffix_image uninit)
      (crc32_feed crc32_init (byte_at fs.content) 0 fs.content.length) rfl (fun _ _ => rfl)
    rw [add_file_suffix_spec fs uninit buf fuel hfd hreads hwrite hfuel] at henc
    have hF := (Prod.mk.inj (Option.some.inj henc)).2
    rw [hF] at h1 h2 h3
    have hbad := tamper_detected F (by rw [h1]; omega) (by rw [h1, h2, h3]) p v hp hv
    apply decoder_rejects (F.set p v) (by rw [List.length_set, h1]; omega) _ fs2 suffix
      dwCRC calculated_crc suffix_tmp buf2 hc
    rw [List.length_set]
    exact hbad
  · intro w fs xfer_size buf dst uninit fuel r p v fs2 suffix dwCRC calculated_crc
      suffix_tmp buf2 _ hloop hbreak hwrite hlen hp hv hc _
    have hcrc := upload_loop_crc fs xfer_size fuel _ r rfl hloop hbreak
    have hF : write_from r.2.content 16 (suffix_with_crc (suffix_image uninit)
          (crc32_feed r.2.crc (memcpy r.2.buf 0 (suffix_image uninit) 16) 0 12)) =
        upload_append_suffix fs r.2 uninit := by
      unfold upload_append_suffix
      dsimp only
      rw [sys_write_complete DFU_FILE_SUFFIX_SIZE (fs.writes r.2.wcalls) hwrite]
      rfl
    obtain ⟨h1, h2, h3⟩ := suffixed_file_valid r.2.content (suffix_image uninit)
      (memcpy r.2.buf 0 (suffix_image uninit) 16) r.2.crc hcrc
      (memcpy_suffix_head r.2.buf (suffix_image uninit))
    rw [hF] at h1 h2 h3
    have hbad := tamper_detected (upload_append_suffix fs r.2 uninit) (by rw [h1]; omega)
      (by rw [h1, h2, h3]) p v hp hv
    apply decoder_rejects ((upload_append_suffix fs r.2 uninit).set p v)
      (by rw [List.length_set, h1]; omega) _ fs2 suffix dwCRC calculated_crc suffix_tmp buf2 hc
    rw [List.length_set]
    exact hbad

set_option maxRecDepth 100000 in
/-- The file `add_file_suffix` makes of the sample payload. -/
theorem sample_suffixed_eq :
    add_file_suffix (sample_file [1, 2, 3]) (fun _ => 0) (fun _ => 0) 4 =
      some (0, sample_suffixed) := by decide

/-- The tamper detection of C20 on the payload 1, 2, 3: the second payload byte of the
suffixed file set to 7, and the signature byte `U` of the uploaded file set to 0, each
make the decoder return 0. -/
theorem C20_suffix_tamper_detection_witness :
    (add_file_suffix (sample_file [1, 2, 3]) (fun _ => 0) (fun _ => 0) 4 =
        some (0, sample_suffixed) ∧
      ∃ r, dfu_file_suffix_check (sample_file (sample_suffixed.set 1 7)) (fun _ => 0) 0 0
        (fun _ => 0) (fun _ => 0) = some r ∧ r.ret = 0) ∧
    (∃ c, dfu_file_suffix_check
        (sample_file ((upload_append_suffix (sample_file [])
          (Option.get _ sample_upload_some).2 (fun _ => 0)).set 11 0))
        (fun _ => 0) 0 0 (fun _ => 0) (fun _ => 0) = some c ∧ c.ret = 0) := by
  constructor
  · obtain ⟨r, hr, hr1, _⟩ := C20_suffix_tamper_detection.1 (sample_file [1, 2, 3])
      (fun _ => 0) (fun _ => 0) 4 sample_suffixed 1 7
      (sample_file (sample_suffixed.set 1 7)) (fun _ => 0) 0 0 (fun _ => 0) (fun _ => 0)
      (by decide) (fun _ => (by decide : (0 : Int) ≤ 2)) (by decide) (by decide) (by decide)
      sample_suffixed_eq (by decide) (by decide) rfl (by decide) (by decide) (by decide)
      (fun _ => (by decide : (0 : Int) ≤ 2))
    exact ⟨sample_suffixed_eq, r, hr, hr1⟩
  · obtain ⟨c, hc, hc1, _⟩ := C20_suffix_tamper_detection.2
      (sample_world DFU_STATE_dfuIDLE USB_DFU_CAN_UPLOAD upload_replies) (sample_file []) 64
      (fun _ => 0) zero_status (fun _ => 0) 1 (Option.get _ sample_upload_some) 11 0
      (sample_file ((upload_append_suffix (sample_file [])
          (Option.get _ sample_upload_some).2 (fun _ => 0)).set 11 0))
      (fun _ => 0) 0 0 (fun _ => 0) (fun _ => 0)
      (by decide) (Option.some_get sample_upload_some).symm (by decide) (by decide)
      (by decide) (by decide) (by decide) rfl (by decide) (by decide) (by decide)
      (fun _ => (by decide : (0 : Int) ≤ 2))
    exact ⟨c, hc, hc1⟩

/-- Away from the sign bit, `dfu_quirk_is_set` reads one bit of `q1`. -/
theorem quirk_is_set_eq (Q : dfu_quirks) (r : Nat) (hr : r < 31) :
    dfu_quirk_is_set (some Q) r = if Q.q1.testBit r then ((2 ^ r : Nat) : Int) else 0 := by
  have h31 : 2 ^ r < 2 ^ 31 := Nat.pow_lt_pow_right (by decide) hr
  have h32 : 2 ^ r % 2 ^ 32 = 2 ^ r := Nat.mod_eq_of_lt (by omega)
  unfold dfu_quirk_is_set uint_to_int
  dsimp only
  rw [Nat.one_shiftLeft, Nat.and_two_pow]
  cases Q.q1.testBit r
  · simp
  · simp only [Bool.toNat_true, Nat.one_mul, h32, if_pos h31, if_true]

/-- The function `dfu_quirk_is_set` is non-zero exactly when the bit is set. -/
theorem quirk_is_set_ne_zero (Q : dfu_quirks) (r : Nat) (hr : r < 31) :
    dfu_quirk_is_set (some Q) r ≠ 0 ↔ Q.q1.testBit r = true := by
  rw [quirk_is_set_eq Q r hr]
  cases Q.q1.testBit r
  · simp
  · have : (2 ^ r : Nat) ≠ 0 := Nat.pos_iff_ne_zero.mp (Nat.two_pow_pos r)
    simp

/-- The bits of `q1` after `dfu_quirk_set`. -/
theorem quirk_set_testBit (Q : dfu_quirks) (q r : Nat) (hr : r < 32) :
    ((Q.q1 ||| (1 <<< q)) % 2 ^ 32).testBit r = (Q.q1.testBit r || decide (q = r)) := by
  rw [Nat.testBit_mod_two_pow, Nat.testBit_or, Nat.one_shiftLeft, Nat.testBit_two_pow]
  simp [hr]

/-- The bits of `q1` after `dfu_quirk_clear`. -/
theorem quirk_clear_testBit (Q : dfu_quirks) (q r : Nat) (hq : q < 32) (hr : r < 32) :
    (Q.q1 &&& (2 ^ 32 - 1 - (1 <<< q))).testBit r = (Q.q1.testBit r && !decide (q = r)) := by
  have hlt : 2 ^ q < 2 ^ 32 := Nat.pow_lt_pow_right (by decide) hq
  rw [Nat.testBit_and, Nat.one_shiftLeft, Nat.sub_sub, Nat.add_comm 1,
    Nat.testBit_two_pow_sub_succ hlt, Nat.testBit_two_pow]
  simp [hr]

/-- The product `case` labels of the Openmoko vendors are the range `0x5117 .. 0x5126`. -/
theorem mem_openmoko_products (p : Nat) :
    p ∈ openmoko_products ↔ 0x5117 ≤ p ∧ p ≤ 0x5126 := by
  unfold openmoko_products
  simp only [List.mem_cons, List.mem_singleton, List.not_mem_nil, or_false]
  omega

/-- C29: for 16-bit `idVendor` and `idProduct`, `dfu_quirks_detect` returns the set with
`q1 = 1 << QUIRK_OPENMOKO_DNLOAD_STATUS_POLL_TIMEOUT` when `idVendor` is `0x1457` or
`0x5117` and `0x5117 <= idProduct <= 0x5126`, and the set with `q1 = 0` otherwise. In
the first set `dfu_quirk_is_set` is non-zero for that quirk only and the set is not
empty; in the second no quirk is set and `dfu_quirks_is_empty` returns 1. The result is
the same for every `bcdDFU`, `bcdDevice` and previous content of the local. -/
theorem C29_quirks_detect (q0 : dfu_quirks) (bcdDFU idVendor idProduct bcdDevice : Nat)
    (hv : idVendor < 2 ^ 16) (hp : idProduct < 2 ^ 16) :
    dfu_quirks_detect q0 bcdDFU idVendor idProduct bcdDevice =
      (if (idVendor = 0x1457 ∨ idVendor = 0x5117) ∧ 0x5117 ≤ idProduct ∧ idProduct ≤ 0x5126
        then { q1 := 1 <<< QUIRK_OPENMOKO_DNLOAD_STATUS_POLL_TIMEOUT } else { q1 := 0 }) ∧
    (∀ r, r < 31 →
      (dfu_quirk_is_set (some (dfu_quirks_detect q0 bcdDFU idVendor idProduct bcdDevice)) r
          ≠ 0 ↔
        ((idVendor = 0x1457 ∨ idVendor = 0x5117) ∧ 0x5117 ≤ idProduct ∧
          idProduct ≤ 0x5126) ∧ r = QUIRK_OPENMOKO_DNLOAD_STATUS_POLL_TIMEOUT)) ∧
    (dfu_quirks_is_empty (some (dfu_quirks_detect q0 bcdDFU idVendor idProduct bcdDevice))
        = 1 ↔
      ¬ ((idVendor = 0x1457 ∨ idVendor = 0x5117) ∧ 0x5117 ≤ idProduct ∧
        idProduct ≤ 0x5126)) ∧
    (∀ (q0' : dfu_quirks) (bcdDFU' bcdDevice' : Nat),
      dfu_quirks_detect q0' bcdDFU' idVendor idProduct bcdDevice' =
        dfu_quirks_detect q0 bcdDFU idVendor idProduct bcdDevice) := by
  have key : ∀ (q0' : dfu_quirks) (bcdDFU' bcdDevice' : Nat),
      dfu_quirks_detect q0' bcdDFU' idVendor idProduct bcdDevice' =
      (if (idVendor = 0x1457 ∨ idVendor = 0x5117) ∧ 0x5117 ≤ idProduct ∧ idProduct ≤ 0x5126
        then { q1 := 1 <<< QUIRK_OPENMOKO_DNLOAD_STATUS_POLL_TIMEOUT } else { q1 := 0 }) := by
    intro q0' bcdDFU' bcdDevice'
    unfold dfu_quirks_detect
    simp only [Nat.mod_eq_of_lt hv, Nat.mod_eq_of_lt hp, dfu_quirks_clear, dfu_quirk_set,
      Option.getD_some, mem_openmoko_products, ite_self]
    by_cases h1 : idVendor = 0x1d50
    · rw [if_pos h1, if_neg (by omega)]
    · rw [if_neg h1]
      by_cases h2 : idVendor = 0x1457 ∨ idVendor = 0x5117
      · rw [if_pos h2]
        by_cases h3 : 0x5117 ≤ idProduct ∧ idProduct ≤ 0x5126
        · rw [if_pos h3, if_pos ⟨h2, h3⟩]
          rfl
        · rw [if_neg h3, if_neg (fun h => h3 h.2)]
      · rw [if_neg h2, if_neg (fun h => h2 h.1)]
  refine ⟨key q0 bcdDFU bcdDevice, ?_, ?_, ?_⟩
  · intro r hr
    rw [key q0 bcdDFU bcdDevice, quirk_is_set_ne_zero _ r hr]
    by_cases hc : (idVendor = 0x1457 ∨ idVendor = 0x5117) ∧ 0x5117 ≤ idProduct ∧
        idProduct ≤ 0x5126
    · rw [if_pos hc]
      show (1 <<< 1).testBit r = true ↔ _
      rw [Nat.one_shiftLeft, Nat.testBit_two_pow]
      simp only [decide_eq_true_eq]
      exact ⟨fun h => ⟨hc, h.symm⟩, fun h => h.2.symm⟩
    · rw [if_neg hc]
      show (0 : Nat).testBit r = true ↔ _
      rw [Nat.zero_testBit]
      exact ⟨fun h => absurd h (by decide), fun h => absurd h.1 hc⟩
  · rw [key q0 bcdDFU bcdDevice]
    by_cases hc : (idVendor = 0x1457 ∨ idVendor = 0x5117) ∧ 0x5117 ≤ idProduct ∧
        idProduct ≤ 0x5126
    · rw [if_pos hc]
      exact ⟨fun h => absurd h (by decide), fun h => absurd hc h⟩
    · rw [if_neg hc]
      exact ⟨fun _ => hc, fun _ => rfl⟩
  · intro q0' bcdDFU' bcdDevice'
    rw [key, key]

/-- C29 at the Neo1973 in u-boot (`0x1457:0x5119`): the download poll quirk is set. -/
theorem C29_quirks_detect_witness :
    dfu_quirks_detect { q1 := 77 } 0x0100 0x1457 0x5119 0 = { q1 := 2 } ∧
    dfu_quirks_detect { q1 := 77 } 0x0100 0x1d50 0x5119 0 = { q1 := 0 } :=
  ⟨(C29_quirks_detect { q1 := 77 } 0x0100 0x1457 0x5119 0 (by decide) (by decide)).1,
    (C29_quirks_detect { q1 := 77 } 0x0100 0x1d50 0x5119 0 (by decide) (by decide)).1⟩

/-- C30: for every quirk set `Q` and quirk IDs `q`, `r` below 31 (the enumeration is
1 .. 6): after `dfu_quirk_set(Q, q)` `dfu_quirk_is_set(Q, q)` is non-zero, after
`dfu_quirk_clear(Q, q)` it is zero, neither changes `dfu_quirk_is_set(Q, r)` for
`r != q`, and after `dfu_quirks_clear(Q)` `dfu_quirks_is_empty(Q)` returns 1 and
`dfu_quirk_is_set(Q, r)` is zero. -/
theorem C30_quirk_set_laws (Q : dfu_quirks) (q r : Nat) (hq : q < 31) (hr : r < 31) :
    dfu_quirk_is_set (dfu_quirk_set (some Q) q) q ≠ 0 ∧
    dfu_quirk_is_set (dfu_quirk_clear (some Q) q) q = 0 ∧
    (r ≠ q →
      dfu_quirk_is_set (dfu_quirk_set (some Q) q) r = dfu_quirk_is_set (some Q) r ∧
      dfu_quirk_is_set (dfu_quirk_clear (some Q) q) r = dfu_quirk_is_set (some Q) r) ∧
    dfu_quirks_is_empty (dfu_quirks_clear (some Q)) = 1 ∧
    dfu_quirk_is_set (dfu_quirks_clear (some Q)) r = 0 := by
  refine ⟨?_, ?_, ?_, rfl, ?_⟩
  · show dfu_quirk_is_set (some { q1 := (Q.q1 ||| (1 <<< q)) % 2 ^ 32 }) q ≠ 0
    rw [quirk_is_set_ne_zero _ q hq]
    show ((Q.q1 ||| (1 <<< q)) % 2 ^ 32).testBit q = true
    rw [quirk_set_testBit Q q q (by omega)]
    simp
  · show dfu_quirk_is_set (some { q1 := Q.q1 &&& (2 ^ 32 - 1 - (1 <<< q)) }) q = 0
    rw [quirk_is_set_eq _ q hq]
    show (if (Q.q1 &&& (2 ^ 32 - 1 - (1 <<< q))).testBit q = true then _ else _) = _
    rw [quirk_clear_testBit Q q q (by omega) (by omega)]
    simp
  · intro hne
    have hd : decide (q = r) = false := decide_eq_false (fun h => hne h.symm)
    constructor
    · show dfu_quirk_is_set (some { q1 := (Q.q1 ||| (1 <<< q)) % 2 ^ 32 }) r = _
      rw [quirk_is_set_eq _ r hr, quirk_is_set_eq Q r hr]
      show (if ((Q.q1 ||| (1 <<< q)) % 2 ^ 32).testBit r = true then _ else _) = _
      rw [quirk_set_testBit Q q r (by omega), hd, Bool.or_false]
    · show dfu_quirk_is_set (some { q1 := Q.q1 &&& (2 ^ 32 - 1 - (1 <<< q)) }) r = _
      rw [quirk_is_set_eq _ r hr, quirk_is_set_eq Q r hr]
      show (if (Q.q1 &&& (2 ^ 32 - 1 - (1 <<< q))).testBit r = true then _ else _) = _
      rw [quirk_clear_testBit Q q r (by omega) (by omega), hd, Bool.not_false, Bool.and_true]
  · show dfu_quirk_is_set (some { q1 := 0 }) r = 0
    rw [quirk_is_set_eq _ r hr]
    show (if (0 : Nat).testBit r = true then _ else _) = _
    rw [Nat.zero_testBit]
    rfl

/-- C30 on the set with `q1 = 0x54`, quirk 2 against quirk 4. -/
theorem C30_quirk_set_laws_witness :
    dfu_quirk_is_set (dfu_quirk_set (some { q1 := 0x54 }) 2) 2 ≠ 0 ∧
    dfu_quirk_is_set (dfu_quirk_clear (some { q1 := 0x54 }) 2) 2 = 0 ∧
    dfu_quirk_is_set (dfu_quirk_clear (some { q1 := 0x54 }) 2) 4 =
      dfu_quirk_is_set (some { q1 := 0x54 }) 4 :=
  ⟨(C30_quirk_set_laws { q1 := 0x54 } 2 4 (by decide) (by decide)).1,
    (C30_quirk_set_laws { q1 := 0x54 } 2 4 (by decide) (by decide)).2.1,
    ((C30_quirk_set_laws { q1 := 0x54 } 2 4 (by decide) (by decide)).2.2.1 (by decide)).2⟩

/-- The read loop of `dfu_file_suffix_check` ends within `st_size - bytes_read + 1`
turns, whatever the reads return: every turn that goes on has read at least a byte. -/
theorem suffix_check_loop_total (fs : FileSys) (n fuel : Nat) (s : check_state)
    (h : n - s.bytes_read < fuel) : ∃ r, suffix_check_loop fs n fuel s = some r := by
  induction fuel generalizing s with
  | zero => omega
  | succ fuel ih =>
    unfold suffix_check_loop
    dsimp only
    by_cases h1 : n - s.bytes_read > 0
    · rw [if_pos h1]
      generalize sys_read fs.content s.bytes_read (min 3 (n - s.bytes_read))
        (fs.reads s.calls) = ret
      generalize read_into fs.content s.bytes_read ret s.buf = b
      by_cases h2 : ret ≠ 0
      · rw [if_pos h2]
        by_cases h3 : ret < 0
        · rw [if_pos h3]
          exact ⟨_, rfl⟩
        · rw [if_neg h3]
          apply ih
          show n - (s.bytes_read + ret.toNat) < fuel
          omega
      · rw [if_neg h2]
        exact ⟨_, rfl⟩
    · rw [if_neg h1]
      exact ⟨_, rfl⟩

/-- The function `dfu_file_suffix_check` returns on every file and for every behaviour
of `open`, `fstat` and `read`. -/
theorem dfu_file_suffix_check_total (fs : FileSys) (suffix : Nat → Nat)
    (dwCRC calculated_crc : Nat) (suffix_tmp buf : Nat → Nat) :
    ∃ r, dfu_file_suffix_check fs suffix dwCRC calculated_crc suffix_tmp buf = some r := by
  unfold dfu_file_suffix_check
  dsimp only
  split_ifs
  · exact ⟨_, rfl⟩
  · exact ⟨_, rfl⟩
  · exact ⟨_, rfl⟩
  · exact ⟨_, rfl⟩
  · obtain ⟨r, hr⟩ := suffix_check_loop_total fs fs.content.length (fs.content.length + 1)
      { bytes_read := 0, calculated_crc := crc32_init, suffix_tmp := suffix_tmp,
        buf := buf, calls := 0 } (by
        show fs.content.length - 0 < fs.content.length + 1
        omega)
    rw [hr]
    obtain ⟨b, s⟩ := r
    cases b
    · exact ⟨_, rfl⟩
    · exact ⟨_, rfl⟩

/-- On a file of at most 16 bytes `dfu_file_suffix_check` returns 0 and leaves the
caller's suffix and CRC as they were. -/
theorem suffix_check_small (fs : FileSys) (suffix : Nat → Nat) (dwCRC calculated_crc : Nat)
    (suffix_tmp buf : Nat → Nat) (h : fs.content.length ≤ 16) :
    dfu_file_suffix_check fs suffix dwCRC calculated_crc suffix_tmp buf =
      some { ret := 0, suffix := suffix, dwCRC := dwCRC, calculated_crc := calculated_crc } := by
  unfold dfu_file_suffix_check
  dsimp only
  split_ifs <;> rfl

/-- When the check returns 0, `sam7dfu_do_dnload` returns `-1`, or `-ENOMEM` without a
buffer, and the world is as before. -/
theorem dnload_refuses_invalid (w : World) (fs1 fs2 : FileSys) (xfer_size : Nat)
    (malloc_ok : Bool) (buf : Nat → Nat) (dst : dfu_status) (suffix_tmp cbuf : Nat → Nat)
    (fuel : Nat) (c : suffix_check_result)
    (hc : dfu_file_suffix_check fs1 (fun _ => 0) 0 0 suffix_tmp cbuf = some c)
    (hinvalid : c.ret = 0) :
    sam7dfu_do_dnload w fs1 fs2 xfer_size malloc_ok buf dst suffix_tmp cbuf fuel =
      some (if malloc_ok then -1 else -ENOMEM, w) := by
  unfold sam7dfu_do_dnload
  cases malloc_ok
  · rfl
  · rw [hc]
    dsimp only
    rw [if_pos hinvalid]
    rfl

/-- C25: on every file of at most 16 bytes (the empty file included), whatever `open`,
`fstat` and `read` do, `dfu_file_suffix_check` returns 0 (not valid) and leaves the
caller's `*calculated_crc` and `*suffix` untouched (no CRC is started, no byte read), and
`sam7dfu_do_dnload` returns a negative value (`-1`, or `-ENOMEM` without a buffer) with
the world as before: no request is issued. -/
theorem C25_small_file_rejected (fs1 : FileSys) (suffix : Nat → Nat)
    (dwCRC calculated_crc : Nat) (suffix_tmp cbuf : Nat → Nat)
    (hsmall : fs1.content.length ≤ 16) :
    dfu_file_suffix_check fs1 suffix dwCRC calculated_crc suffix_tmp cbuf =
      some { ret := 0, suffix := suffix, dwCRC := dwCRC, calculated_crc := calculated_crc } ∧
    ∀ (w : World) (fs2 : FileSys) (xfer_size : Nat) (malloc_ok : Bool) (buf : Nat → Nat)
      (dst : dfu_status) (fuel : Nat),
      ∃ ret, sam7dfu_do_dnload w fs1 fs2 xfer_size malloc_ok buf dst suffix_tmp cbuf fuel =
          some (ret, w) ∧ ret < 0 := by
  refine ⟨suffix_check_small fs1 suffix dwCRC calculated_crc suffix_tmp cbuf hsmall, ?_⟩
  intro w fs2 xfer_size malloc_ok buf dst fuel
  refine ⟨_, dnload_refuses_invalid w fs1 fs2 xfer_size malloc_ok buf dst suffix_tmp cbuf fuel
    _ (suffix_check_small fs1 _ 0 0 suffix_tmp cbuf hsmall) rfl, ?_⟩
  cases malloc_ok <;> decide

/-- C25 on a file of exactly 16 bytes and on the empty file. -/
theorem C25_small_file_rejected_witness :
    (dfu_file_suffix_check (sample_file (List.replicate 16 0)) (fun _ => 0) 0 7 (fun _ => 0)
        (fun _ => 0)).map (fun r => (r.ret, r.calculated_crc)) = some (0, 7) ∧
    ∃ ret, sam7dfu_do_dnload (sample_world DFU_STATE_dfuIDLE USB_DFU_CAN_DOWNLOAD
        (constant_replies 6 5)) (sample_file []) (sample_file []) 64 true (fun _ => 0)
        zero_status (fun _ => 0) (fun _ => 0) 9 =
      some (ret, sample_world DFU_STATE_dfuIDLE USB_DFU_CAN_DOWNLOAD (constant_replies 6 5)) ∧
      ret < 0 :=
  ⟨by
    rw [(C25_small_file_rejected (sample_file (List.replicate 16 0)) (fun _ => 0) 0 7
      (fun _ => 0) (fun _ => 0) (by decide)).1]
    rfl,
    (C25_small_file_rejected (sample_file []) (fun _ => 0) 0 0 (fun _ => 0) (fun _ => 0)
      (by decide)).2 _ _ _ _ _ _ _⟩

/-- C27: whenever `dfu_file_suffix_check` reports the input file as not valid (returns
0: the file is too small, cannot be read, or its CRC and stored `dwCRC` differ),
`sam7dfu_do_dnload` returns a negative value, `-1` (`-ENOMEM` if `malloc` failed), and
the world is as before the call: no request in the trace, same session state, same
transaction counter. -/
theorem C27_invalid_file_no_request (w : World) (fs1 fs2 : FileSys) (xfer_size : Nat)
    (malloc_ok : Bool) (buf : Nat → Nat) (dst : dfu_status) (suffix_tmp cbuf : Nat → Nat)
    (fuel : Nat) (c : suffix_check_result)
    (hc : dfu_file_suffix_check fs1 (fun _ => 0) 0 0 suffix_tmp cbuf = some c)
    (hinvalid : c.ret = 0) :
    ∃ ret w1, sam7dfu_do_dnload w fs1 fs2 xfer_size malloc_ok buf dst suffix_tmp cbuf fuel =
        some (ret, w1) ∧
      ret < 0 ∧ (ret = -1 ∨ ret = -ENOMEM) ∧ w1 = w ∧ w1.trace = w.trace ∧
      w1.dfu_state = w.dfu_state ∧ w1.handle.transaction = w.handle.transaction := by
  refine ⟨_, w, dnload_refuses_invalid w fs1 fs2 xfer_size malloc_ok buf dst suffix_tmp cbuf
    fuel c hc hinvalid, ?_, ?_, rfl, rfl, rfl, rfl⟩
  · cases malloc_ok <;> decide
  · cases malloc_ok
    · exact Or.inr rfl
    · exact Or.inl rfl

set_option maxRecDepth 100000 in
/-- The check returns on the sample file with its second byte replaced. -/
theorem sample_tampered_some :
    (dfu_file_suffix_check (sample_file (sample_suffixed.set 1 7)) (fun _ => 0) 0 0
      (fun _ => 0) (fun _ => 0)).isSome = true := by decide

set_option maxRecDepth 100000 in
/-- The check returns 0 on the sample file with its second byte replaced. -/
theorem sample_tampered_ret :
    (Option.get _ sample_tampered_some).ret = 0 := by decide

/-- C27 on the sample file with its second byte replaced: the download is refused with
`-1` and the world is untouched. -/
theorem C27_invalid_file_no_request_witness :
    ∃ ret w1, sam7dfu_do_dnload
        (sample_world DFU_STATE_dfuIDLE USB_DFU_CAN_DOWNLOAD (constant_replies 6 5))
        (sample_file (sample_suffixed.set 1 7)) (sample_file (sample_suffixed.set 1 7)) 64
        true (fun _ => 0) zero_status (fun _ => 0) (fun _ => 0) 9 = some (ret, w1) ∧
      ret < 0 ∧ w1.trace = [] := by
  obtain ⟨ret, w1, h, hneg, _, hw, _⟩ := C27_invalid_file_no_request
    (sample_world DFU_STATE_dfuIDLE USB_DFU_CAN_DOWNLOAD (constant_replies 6 5))
    (sample_file (sample_suffixed.set 1 7)) (sample_file (sample_suffixed.set 1 7)) 64
    true (fun _ => 0) zero_status (fun _ => 0) (fun _ => 0) 9
    (Option.get _ sample_tampered_some) (Option.some_get sample_tampered_some).symm
    sample_tampered_ret
  exact ⟨ret, w1, h, hneg, by rw [hw]; rfl⟩

/-- Feeding the first `k` bytes of a file one at a time is the fold over its first `k`
bytes. -/
theorem crc32_feed_eq_foldl (c : List Nat) (crc k : Nat) (hk : k ≤ c.length) :
    crc32_feed crc (byte_at c) 0 k = (c.take k).foldl crc32_byte crc := by
  induction k with
  | zero => rfl
  | succ k ih =>
    have hlt : k < c.length := hk
    simp only [crc32_feed]
    rw [ih (Nat.le_of_lt hlt), List.take_succ, List.foldl_append,
      List.getElem?_eq_getElem hlt]
    simp only [Option.toList, List.foldl_cons, List.foldl_nil, Nat.zero_add]
    unfold byte_at
    rw [crc32_byte_mod, List.getD_eq_getElem _ _ hlt]

/-- The last four bytes of a file, read as `le32`, are the little-endian value of the
list of its last four bytes. -/
theorem le32_eq_spec_le (c : List Nat) (h : 16 < c.length) :
    le32 (fun i => byte_at c (c.length - 16 + i)) 12 = spec_le (c.drop (c.length - 4)) := by
  have e0 : c.length - 16 + 12 = c.length - 4 := by omega
  have e1 : c.length - 16 + (12 + 1) = c.length - 4 + 1 := by omega
  have e2 : c.length - 16 + (12 + 2) = c.length - 4 + 1 + 1 := by omega
  have e3 : c.length - 16 + (12 + 3) = c.length - 4 + 1 + 1 + 1 := by omega
  have h0 : c.length - 4 < c.length := by omega
  have h1 : c.length - 4 + 1 < c.length := by omega
  have h2 : c.length - 4 + 1 + 1 < c.length := by omega
  have h3 : c.length - 4 + 1 + 1 + 1 < c.length := by omega
  have hd : c.drop (c.length - 4 + 1 + 1 + 1 + 1) = [] :=
    List.drop_eq_nil_of_le (by omega)
  rw [List.drop_eq_getElem_cons h0, List.drop_eq_getElem_cons h1,
    List.drop_eq_getElem_cons h2, List.drop_eq_getElem_cons h3, hd]
  unfold le32 spec_le byte_at
  simp only [e0, e1, e2, e3, List.getD_eq_getElem _ _ h0, List.getD_eq_getElem _ _ h1,
    List.getD_eq_getElem _ _ h2, List.getD_eq_getElem _ _ h3, List.foldr_cons,
    List.foldr_nil, Nat.mod_mod]
  omega

/-- The bytes of the suffix the encoders build, as they stand in the file. -/
theorem suffix_bytes_in_file (payload : List Nat) (image : Nat → Nat) (C j : Nat)
    (hj : j < 16) :
    byte_at (write_from payload 16 (suffix_with_crc image C)) (payload.length + j) =
      suffix_with_crc image C j % 256 :=
  byte_at_write_from_right payload 16 (suffix_with_crc image C) j hj

/-- The file an encoder leaves has the layout of spec section 4.2 from offset 6 on. -/
theorem suffix_layout (payload : List Nat) (uninit src : Nat → Nat) (crc0 : Nat)
    (hcrc0 : crc0 = crc32_feed crc32_init (byte_at payload) 0 payload.length)
    (hsrc : ∀ i, i < 12 → src i % 256 = suffix_image uninit i % 256) :
    encoded_suffix_layout
      (write_from payload 16 (suffix_with_crc (suffix_image uninit)
        (crc32_feed crc0 src 0 12))) payload.length := by
  obtain ⟨h1, h2, _⟩ := suffixed_file_valid payload (suffix_image uninit) src crc0 hcrc0 hsrc
  have e : payload.length + 16 - 4 = payload.length + 12 := by omega
  rw [e] at h2
  have hlt : crc32_feed crc0 src 0 12 < 2 ^ 32 := by
    show crc32_byte _ _ < 2 ^ 32
    exact crc32_byte_lt _ _
  unfold encoded_suffix_layout
  rw [h2]
  generalize crc32_feed crc0 src 0 12 = C at hlt h1
  refine ⟨h1, ?_, ?_, ?_, ?_, ?_, ?_, ?_, ?_, ?_, ?_, hlt⟩ <;>
    rw [suffix_bytes_in_file _ _ _ _ (by omega)] <;>
    simp [suffix_with_crc, suffix_image, DFU_FILE_SUFFIX_SIZE]

/-- The file `sam7dfu_do_upload` leaves when the suffix is written in full. -/
theorem upload_append_suffix_eq (fs : FileSys) (v : upload_vars) (uninit : Nat → Nat)
    (hwrite : 16 ≤ fs.writes v.wcalls) :
    upload_append_suffix fs v uninit =
      write_from v.content 16 (suffix_with_crc (suffix_image uninit)
        (crc32_feed v.crc (memcpy v.buf 0 (suffix_image uninit) 16) 0 12)) := by
  unfold upload_append_suffix
  dsimp only
  rw [sys_write_complete DFU_FILE_SUFFIX_SIZE (fs.writes v.wcalls) hwrite]
  rfl

/-- C22 (encoder layout). First part: for every file that opens, whose reads do not fail
and whose suffix write is complete, `add_file_suffix` returns 0 and leaves the payload
followed by sixteen bytes which, from offset 6 on, are `0x00, 0x01` (`bcdDFU = 0x0100`
little-endian), `'U'`, `'F'`, `'D'`, `0x10` (`bLength = 16`) and the four bytes, least
significant first, of the CRC register obtained from `crc32_init` by feeding every
payload byte and then the first twelve suffix bytes through `crc32_byte`. Second part:
the same for the file `sam7dfu_do_upload` writes when its loop is left through `break`
and the suffix write is complete. -/
theorem C22_encoded_suffix_layout :
    (∀ (fs : FileSys) (uninit buf : Nat → Nat) (fuel : Nat),
      0 ≤ fs.fd → (∀ k, 0 ≤ fs.reads k) → 16 ≤ fs.writes 0 →
      fs.content.length + 1 ≤ fuel →
      ∃ F, add_file_suffix fs uninit buf fuel = some (0, F) ∧
        (∀ i, i < fs.content.length → byte_at F i = byte_at fs.content i) ∧
        encoded_suffix_layout F fs.content.length) ∧
    (∀ (w : World) (fs : FileSys) (xfer_size : Nat) (buf : Nat → Nat) (dst : dfu_status)
        (uninit : Nat → Nat) (fuel : Nat) (r : Option Int × upload_vars),
      16 ≤ xfer_size →
      sam7dfu_do_upload_loop fs xfer_size fuel
        { w := w, content := [], wcalls := 0, total_bytes := 0, crc := crc32_init,
          buf := buf, dst := dst } = some r →
      r.1 = none → 16 ≤ fs.writes r.2.wcalls →
      (∀ i, i < r.2.content.length →
        byte_at (upload_append_suffix fs r.2 uninit) i = byte_at r.2.content i) ∧
      encoded_suffix_layout (upload_append_suffix fs r.2 uninit) r.2.content.length) := by
  constructor
  · intro fs uninit buf fuel hfd hreads hwrite hfuel
    refine ⟨_, add_file_suffix_spec fs uninit buf fuel hfd hreads hwrite hfuel, ?_, ?_⟩
    · intro i hi
      exact byte_at_write_from_left _ _ _ _ hi
    · exact suffix_layout fs.content uninit (suffix_image uninit) _ rfl (fun _ _ => rfl)
  · intro w fs xfer_size buf dst uninit fuel r _ hloop hbreak hwrite
    have hcrc := upload_loop_crc fs xfer_size fuel _ r rfl hloop hbreak
    rw [upload_append_suffix_eq fs r.2 uninit hwrite]
    refine ⟨?_, ?_⟩
    · intro i hi
      exact byte_at_write_from_left _ _ _ _ hi
    · exact suffix_layout r.2.content uninit _ r.2.crc hcrc
        (memcpy_suffix_head r.2.buf (suffix_image uninit))

/-- C22 on the payload 1, 2, 3, suffixed by `add_file_suffix` and by an upload. -/
theorem C22_encoded_suffix_layout_witness :
    encoded_suffix_layout sample_suffixed 3 ∧
    encoded_suffix_layout
      (upload_append_suffix (sample_file []) (Option.get _ sample_upload_some).2
        (fun _ => 0))
      (Option.get _ sample_upload_some).2.content.length := by
  constructor
  · obtain ⟨F, hF, _, hl⟩ := C22_encoded_suffix_layout.1 (sample_file [1, 2, 3])
      (fun _ => 0) (fun _ => 0) 4 (by decide) (fun _ => (by decide : (0 : Int) ≤ 2))
      (by decide) (by decide)
    rw [sample_suffixed_eq] at hF
    cases hF
    exact hl
  · exact (C22_encoded_suffix_layout.2
      (sample_world DFU_STATE_dfuIDLE USB_DFU_CAN_UPLOAD upload_replies) (sample_file []) 64
      (fun _ => 0) zero_status (fun _ => 0) 1 (Option.get _ sample_upload_some) (by decide)
      (Option.some_get sample_upload_some).symm (by decide) (by decide)).2

set_option maxRecDepth 100000 in
/-- With the stack bytes `0xA0 .. 0xA5` under the local `suffix`, `add_file_suffix`
writes them after the payload. -/
theorem sample_stack_suffix :
    (add_file_suffix (sample_file [1, 2, 3]) (fun i => 0xA0 + i) (fun _ => 0) 4).map
        (fun r => (r.1, r.2.take 9)) =
      some (0, [1, 2, 3, 0xA0, 0xA1, 0xA2, 0xA3, 0xA4, 0xA5]) := by decide

set_option maxRecDepth 100000 in
/-- With the stack bytes `0xA0 .. 0xA5` under the local `suffix`, `sam7dfu_do_upload`
writes them after the payload. -/
theorem sample_stack_upload :
    (sam7dfu_do_upload (sample_world DFU_STATE_dfuIDLE USB_DFU_CAN_UPLOAD upload_replies)
        (sample_file []) 64 true (fun _ => 0) zero_status (fun i => 0xA0 + i) 1).map
        (fun r => (r.1, r.2.2.take 9)) =
      some (0, [1, 2, 3, 0xA0, 0xA1, 0xA2, 0xA3, 0xA4, 0xA5]) := by decide

/-- C23 (evaluation): the fields `bcdDevice`, `idProduct` and `idVendor` of the suffix are
never assigned. For the payload 1, 2, 3 the six bytes `add_file_suffix` writes after
the payload are the six bytes the stack held under the local `suffix`, whatever they
are; with the stack bytes `0xA0 .. 0xA5` both `add_file_suffix` and `sam7dfu_do_upload`
write `0xA0 .. 0xA5` there, not zeros. -/
theorem C23_suffix_ids_are_stack_memory :
    (∀ uninit : Nat → Nat,
      (add_file_suffix (sample_file [1, 2, 3]) uninit (fun _ => 0) 4).map
          (fun r => (r.1, (r.2.drop 3).take 6)) =
        some (0, [uninit 0 % 256, uninit 1 % 256, uninit 2 % 256, uninit 3 % 256,
          uninit 4 % 256, uninit 5 % 256])) ∧
    (add_file_suffix (sample_file [1, 2, 3]) (fun i => 0xA0 + i) (fun _ => 0) 4).map
        (fun r => (r.1, r.2.take 9)) =
      some (0, [1, 2, 3, 0xA0, 0xA1, 0xA2, 0xA3, 0xA4, 0xA5]) ∧
    (sam7dfu_do_upload (sample_world DFU_STATE_dfuIDLE USB_DFU_CAN_UPLOAD upload_replies)
        (sample_file []) 64 true (fun _ => 0) zero_status (fun i => 0xA0 + i) 1).map
        (fun r => (r.1, r.2.2.take 9)) =
      some (0, [1, 2, 3, 0xA0, 0xA1, 0xA2, 0xA3, 0xA4, 0xA5]) := by
  refine ⟨?_, ?_, ?_⟩
  · intro uninit
    rw [add_file_suffix_spec (sample_file [1, 2, 3]) uninit (fun _ => 0) 4 (by decide)
      (fun _ => (by decide : (0 : Int) ≤ 2)) (by decide) (by decide)]
    simp [write_from, sample_file, suffix_with_crc, suffix_image, List.range_succ]
  · exact sample_stack_suffix
  · exact sample_stack_upload

set_option maxRecDepth 100000 in
/-- C21 (counterexample): the file `unsigned_file` is longer than 16 bytes, its last 16
bytes carry the signature bytes 0, 0, 0 (not `'U'`, `'F'`, `'D'`) and `bLength` 0 (not
16), and its last four bytes are the CRC of the bytes before; `dfu_file_suffix_check`
returns 1 (valid) on it and hands the zero signature and length back. -/
theorem C21_counterexample_unsigned_file_accepted :
    (dfu_file_suffix_check (sample_file unsigned_file) (fun _ => 0) 0 0 (fun _ => 7)
        (fun _ => 0)).map
      (fun r => (r.ret, r.suffix 8, r.suffix 9, r.suffix 10, r.suffix 11,
        decide (r.calculated_crc = r.dwCRC))) = some (1, 0, 0, 0, 0, true) := by decide

/-- C21 (amended): `dfu_file_suffix_check` does not examine the signature or `bLength`.
For every file of more than 16 and less than 2^31 bytes (the range of the decoder's
`int` counters) that opens and whose `fstat` and reads do not fail, the decoder returns
1 or 0, and 1 exactly when the little-endian value of the last four bytes equals the
CRC of all bytes before them (fed one at a time from `crc32_init`); the last sixteen
bytes, signature and `bLength` included, are handed back in `*suffix` as they are. In
particular, if the file is made of a payload of at least one byte, twelve header bytes
`hdr` (any signature, any `bLength`) and the four bytes, least significant first, of
the CRC over payload and header, it is reported valid and the header bytes are handed
back unchanged. -/
theorem C21_signature_not_examined (fs : FileSys) (suffix : Nat → Nat)
    (dwCRC calculated_crc : Nat) (suffix_tmp buf : Nat → Nat)
    (hfd : 0 ≤ fs.fd) (hstat : 0 ≤ fs.fstat_ret) (hn : 16 < fs.content.length)
    (_hint : fs.content.length < 2 ^ 31) (hreads : ∀ k, 0 ≤ fs.reads k) :
    ∃ r, dfu_file_suffix_check fs suffix dwCRC calculated_crc suffix_tmp buf = some r ∧
      (r.ret = 1 ∨ r.ret = 0) ∧
      (r.ret = 1 ↔
        le32 (fun i => byte_at fs.content (fs.content.length - 16 + i)) 12 =
          crc32_feed crc32_init (byte_at fs.content) 0 (fs.content.length - 4)) ∧
      (∀ i, i < 16 → r.suffix i = byte_at fs.content (fs.content.length - 16 + i)) ∧
      ∀ (payload : List Nat) (hdr : Nat → Nat), 1 ≤ payload.length →
        fs.content = write_from payload 16 (suffix_with_crc hdr
          (crc32_feed (crc32_feed crc32_init (byte_at payload) 0 payload.length) hdr 0 12)) →
        r.ret = 1 ∧ r.calculated_crc = r.dwCRC ∧
        fs.content.length = payload.length + 16 ∧
        ∀ i, i < 12 → r.suffix i = hdr i % 256 ∧
          byte_at fs.content (payload.length + i) = hdr i % 256 := by
  obtain ⟨r, hr, hc, hd, hret, hs⟩ := dfu_file_suffix_check_spec fs suffix dwCRC
    calculated_crc suffix_tmp buf hfd hstat hn hreads
  have hiff : r.ret = 1 ↔ r.calculated_crc = r.dwCRC := by
    rw [hret]
    by_cases e : r.calculated_crc = r.dwCRC
    · simp [e]
    · simp [e]
  refine ⟨r, hr, ?_, ?_, hs, ?_⟩
  · rw [hret]
    by_cases e : r.calculated_crc = r.dwCRC
    · exact Or.inl (if_pos e)
    · exact Or.inr (if_neg e)
  · rw [hiff, hc, hd]
    exact eq_comm
  · intro payload hdr hlen hfile
    obtain ⟨h1, h2, h3⟩ := suffixed_file_valid payload hdr hdr
      (crc32_feed crc32_init (byte_at payload) 0 payload.length) rfl (fun _ _ => rfl)
    rw [← hfile] at h1 h2 h3
    have e : r.calculated_crc = r.dwCRC := by rw [hc, hd, h1, h2, h3]
    refine ⟨hiff.mpr e, e, h1, ?_⟩
    intro i hi
    have hb : byte_at fs.content (payload.length + i) = hdr i % 256 := by
      rw [hfile, suffix_bytes_in_file _ _ _ _ (by omega)]
      unfold suffix_with_crc
      rw [if_neg (by omega), if_neg (by omega), if_neg (by omega), if_neg (by omega)]
    refine ⟨?_, hb⟩
    rw [hs i (by omega), h1, ← hb]
    congr 1

set_option maxRecDepth 100000 in
/-- The file `unsigned_file` is the payload 1, 2, 3 followed by twelve zero header bytes
and the CRC over payload and header. -/
theorem unsigned_file_layout :
    unsigned_file = write_from [1, 2, 3] 16 (suffix_with_crc (fun _ => 0)
      (crc32_feed (crc32_feed crc32_init (byte_at [1, 2, 3]) 0 3) (fun _ => 0) 0 12)) := by
  decide

/-- C21 (amended) on the payload 1, 2, 3 with twelve zero header bytes: the file is
reported valid and the zero signature and length are handed back. -/
theorem C21_signature_not_examined_witness :
    ∃ r, dfu_file_suffix_check (sample_file unsigned_file) (fun _ => 0) 0 0 (fun _ => 0)
        (fun _ => 0) = some r ∧
      r.ret = 1 ∧ r.suffix 8 = 0 ∧ r.suffix 11 = 0 := by
  obtain ⟨r, hr, _, _, _, hp⟩ := C21_signature_not_examined (sample_file unsigned_file)
    (fun _ => 0) 0 0 (fun _ => 0) (fun _ => 0) (by decide : (0 : Int) ≤ 3)
    (by decide : (0 : Int) ≤ 0) (by decide) (by decide)
    (fun _ => (by decide : (0 : Int) ≤ 2))
  obtain ⟨h1, _, _, hs⟩ := hp [1, 2, 3] (fun _ => 0) (by decide) unsigned_file_layout
  exact ⟨r, hr, h1, (hs 8 (by decide)).1, (hs 11 (by decide)).1⟩

/-- C24 (decoder against spec section 4.2): for every file of more than 16 bytes (and
less than 2^31, the range of the `int` counters) that opens and whose `fstat` and reads
do not fail, however the reads cut it into chunks of 1 to 3 bytes,
`dfu_file_suffix_check` returns what `spec_suffix_decode` says: `*calculated_crc` is the
register after feeding all bytes but the last four, one at a time, from `crc32_init`;
`*suffix` holds the last 16 bytes of the file; `suffix->dwCRC` is the little-endian
value of the last four bytes; the return value is 1 if the two CRCs are equal and 0
otherwise. -/
theorem C24_decoder_refines_spec (fs : FileSys) (suffix : Nat → Nat)
    (dwCRC calculated_crc : Nat) (suffix_tmp buf : Nat → Nat)
    (hfd : 0 ≤ fs.fd) (hstat : 0 ≤ fs.fstat_ret) (hn : 16 < fs.content.length)
    (_hint : fs.content.length < 2 ^ 31) (hreads : ∀ k, 0 ≤ fs.reads k) :
    ∃ r d, dfu_file_suffix_check fs suffix dwCRC calculated_crc suffix_tmp buf = some r ∧
      spec_suffix_decode fs.content = some d ∧
      r.calculated_crc = d.computed_crc ∧
      r.calculated_crc =
        crc32_feed crc32_init (byte_at fs.content) 0 (fs.content.length - 4) ∧
      r.dwCRC = d.stored_crc ∧
      r.dwCRC = le32 (fun i => byte_at fs.content (fs.content.length - 16 + i)) 12 ∧
      (∀ i, i < 16 → r.suffix i = d.suffix.getD i 0 % 256) ∧
      (∀ i, i < 16 → r.suffix i = byte_at fs.content (fs.content.length - 16 + i)) ∧
      (r.ret = 1 ↔ d.valid = true) ∧ (r.ret = 0 ↔ d.valid = false) ∧
      (r.ret = 1 ↔ r.calculated_crc = r.dwCRC) := by
  obtain ⟨r, hr, hc, hd, hret, hs⟩ := dfu_file_suffix_check_spec fs suffix dwCRC
    calculated_crc suffix_tmp buf hfd hstat hn hreads
  have hc2 : r.calculated_crc = spec_crc32 (fs.content.take (fs.content.length - 4)) := by
    rw [hc, crc32_feed_eq_foldl _ _ _ (Nat.sub_le _ _)]
    rfl
  have hd2 : r.dwCRC = spec_le (fs.content.drop (fs.content.length - 4)) := by
    rw [hd, le32_eq_spec_le _ hn]
  refine ⟨r,
    { valid := spec_crc32 (fs.content.take (fs.content.length - 4)) ==
        spec_le (fs.content.drop (fs.content.length - 4))
      suffix := fs.content.drop (fs.content.length - 16)
      stored_crc := spec_le (fs.content.drop (fs.content.length - 4))
      computed_crc := spec_crc32 (fs.content.take (fs.content.length - 4)) },
    hr, ?_, hc2, hc, hd2, hd, ?_, hs, ?_, ?_, ?_⟩
  · unfold spec_suffix_decode
    rw [if_pos hn]
  · intro i hi
    rw [hs i hi]
    unfold byte_at
    rw [List.getD_eq_getElem?_getD, List.getD_eq_getElem?_getD, List.getElem?_drop]
  · rw [hret, ← hc2, ← hd2]
    by_cases e : r.calculated_crc = r.dwCRC
    · simp [e]
    · simp [e]
  · rw [hret, ← hc2, ← hd2]
    by_cases e : r.calculated_crc = r.dwCRC
    · simp [e]
    · simp [e]
  · rw [hret]
    by_cases e : r.calculated_crc = r.dwCRC
    · simp [e]
    · simp [e]

/-- C24 on the suffixed sample file, read in chunks of two bytes: decoder and
specification agree, and the file is valid. -/
theorem C24_decoder_refines_spec_witness :
    ∃ r d, dfu_file_suffix_check (sample_file sample_suffixed) (fun _ => 0) 0 0
        (fun _ => 0) (fun _ => 0) = some r ∧
      spec_suffix_decode sample_suffixed = some d ∧
      r.calculated_crc = d.computed_crc ∧ (r.ret = 1 ↔ d.valid = true) := by
  obtain ⟨r, d, h1, h2, h3, _, _, _, _, _, h9, _⟩ := C24_decoder_refines_spec
    (sample_file sample_suffixed) (fun _ => 0) 0 0 (fun _ => 0) (fun _ => 0)
    (by decide) (by decide) (by decide) (by decide) (fun _ => (by decide : (0 : Int) ≤ 2))
  exact ⟨r, d, h1, h2, h3, h9⟩

/-! ## Lemmas on the download -/

/-- Continuing a trace without DNLOAD is reflexive. -/
theorem appends_no_dnload_refl (w : World) : appends_no_dnload w w :=
  ⟨[], by simp, by simp⟩

/-- Continuing a trace without DNLOAD is transitive. -/
theorem appends_no_dnload_trans (a b c : World) (h1 : appends_no_dnload a b)
    (h2 : appends_no_dnload b c) : appends_no_dnload a c := by
  obtain ⟨r1, e1, n1⟩ := h1
  obtain ⟨r2, e2, n2⟩ := h2
  refine ⟨r1 ++ r2, by rw [e2, e1, List.append_assoc], ?_⟩
  intro x hx
  rcases List.mem_append.mp hx with h | h
  · exact n1 x h
  · exact n2 x h

/-- The function `dfu_get_status` keeps the handle and appends no DNLOAD. -/
theorem get_status_frame (w : World) (st : dfu_status) :
    (dfu_get_status w st).2.2.handle = w.handle ∧
    appends_no_dnload w (dfu_get_status w st).2.2 := by
  unfold dfu_get_status
  dsimp only
  split_ifs
  · exact ⟨rfl, appends_no_dnload_refl w⟩
  · exact ⟨rfl, appends_no_dnload_refl w⟩
  · unfold _usb_dfu10_get_status
    dsimp only
    split_ifs <;> exact ⟨rfl, ⟨_, rfl, by simp [is_dnload]⟩⟩
  · unfold _usb_dfu10_get_status
    dsimp only
    split_ifs <;> exact ⟨rfl, ⟨_, rfl, by simp [is_dnload]⟩⟩

/-- The function `dfu_status_poll_timeout` keeps the handle and appends no DNLOAD. -/
theorem status_poll_timeout_frame (w : World) (t : Nat) :
    (dfu_status_poll_timeout w t).2.handle = w.handle ∧
    appends_no_dnload w (dfu_status_poll_timeout w t).2 := by
  unfold dfu_status_poll_timeout
  dsimp only
  split_ifs
  · exact ⟨rfl, appends_no_dnload_refl w⟩
  · exact ⟨rfl, appends_no_dnload_refl w⟩
  · exact ⟨rfl, ⟨_, rfl, by simp [is_dnload]⟩⟩
  · exact ⟨rfl, ⟨_, rfl, by simp [is_dnload]⟩⟩

/-- The function `dfu_usb_reset` keeps the handle and appends no DNLOAD. -/
theorem usb_reset_frame (w : World) :
    (dfu_usb_reset w).2.handle = w.handle ∧ appends_no_dnload w (dfu_usb_reset w).2 := by
  unfold dfu_usb_reset
  dsimp only
  split_ifs
  · exact ⟨rfl, appends_no_dnload_refl w⟩
  · exact ⟨rfl, appends_no_dnload_refl w⟩
  · unfold _usb_dfu10_usb_reset
    dsimp only
    split_ifs <;> exact ⟨rfl, ⟨_, rfl, by simp [is_dnload]⟩⟩
  · unfold _usb_dfu10_usb_reset
    dsimp only
    split_ifs <;> exact ⟨rfl, ⟨_, rfl, by simp [is_dnload]⟩⟩

/-- The function `dfu_download` changes nothing of the handle but the counter. -/
theorem download_frame (w : World) (length : Nat) (data : Option (List Nat)) :
    (dfu_download w length data).2.handle.usb_timeout = w.handle.usb_timeout ∧
    (dfu_download w length data).2.handle.func_dfu = w.handle.func_dfu ∧
    (dfu_download w length data).2.handle.quirk_flags = w.handle.quirk_flags ∧
    (dfu_download w length data).2.handle.interface = w.handle.interface := by
  unfold dfu_download
  dsimp only
  split_ifs
  · exact ⟨rfl, rfl, rfl, rfl⟩
  · exact ⟨rfl, rfl, rfl, rfl⟩
  · exact ⟨rfl, rfl, rfl, rfl⟩
  · exact ⟨rfl, rfl, rfl, rfl⟩
  · unfold _usb_dfu10_download
    dsimp only
    split_ifs <;> exact ⟨rfl, rfl, rfl, rfl⟩
  · unfold _usb_dfu10_download
    dsimp only
    split_ifs <;> exact ⟨rfl, rfl, rfl, rfl⟩
  · unfold _usb_dfu10_download
    dsimp only
    split_ifs <;> exact ⟨rfl, rfl, rfl, rfl⟩

/-- A `dfu_download` that does not fail was called on an initialised handle. -/
theorem download_ok_init (w : World) (length : Nat) (data : Option (List Nat))
    (h : ¬ (dfu_download w length data).1 < 0) : _dfu_verify_init w = 0 := by
  unfold dfu_download at h
  by_cases hv : (0 : Int) ≠ _dfu_verify_init w
  · rw [if_pos hv] at h
    exact absurd (by decide : (-1 : Int) < 0) h
  · exact (not_not.mp hv).symm

/-- The check `_dfu_verify_init` reads the timeout of the handle only. -/
theorem verify_init_congr (w w1 : World)
    (h : w1.handle.usb_timeout = w.handle.usb_timeout) :
    _dfu_verify_init w1 = _dfu_verify_init w := by
  unfold _dfu_verify_init
  rw [h]

/-- When the poll loop of the download ends through its condition, the tracked state is
`dfuDNLOAD_IDLE`, the status record says so, and the handle is as before. -/
theorem dnload_poll_loop_exit (fuel : Nat) (w : World) (dst : dfu_status)
    (r : Option Int × World × dfu_status) (h : dnload_poll_loop fuel w dst = some r)
    (hnone : r.1 = none) :
    r.2.1.dfu_state = DFU_STATE_dfuDNLOAD_IDLE ∧ r.2.1.handle = w.handle ∧
    (r.2.2.bState : Int) = DFU_STATE_dfuDNLOAD_IDLE := by
  induction fuel generalizing w dst with
  | zero => simp [dnload_poll_loop] at h
  | succ fuel ih =>
    unfold dnload_poll_loop at h
    dsimp only at h
    have hst := get_status_state w dst
    have hfr := (get_status_frame w dst).1
    generalize dfu_get_status w dst = gs at h hst hfr
    by_cases h1 : gs.1 < 0
    · rw [if_pos h1] at h
      cases h
      cases hnone
    rw [if_neg h1] at h
    have hstate := (hst (not_lt.mp h1)).1
    by_cases hb : (gs.2.1.bState : Int) ≠ DFU_STATE_dfuDNLOAD_IDLE
    · by_cases hbusy : dfu_sm_get_state gs.2.2.dfu_state = DFU_STATE_dfuDNBUSY
      · rw [if_pos hbusy] at h
        have hpf := (status_poll_timeout_frame gs.2.2
          (if dfu_quirk_is_set (some gs.2.2.handle.quirk_flags)
              QUIRK_OPENMOKO_DNLOAD_STATUS_POLL_TIMEOUT ≠ 0 then 5
            else gs.2.1.bwPollTimeout)).1
        generalize dfu_status_poll_timeout gs.2.2
          (if dfu_quirk_is_set (some gs.2.2.handle.quirk_flags)
              QUIRK_OPENMOKO_DNLOAD_STATUS_POLL_TIMEOUT ≠ 0 then 5
            else gs.2.1.bwPollTimeout) = p at h hpf
        by_cases h2 : p.1 < 0
        · rw [if_pos h2] at h
          cases h
          cases hnone
        · rw [if_neg h2, if_pos hb] at h
          obtain ⟨a, b, c⟩ := ih _ _ h
          exact ⟨a, by rw [b, hpf, hfr], c⟩
      · rw [if_neg hbusy, if_neg (by decide : ¬ (0 : Int) < 0), if_pos hb] at h
        obtain ⟨a, b, c⟩ := ih _ _ h
        exact ⟨a, by rw [b, hfr], c⟩
    · have hb5 : (gs.2.1.bState : Int) = DFU_STATE_dfuDNLOAD_IDLE := not_not.mp hb
      have hnb : ¬ dfu_sm_get_state gs.2.2.dfu_state = DFU_STATE_dfuDNBUSY := by
        unfold dfu_sm_get_state
        rw [hstate, hb5]
        decide
      rw [if_neg hnb, if_neg (by decide : ¬ (0 : Int) < 0), if_neg hb] at h
      cases h
      exact ⟨by rw [hstate, hb5], hfr, hb5⟩

/-- When the block loop of the download ends through its condition after at least one
block, the tracked state is `dfuDNLOAD_IDLE` and the handle is initialised. -/
theorem dnload_loop_exit (fs : FileSys) (xfer_size fuel : Nat) (v : dnload_vars)
    (r : Option Int × dnload_vars)
    (hQ : ¬ v.bytes_sent < ((fs.content.length - DFU_FILE_SUFFIX_SIZE : Nat) : Int) →
      v.w.dfu_state = DFU_STATE_dfuDNLOAD_IDLE ∧ _dfu_verify_init v.w = 0)
    (h : sam7dfu_do_dnload_loop fs xfer_size fuel v = some r) (hnone : r.1 = none) :
    r.2.w.dfu_state = DFU_STATE_dfuDNLOAD_IDLE ∧ _dfu_verify_init r.2.w = 0 := by
  induction fuel generalizing v with
  | zero => simp [sam7dfu_do_dnload_loop] at h
  | succ fuel ih =>
    unfold sam7dfu_do_dnload_loop at h
    dsimp only at h
    by_cases hc : v.bytes_sent < ((fs.content.length - DFU_FILE_SUFFIX_SIZE : Nat) : Int)
    · rw [if_pos hc] at h
      generalize sys_read fs.content v.pos
        (min xfer_size (fs.content.length - DFU_FILE_SUFFIX_SIZE - v.bytes_sent.toNat))
        (fs.reads v.rcalls) = ret at h
      by_cases h1 : ret < 0
      · rw [if_pos h1] at h
        cases h
        cases hnone
      rw [if_neg h1] at h
      by_cases h2 : ret = 0
      · rw [if_pos h2] at h
        cases h
        cases hnone
      rw [if_neg h2] at h
      have hinit := download_ok_init v.w (ret.toNat % 2 ^ 16)
        (some ((List.range xfer_size).map
          (fun i => read_into fs.content v.pos ret v.buf i % 256)))
      have hfr := (download_frame v.w (ret.toNat % 2 ^ 16)
        (some ((List.range xfer_size).map
          (fun i => read_into fs.content v.pos ret v.buf i % 256)))).1
      generalize dfu_download v.w (ret.toNat % 2 ^ 16)
        (some ((List.range xfer_size).map
          (fun i => read_into fs.content v.pos ret v.buf i % 256))) = dl at h hinit hfr
      by_cases h3 : dl.1 < 0
      · rw [if_pos h3] at h
        cases h
        cases hnone
      rw [if_neg h3] at h
      have hpl := dnload_poll_loop_exit fuel dl.2 v.dst
      generalize dnload_poll_loop fuel dl.2 v.dst = pl at h hpl
      match pl, h, hpl with
      | none, h, _ => cases h
      | some (some e, w2, dst2), h, _ =>
        cases h
        cases hnone
      | some (none, w2, dst2), h, hpl =>
        obtain ⟨hs, hh, _⟩ := hpl _ rfl rfl
        dsimp only at h
        by_cases h4 : dst2.bStatus ≠ DFU_STATUS_OK
        · rw [if_pos h4] at h
          cases h
          cases hnone
        · rw [if_neg h4] at h
          refine ih _ (fun _ => ⟨hs, ?_⟩) h
          have hh2 : w2.handle = dl.2.handle := hh
          show _dfu_verify_init w2 = 0
          rw [verify_init_congr v.w w2 (by rw [hh2, hfr]), hinit h3]
    · rw [if_neg hc] at h
      cases h
      exact hQ hc

/-- In `dfuDNLOAD_IDLE` a DNLOAD of length 0 leads to `dfuMANIFEST_SYNC`: the session
never sets the guard of a disagreeing device. -/
theorem end_signal_next (w : World) :
    dfu_sm_get_next_state DFU_STATE_dfuDNLOAD_IDLE DFU_EV_DNLOAD (download_guards w 0) =
      DFU_STATE_dfuMANIFEST_SYNC := by
  unfold download_guards
  dsimp only
  rw [if_neg (by decide : ¬ (0 : Nat) > 0)]
  split_ifs <;> decide

/-- The commit from `dfuDNLOAD_IDLE` to `dfuMANIFEST_SYNC` is accepted. -/
theorem commit_manifest_sync (w : World) (hs : w.dfu_state = DFU_STATE_dfuDNLOAD_IDLE) :
    commit_state w DFU_STATE_dfuMANIFEST_SYNC =
      (0, { w with dfu_state := DFU_STATE_dfuMANIFEST_SYNC }) := by
  unfold commit_state
  rw [hs]
  rfl

/-- The end signal `dfu_download(handle, 0, NULL)` issued in `dfuDNLOAD_IDLE` on an
initialised handle: one DNLOAD request of length 0 without data; the session moves to
`dfuMANIFEST_SYNC` if the transfer does not fail and stays where it is otherwise. -/
theorem end_signal (w : World) (hs : w.dfu_state = DFU_STATE_dfuDNLOAD_IDLE)
    (hv : _dfu_verify_init w = 0) :
    (dfu_download w 0 none).2.trace =
      w.trace ++ [UsbCall.control_msg false USB_REQ_DFU_DNLOAD w.handle.transaction
        w.handle.interface none 0 w.handle.usb_timeout] ∧
    (0 ≤ (w.usb 0).ret → (dfu_download w 0 none).2.dfu_state = DFU_STATE_dfuMANIFEST_SYNC) ∧
    ((w.usb 0).ret < 0 → (dfu_download w 0 none).2.dfu_state = DFU_STATE_dfuDNLOAD_IDLE) := by
  have hv' : ¬ (0 : Int) ≠ _dfu_verify_init w := by rw [hv]; exact fun h => h rfl
  have h1 : ¬ (0 ≠ 0 ∧ (none : Option (List Nat)) = none) := fun h => h.1 rfl
  have h2 : ¬ (0 = 0 ∧ (none : Option (List Nat)) ≠ none) := fun h => h.2 rfl
  have hn : ¬ dfu_sm_get_next_state w.dfu_state DFU_EV_DNLOAD (download_guards w 0) < 0 := by
    rw [hs, end_signal_next]
    decide
  refine ⟨(download_issued w 0 none hv' h1 h2 hn).1, ?_, ?_⟩
  · intro hret
    unfold dfu_download
    rw [if_neg hv', if_neg h1, if_neg h2]
    dsimp only
    rw [if_neg hn, hs, end_signal_next]
    unfold _usb_dfu10_download
    dsimp only
    have hr : ¬ (usb_reply (bump_transaction w)).ret < 0 := not_lt.mpr hret
    have key : ∀ c, commit_state (usb_issue (bump_transaction w) c)
        DFU_STATE_dfuMANIFEST_SYNC =
        (0, { usb_issue (bump_transaction w) c with
          dfu_state := DFU_STATE_dfuMANIFEST_SYNC }) :=
      fun c => commit_manifest_sync _ hs
    rw [if_neg hr, key, if_neg (by decide : ¬ (0 : Int) < 0)]
    dsimp only
    rw [if_neg hr]
  · intro hret
    unfold dfu_download
    rw [if_neg hv', if_neg h1, if_neg h2]
    dsimp only
    rw [if_neg hn]
    unfold _usb_dfu10_download
    dsimp only
    have hr : (usb_reply (bump_transaction w)).ret < 0 := hret
    rw [if_pos hr]
    dsimp only
    rw [if_pos (by decide : (-1 : Int) < 0)]
    exact hs

/-- The `switch` that ends the download appends no DNLOAD. -/
theorem dnload_final_switch_frame (ret : Int) (w : World) :
    appends_no_dnload w (dnload_final_switch ret w).2 := by
  unfold dnload_final_switch
  split_ifs
  · exact appends_no_dnload_refl w
  · exact (usb_reset_frame w).2
  · exact appends_no_dnload_refl w

/-- The manifestation part of the download appends no DNLOAD. -/
theorem dnload_manifest_frame (fuel : Nat) (w : World) (dst : dfu_status) (r : Int × World)
    (h : dnload_manifest fuel w dst = some r) : appends_no_dnload w r.2 := by
  induction fuel generalizing w dst with
  | zero => simp [dnload_manifest] at h
  | succ fuel ih =>
    unfold dnload_manifest at h
    dsimp only at h
    have hg := (get_status_frame w dst).2
    generalize dfu_get_status w dst = gs at h hg
    by_cases h1 : gs.1 < 0
    · rw [if_pos h1] at h
      cases h
      exact hg
    rw [if_neg h1] at h
    by_cases h2 : dfu_sm_get_state gs.2.2.dfu_state = DFU_STATE_dfuMANIFEST
    · rw [if_pos h2] at h
      have hp := (status_poll_timeout_frame gs.2.2
        (if dfu_quirk_is_set (some gs.2.2.handle.quirk_flags)
            QUIRK_OPENMOKO_MANIFEST_STATUS_POLL_TIMEOUT ≠ 0 then 1 * 1000 * 1000
          else gs.2.1.bwPollTimeout)).2
      generalize dfu_status_poll_timeout gs.2.2
        (if dfu_quirk_is_set (some gs.2.2.handle.quirk_flags)
            QUIRK_OPENMOKO_MANIFEST_STATUS_POLL_TIMEOUT ≠ 0 then 1 * 1000 * 1000
          else gs.2.1.bwPollTimeout) = p at h hp
      have hgp := appends_no_dnload_trans _ _ _ hg hp
      by_cases h3 : p.1 < 0
      · rw [if_pos h3] at h
        cases h
        exact hgp
      rw [if_neg h3] at h
      by_cases h4 : dfu_sm_get_state p.2.dfu_state = DFU_STATE_dfuMANIFEST_SYNC
      · rw [if_pos h4] at h
        exact appends_no_dnload_trans _ _ _ hgp (ih _ _ h)
      · rw [if_neg h4] at h
        cases h
        exact appends_no_dnload_trans _ _ _ hgp (dnload_final_switch_frame _ _)
    · rw [if_neg h2] at h
      cases h
      exact appends_no_dnload_trans _ _ _ hg (dnload_final_switch_frame _ _)

/-- Calls that are not DNLOAD requests add nothing to the list of DNLOAD requests. -/
theorem dnload_requests_none (rest : List UsbCall) (h : ∀ c ∈ rest, is_dnload c = false) :
    dnload_requests rest = [] := by
  unfold dnload_requests
  rw [List.filterMap_eq_nil_iff]
  intro c hc
  have hcn := h c hc
  cases c with
  | control_msg d b v i data l t =>
    have hb : ¬ b = USB_REQ_DFU_DNLOAD := by
      intro e
      rw [e] at hcn
      simp [is_dnload] at hcn
    simp only [if_neg hb]
  | usb_reset => rfl
  | usleep u => rfl

/-- The DNLOAD requests of a trace continued without DNLOAD are those of the trace. -/
theorem dnload_requests_frame (w w1 : World) (h : appends_no_dnload w w1) :
    dnload_requests w1.trace = dnload_requests w.trace := by
  obtain ⟨rest, e, hn⟩ := h
  have h0 := dnload_requests_none rest hn
  unfold dnload_requests at h0 ⊢
  rw [e, List.filterMap_append, h0, List.append_nil]

/-- The block loop of the sample download ends with a result. -/
theorem sample_dnload_some :
    (sam7dfu_do_dnload_loop (whole_file sample_suffixed) 64 9
      (dnload_start (sample_world DFU_STATE_dfuIDLE USB_DFU_CAN_DOWNLOAD dnload_replies)
        (fun _ => 0) zero_status)).isSome = true := by decide

/-- C26 (download end signal). In every run of `sam7dfu_do_dnload` whose block loop
ends through its condition (`r.1 = none`), on a file of more than 16 bytes: the tracked
state is then `dfuDNLOAD_IDLE`; `dfu_download(handle, 0, NULL)` issues exactly one
request, a DNLOAD with `wLength` 0 and no data; if that transfer does not fail the
session moves to `dfuMANIFEST_SYNC` (the session never raises the guard of a disagreeing
device), and if it fails the session stays in `dfuDNLOAD_IDLE`; whatever the rest of the
function does, it issues no further DNLOAD, so the last DNLOAD request of the run is the
one of length 0; and the value `sam7dfu_do_dnload` returns is that of this
continuation. -/
theorem C26_download_end_signal (w : World) (fs2 : FileSys) (xfer_size : Nat)
    (buf : Nat → Nat) (dst : dfu_status) (fuel : Nat) (r : Option Int × dnload_vars)
    (hlen : 16 < fs2.content.length)
    (hloop : sam7dfu_do_dnload_loop fs2 xfer_size fuel (dnload_start w buf dst) = some r)
    (hpast : r.1 = none) :
    r.2.w.dfu_state = DFU_STATE_dfuDNLOAD_IDLE ∧
    (dfu_download r.2.w 0 none).2.trace =
      r.2.w.trace ++ [UsbCall.control_msg false USB_REQ_DFU_DNLOAD r.2.w.handle.transaction
        r.2.w.handle.interface none 0 r.2.w.handle.usb_timeout] ∧
    (0 ≤ (r.2.w.usb 0).ret →
      (dfu_download r.2.w 0 none).2.dfu_state = DFU_STATE_dfuMANIFEST_SYNC) ∧
    ((r.2.w.usb 0).ret < 0 →
      (dfu_download r.2.w 0 none).2.dfu_state = DFU_STATE_dfuDNLOAD_IDLE) ∧
    (∀ res, dnload_manifest fuel (dfu_download r.2.w 0 none).2 r.2.dst = some res →
      dnload_requests res.2.trace = dnload_requests r.2.w.trace ++ [(0, [])] ∧
      (dnload_requests res.2.trace).getLast? = some (0, [])) ∧
    (∀ (fs1 : FileSys) (suffix_tmp cbuf : Nat → Nat) (c : suffix_check_result),
      dfu_file_suffix_check fs1 (fun _ => 0) 0 0 suffix_tmp cbuf = some c → c.ret ≠ 0 →
      0 ≤ fs2.fd → 0 ≤ fs2.fstat_ret →
      sam7dfu_do_dnload w fs1 fs2 xfer_size true buf dst suffix_tmp cbuf fuel =
        dnload_manifest fuel (dfu_download r.2.w 0 none).2 r.2.dst) := by
  have hexit := dnload_loop_exit fs2 xfer_size fuel (dnload_start w buf dst) r (by
    intro hno
    exfalso
    apply hno
    show (0 : Int) < ((fs2.content.length - DFU_FILE_SUFFIX_SIZE : Nat) : Int)
    simp only [DFU_FILE_SUFFIX_SIZE]
    omega) hloop hpast
  obtain ⟨hs, hv⟩ := hexit
  obtain ⟨ht, hok, hfail⟩ := end_signal r.2.w hs hv
  refine ⟨hs, ht, hok, hfail, ?_, ?_⟩
  · intro res hres
    have hfr := dnload_requests_frame _ _ (dnload_manifest_frame _ _ _ _ hres)
    have hreq : dnload_requests res.2.trace = dnload_requests r.2.w.trace ++ [(0, [])] := by
      rw [hfr, ht]
      unfold dnload_requests
      rw [List.filterMap_append]
      rfl
    refine ⟨hreq, ?_⟩
    rw [hreq, List.getLast?_append]
    rfl
  · intro fs1 suffix_tmp cbuf c hc hvalid hfd hstat
    unfold sam7dfu_do_dnload
    rw [hc, hloop]
    obtain ⟨r1, v⟩ := r
    cases hpast
    have h1 : ¬ fs2.fd < 0 := not_lt.mpr hfd
    have h2 : ¬ fs2.fstat_ret < 0 := not_lt.mpr hstat
    have h3 : ¬ fs2.content.length ≤ 0 := by omega
    have h4 : ¬ fs2.content.length ≤ DFU_FILE_SUFFIX_SIZE := by
      simp only [DFU_FILE_SUFFIX_SIZE]
      omega
    simp only [Bool.not_true, Bool.false_eq_true, if_false, hvalid, h1, h2, h3, h4]

/-- C26 on the sample download of one block: after the block the session is in
`dfuDNLOAD_IDLE`, and the end signal moves it to `dfuMANIFEST_SYNC`. -/
theorem C26_download_end_signal_witness :
    (Option.get _ sample_dnload_some).2.w.dfu_state = DFU_STATE_dfuDNLOAD_IDLE ∧
    (dfu_download (Option.get _ sample_dnload_some).2.w 0 none).2.dfu_state =
      DFU_STATE_dfuMANIFEST_SYNC :=
  ⟨(C26_download_end_signal
      (sample_world DFU_STATE_dfuIDLE USB_DFU_CAN_DOWNLOAD dnload_replies)
      (whole_file sample_suffixed) 64 (fun _ => 0) zero_status 9
      (Option.get _ sample_dnload_some) (by decide)
      (Option.some_get sample_dnload_some).symm (by decide)).1,
    (C26_download_end_signal
      (sample_world DFU_STATE_dfuIDLE USB_DFU_CAN_DOWNLOAD dnload_replies)
      (whole_file sample_suffixed) 64 (fun _ => 0) zero_status 9
      (Option.get _ sample_dnload_some) (by decide)
      (Option.some_get sample_dnload_some).symm (by decide)).2.2.1 (by decide)⟩

set_option maxRecDepth 100000 in
/-- The download of `short_write_file` with transfer size 4 to a device that reports
two bytes written per block. -/
theorem short_write_run :
    (sam7dfu_do_dnload
        (sample_world DFU_STATE_dfuIDLE USB_DFU_CAN_DOWNLOAD short_write_replies)
        (whole_file short_write_file) (whole_file short_write_file) 4 true (fun _ => 0)
        zero_status (fun _ => 0) (fun _ => 0) 9).map
      (fun r => (r.1, dnload_requests r.2.trace)) =
    some (0, [(4, [1, 2, 3, 4]), (2, [160, 161]), (0, [])]) := by decide

/-- C28 (evaluation): `short_write_file` is valid, 20 bytes long, with payload 1, 2, 3, 4
and a suffix that begins `0xA0, 0xA1`. With transfer size 4 and a device that reports 2
bytes written for the first DNLOAD, `sam7dfu_do_dnload` adds 2 to `bytes_sent` while the
file offset has advanced by 4: the second block it sends is `0xA0, 0xA1`, the first two
bytes of the suffix. The blocks sent are not the first `n - 16` bytes of the file. -/
theorem C28_short_write_sends_suffix_bytes :
    (sam7dfu_do_dnload
        (sample_world DFU_STATE_dfuIDLE USB_DFU_CAN_DOWNLOAD short_write_replies)
        (whole_file short_write_file) (whole_file short_write_file) 4 true (fun _ => 0)
        zero_status (fun _ => 0) (fun _ => 0) 9).map
      (fun r => (r.1, dnload_requests r.2.trace)) =
    some (0, [(4, [1, 2, 3, 4]), (2, [160, 161]), (0, [])]) ∧
    short_write_file.take (short_write_file.length - 16) = [1, 2, 3, 4] ∧
    (short_write_file.drop (short_write_file.length - 16)).take 2 = [160, 161] :=
  ⟨short_write_run, by decide, by decide⟩

/-- The bits of the destination after the loop of `dfu_quirks_insert`: those it had,
and those of the source at the indices the loop visits. -/
theorem quirks_insert_loop_bits (src : dfu_quirks) (n i : Nat) (d : dfu_quirks)
    (hd : d.q1 < 2 ^ 32) (hi : i + n ≤ 31) :
    ∃ d1, dfu_quirks_insert_loop (some src) n i (some d) = some d1 ∧ d1.q1 < 2 ^ 32 ∧
      ∀ r, d1.q1.testBit r =
        (d.q1.testBit r || (decide (i ≤ r ∧ r < i + n) && src.q1.testBit r)) := by
  induction n generalizing i d with
  | zero =>
    refine ⟨d, rfl, hd, ?_⟩
    intro r
    have : ¬ (i ≤ r ∧ r < i + 0) := by omega
    simp [this]
  | succ n ih =>
    unfold dfu_quirks_insert_loop
    by_cases hb : src.q1.testBit i = true
    · have hset : dfu_quirk_is_set (some src) i ≠ 0 :=
        (quirk_is_set_ne_zero src i (by omega)).mpr hb
      rw [if_pos hset]
      have hlt : (d.q1 ||| (1 <<< i)) % 2 ^ 32 < 2 ^ 32 := Nat.mod_lt _ (by decide)
      obtain ⟨d1, h1, h2, h3⟩ := ih (i + 1) { q1 := (d.q1 ||| (1 <<< i)) % 2 ^ 32 } hlt
        (by omega)
      refine ⟨d1, h1, h2, ?_⟩
      intro r
      rw [h3 r]
      show (((d.q1 ||| (1 <<< i)) % 2 ^ 32).testBit r ||
        (decide (i + 1 ≤ r ∧ r < i + 1 + n) && src.q1.testBit r)) = _
      rw [Nat.testBit_mod_two_pow, Nat.testBit_or, Nat.one_shiftLeft, Nat.testBit_two_pow]
      by_cases hr : r < 32
      · by_cases e : i = r
        · subst e
          have c1 : ¬ (i + 1 ≤ i ∧ i < i + 1 + n) := by omega
          have c2 : i ≤ i ∧ i < i + (n + 1) := by omega
          simp [hr, hb, c1, c2]
        · by_cases c : i + 1 ≤ r ∧ r < i + 1 + n
          · have c2 : i ≤ r ∧ r < i + (n + 1) := by omega
            simp [hr, e, c, c2]
          · have c2 : ¬ (i ≤ r ∧ r < i + (n + 1)) := by omega
            simp [hr, e, c, c2]
      · have hdr : d.q1.testBit r = false :=
          Nat.testBit_lt_two_pow (Nat.lt_of_lt_of_le hd
            (Nat.pow_le_pow_right (by decide) (by omega)))
        have c1 : ¬ (i + 1 ≤ r ∧ r < i + 1 + n) := by omega
        have c2 : ¬ (i ≤ r ∧ r < i + (n + 1)) := by omega
        simp [hr, hdr, c1, c2]
    · have hset : ¬ dfu_quirk_is_set (some src) i ≠ 0 := fun h =>
        hb ((quirk_is_set_ne_zero src i (by omega)).mp h)
      rw [if_neg hset]
      obtain ⟨d1, h1, h2, h3⟩ := ih (i + 1) d hd (by omega)
      refine ⟨d1, h1, h2, ?_⟩
      intro r
      rw [h3 r]
      have hbf : src.q1.testBit i = false := by
        cases h : src.q1.testBit i
        · rfl
        · exact absurd h hb
      by_cases e : i = r
      · subst e
        have c1 : ¬ (i + 1 ≤ i ∧ i < i + 1 + n) := by omega
        simp [hbf, c1]
      · by_cases c : i + 1 ≤ r ∧ r < i + 1 + n
        · have c2 : i ≤ r ∧ r < i + (n + 1) := by omega
          simp [c, c2]
        · have c2 : ¬ (i ≤ r ∧ r < i + (n + 1)) := by omega
          simp [c, c2]

/-- C31: for every destination set `dst` (an `unsigned int`), every source set `src`
and every quirk ID `q` of the enumeration (1 .. 6): after `dfu_quirks_insert(dst, src)`
`q` is set in the destination iff it was set in `dst` or is set in `src`; bits of the
destination outside 1 .. 6 are as before; and inserting the same `src` a second time
leaves the destination as the first insertion made it. (The source is passed to no
function that writes.) -/
theorem C31_quirks_insert_is_union (dst src : dfu_quirks) (q : Nat)
    (hd : dst.q1 < 2 ^ 32) (hq : 1 ≤ q ∧ q < DFU_QUIRK_COUNT) :
    ∃ d1, dfu_quirks_insert (some dst) (some src) = some d1 ∧
      (dfu_quirk_is_set (some d1) q ≠ 0 ↔
        dfu_quirk_is_set (some dst) q ≠ 0 ∨ dfu_quirk_is_set (some src) q ≠ 0) ∧
      (∀ r, ¬ (1 ≤ r ∧ r < DFU_QUIRK_COUNT) → d1.q1.testBit r = dst.q1.testBit r) ∧
      dfu_quirks_insert (some d1) (some src) = some d1 := by
  obtain ⟨d1, h1, h2, h3⟩ := quirks_insert_loop_bits src (DFU_QUIRK_COUNT - 1) 1 dst hd
    (by decide)
  obtain ⟨d2, k1, _, k3⟩ := quirks_insert_loop_bits src (DFU_QUIRK_COUNT - 1) 1 d1 h2
    (by decide)
  have hq31 : q < 31 := by
    have := hq.2
    simp only [DFU_QUIRK_COUNT] at this
    omega
  refine ⟨d1, h1, ?_, ?_, ?_⟩
  · have c : 1 ≤ q ∧ q < 1 + (DFU_QUIRK_COUNT - 1) := by
      have := hq.2
      simp only [DFU_QUIRK_COUNT] at this ⊢
      omega
    rw [quirk_is_set_ne_zero d1 q hq31, quirk_is_set_ne_zero dst q hq31,
      quirk_is_set_ne_zero src q hq31, h3 q, decide_eq_true c, Bool.true_and,
      Bool.or_eq_true]
  · intro r hr
    have c : ¬ (1 ≤ r ∧ r < 1 + (DFU_QUIRK_COUNT - 1)) := by
      simp only [DFU_QUIRK_COUNT] at hr ⊢
      omega
    rw [h3 r, decide_eq_false c, Bool.false_and, Bool.or_false]
  · show dfu_quirks_insert_loop (some src) (DFU_QUIRK_COUNT - 1) 1 (some d1) = some d1
    rw [k1]
    have e : d2.q1 = d1.q1 := by
      apply Nat.eq_of_testBit_eq
      intro r
      rw [k3 r, h3 r]
      cases dst.q1.testBit r <;> cases src.q1.testBit r <;>
        cases decide (1 ≤ r ∧ r < 1 + (DFU_QUIRK_COUNT - 1)) <;> rfl
    cases d1
    cases d2
    simp only at e
    rw [e]

/-- C31 on destination `{2, 4}` (`q1 = 0x14`) and source `{1, 2}` (`q1 = 0x06`):
quirk 1 is set afterwards, and the union is `{1, 2, 4}`. -/
theorem C31_quirks_insert_is_union_witness :
    ∃ d1, dfu_quirks_insert (some { q1 := 0x14 }) (some { q1 := 0x06 }) = some d1 ∧
      dfu_quirk_is_set (some d1) 1 ≠ 0 ∧
      dfu_quirks_insert (some d1) (some { q1 := 0x06 }) = some d1 := by
  obtain ⟨d1, h1, h2, _, h4⟩ := C31_quirks_insert_is_union { q1 := 0x14 } { q1 := 0x06 } 1
    (by decide) (by decide)
  exact ⟨d1, h1, h2.mpr (Or.inr (by decide)), h4⟩

/-- C32 (evaluation): a device without the manifestation-tolerant bit reports
`dfuMANIFEST` with `bwPollTimeout = 50`. With quirk
`QUIRK_OPENMOKO_MANIFEST_STATUS_POLL_TIMEOUT` set, `sam7dfu_do_dnload` passes
`1*1000*1000` to `dfu_status_poll_timeout`, whose handler sleeps `poll_timeout*1000`
microseconds: `usleep` gets 1000000000, a thousand seconds, not one. Without the quirk
`usleep` gets 50000, the reported 50 ms. -/
theorem C32_manifest_quirk_waits_thousand_seconds :
    (dnload_manifest 3
        (with_quirks (sample_world DFU_STATE_dfuMANIFEST_SYNC 0
          (replies_of [status_reply_t 0 50 7, count_reply 0]))
          (1 <<< QUIRK_OPENMOKO_MANIFEST_STATUS_POLL_TIMEOUT))
        zero_status).map (fun r => (r.1, usleep_args r.2.trace)) =
      some (0, [1000000000]) ∧
    (dnload_manifest 3
        (sample_world DFU_STATE_dfuMANIFEST_SYNC 0
          (replies_of [status_reply_t 0 50 7, count_reply 0]))
        zero_status).map (fun r => (r.1, usleep_args r.2.trace)) =
      some (0, [50000]) := by
  constructor <;> decide

/-- C33 (evaluation): `usleep(poll_timeout*1000)` is computed in `unsigned int`. For the
24-bit value 4294968 the product exceeds `2^32` and `usleep` gets 704 microseconds, not
4294968000; 4294967 is the largest value for which the count is `ms * 1000`. -/
theorem C33_poll_timeout_wraps :
    4294968 < 2 ^ 24 ∧
    usleep_args (dfu_status_poll_timeout
        (sample_world DFU_STATE_dfuDNBUSY 0 (constant_replies 0 0)) 4294968).2.trace =
      [704] ∧
    usleep_args (_usb_dfu10_status_poll_timeout
        (sample_world DFU_STATE_dfuDNBUSY 0 (constant_replies 0 0)) 4294968).2.trace =
      [704] ∧
    usleep_args (dfu_status_poll_timeout
        (sample_world DFU_STATE_dfuDNBUSY 0 (constant_replies 0 0)) 4294967).2.trace =
      [4294967000] := by
  refine ⟨?_, ?_, ?_, ?_⟩ <;> decide

/-- C34 (evaluation): the device answers the first GETSTATUS of an upload with
`bStatus = 1` (not OK) in `dfuERROR`. `sam7dfu_do_upload` leaves its loop with `ret`
still holding the 0 that `dfu_get_status` returned: it returns 0, having issued the
GETSTATUS only (no UPLOAD) and written nothing (no suffix). -/
theorem C34_upload_status_error_returns_zero :
    (sam7dfu_do_upload
        (sample_world DFU_STATE_dfuIDLE USB_DFU_CAN_UPLOAD (replies_of [status_reply 1 10]))
        (sample_file []) 64 true (fun _ => 0) zero_status (fun _ => 0) 3).map
      (fun r => (r.1, request_codes r.2.1.trace, r.2.2)) =
    some (0, [USB_REQ_DFU_GETSTATUS], []) := by decide

set_option maxRecDepth 100000 in
/-- The download of the sample file in blocks of two bytes to a device whose first
status is not OK in `dfuDNBUSY` and whose second is OK in `dfuDNLOAD_IDLE`. -/
theorem bad_status_run :
    (sam7dfu_do_dnload
        (sample_world DFU_STATE_dfuIDLE USB_DFU_CAN_DOWNLOAD
          (replies_of [count_reply 2, status_reply 1 4, status_reply 0 5, count_reply 1,
            status_reply 0 5, count_reply 0, status_reply 0 2]))
        (whole_file sample_suffixed) (whole_file sample_suffixed) 2 true (fun _ => 0)
        zero_status (fun _ => 0) (fun _ => 0) 9).map
      (fun r => (r.1, request_codes r.2.trace, dnload_requests r.2.trace)) =
    some (0, [1, 3, 3, 1, 3, 1, 3], [(2, [1, 2]), (1, [3]), (0, [])]) := by decide

set_option maxRecDepth 100000 in
/-- The download of the sample file to a device that answers every GETSTATUS with a
status that is not OK in `dfuERROR`: after twenty status requests the driver is still
polling. -/
theorem error_status_run :
    (dnload_poll_loop 20
        (sample_world DFU_STATE_dfuDNLOAD_SYNC USB_DFU_CAN_DOWNLOAD
          (fun _ => status_reply 1 10)) zero_status).isNone = true := by decide

/-- C35 (evaluation): the status `bStatus` is read only after the poll loop has ended.
A GETSTATUS response with `bStatus = 1` (not OK) and `bState = dfuDNBUSY` is followed by
a status poll wait, a second GETSTATUS and, when that one reports `dfuDNLOAD_IDLE` with
OK, by the DNLOAD of the next block and the end signal; the download returns 0. With
`bStatus = 1` in `dfuERROR` the poll loop goes on for as long as the device answers so
(here: it has not ended after 20 status requests). -/
theorem C35_status_checked_only_after_poll_loop :
    (sam7dfu_do_dnload
        (sample_world DFU_STATE_dfuIDLE USB_DFU_CAN_DOWNLOAD
          (replies_of [count_reply 2, status_reply 1 4, status_reply 0 5, count_reply 1,
            status_reply 0 5, count_reply 0, status_reply 0 2]))
        (whole_file sample_suffixed) (whole_file sample_suffixed) 2 true (fun _ => 0)
        zero_status (fun _ => 0) (fun _ => 0) 9).map
      (fun r => (r.1, request_codes r.2.trace, dnload_requests r.2.trace)) =
    some (0, [1, 3, 3, 1, 3, 1, 3], [(2, [1, 2]), (1, [3]), (0, [])]) ∧
    (dnload_poll_loop 20
        (sample_world DFU_STATE_dfuDNLOAD_SYNC USB_DFU_CAN_DOWNLOAD
          (fun _ => status_reply 1 10)) zero_status).isNone = true :=
  ⟨bad_status_run, error_status_run⟩

/-- In `dfuMANIFEST` the status poll timeout leads to `dfuMANIFEST_SYNC` for a
manifestation-tolerant device and to `dfuMANIFEST_WAIT_RESET` otherwise. -/
theorem manifest_poll_next (w : World) :
    dfu_sm_get_next_state DFU_STATE_dfuMANIFEST DFU_EV_STATUS_POLL_TIMEOUT
        (status_poll_timeout_guards w) =
      (if w.handle.func_dfu.bmAttributes &&& USB_DFU_MANIFEST_TOL ≠ 0 then
        DFU_STATE_dfuMANIFEST_SYNC else DFU_STATE_dfuMANIFEST_WAIT_RESET) := by
  unfold status_poll_timeout_guards
  dsimp only
  split_ifs <;> decide

/-- The function `dfu_status_poll_timeout` called in `dfuMANIFEST` on an initialised
handle: it succeeds, sleeps once and commits the state the tolerant bit selects. -/
theorem poll_timeout_in_manifest (w : World) (t : Nat)
    (hs : w.dfu_state = DFU_STATE_dfuMANIFEST) (hv : _dfu_verify_init w = 0) :
    (dfu_status_poll_timeout w t).1 = 0 ∧
    (dfu_status_poll_timeout w t).2.dfu_state =
      (if w.handle.func_dfu.bmAttributes &&& USB_DFU_MANIFEST_TOL ≠ 0 then
        DFU_STATE_dfuMANIFEST_SYNC else DFU_STATE_dfuMANIFEST_WAIT_RESET) ∧
    (dfu_status_poll_timeout w t).2.trace =
      w.trace ++ [UsbCall.usleep (t * 1000 % 2 ^ 32)] ∧
    (dfu_status_poll_timeout w t).2.handle = w.handle ∧
    (dfu_status_poll_timeout w t).2.usb = w.usb := by
  have hv' : ¬ (0 : Int) ≠ _dfu_verify_init w := by rw [hv]; exact fun h => h rfl
  unfold dfu_status_poll_timeout
  rw [if_neg hv']
  dsimp only
  rw [hs, manifest_poll_next]
  unfold _usb_dfu10_status_poll_timeout commit_state
  dsimp only
  rw [hs]
  by_cases htol : w.handle.func_dfu.bmAttributes &&& USB_DFU_MANIFEST_TOL ≠ 0
  · rw [if_pos htol]
    exact ⟨rfl, rfl, rfl, rfl, rfl⟩
  · rw [if_neg htol]
    exact ⟨rfl, rfl, rfl, rfl, rfl⟩

/-- The function `dfu_usb_reset` called in `dfuMANIFEST_WAIT_RESET` on an initialised
handle issues exactly one bus reset. -/
theorem usb_reset_in_wait_reset (w : World)
    (hs : w.dfu_state = DFU_STATE_dfuMANIFEST_WAIT_RESET) (hv : _dfu_verify_init w = 0) :
    (dfu_usb_reset w).2.trace = w.trace ++ [UsbCall.usb_reset] := by
  have hv' : ¬ (0 : Int) ≠ _dfu_verify_init w := by rw [hv]; exact fun h => h rfl
  unfold dfu_usb_reset
  rw [if_neg hv']
  dsimp only
  rw [hs, if_neg (by decide)]
  unfold _usb_dfu10_usb_reset
  dsimp only
  split_ifs <;> rfl

/-- A `dfu_get_status` that does not fail has issued exactly one request, GETSTATUS. -/
theorem get_status_ok_trace (w : World) (st : dfu_status)
    (h : 0 ≤ (dfu_get_status w st).1) :
    (dfu_get_status w st).2.2.trace =
      w.trace ++ [UsbCall.control_msg true USB_REQ_DFU_GETSTATUS 0 w.handle.interface none 6
        w.handle.usb_timeout] := by
  unfold dfu_get_status at h ⊢
  dsimp only at h ⊢
  split_ifs at h ⊢ with a b c
  · exact absurd h neg_one_not_nonneg
  · exact absurd h neg_one_not_nonneg
  · exact absurd h neg_one_not_nonneg
  · unfold _usb_dfu10_get_status
    dsimp only
    split_ifs <;> rfl

/-- Appending calls adds their bus resets. -/
theorem bus_resets_append (a b : List UsbCall) :
    bus_resets (a ++ b) = bus_resets a + bus_resets b := by
  unfold bus_resets
  rw [List.countP_append]

/-- C36 (manifestation handling) for one pass through the label `get_status` of
`sam7dfu_do_dnload`, on an initialised handle and a GETSTATUS that does not fail.
If GETSTATUS puts the session in `dfuMANIFEST`, the driver calls
`dfu_status_poll_timeout` with a wait `t` (1000000 under the manifest quirk, the
reported `bwPollTimeout` otherwise); with the manifestation-tolerant bit set the session
moves to `dfuMANIFEST_SYNC` and the driver goes back to `get_status` (no bus reset so
far); with the bit clear the session moves to `dfuMANIFEST_WAIT_RESET` and the driver
calls `dfu_usb_reset`, which issues exactly one bus reset, and returns. If GETSTATUS
puts the session in `dfuIDLE` the driver returns without a bus reset. -/
theorem C36_manifestation_handling (w : World) (dst : dfu_status) (fuel : Nat)
    (hv : _dfu_verify_init w = 0) (hok : 0 ≤ (dfu_get_status w dst).1) :
    (dfu_sm_get_state (dfu_get_status w dst).2.2.dfu_state = DFU_STATE_dfuMANIFEST →
      ∃ t, (t = 1000000 ∨ t = (dfu_get_status w dst).2.1.bwPollTimeout) ∧
        (w.handle.func_dfu.bmAttributes &&& USB_DFU_MANIFEST_TOL ≠ 0 →
          (dfu_status_poll_timeout (dfu_get_status w dst).2.2 t).2.dfu_state =
            DFU_STATE_dfuMANIFEST_SYNC ∧
          dnload_manifest (fuel + 1) w dst =
            dnload_manifest fuel (dfu_status_poll_timeout (dfu_get_status w dst).2.2 t).2
              (dfu_get_status w dst).2.1 ∧
          bus_resets (dfu_status_poll_timeout (dfu_get_status w dst).2.2 t).2.trace =
            bus_resets w.trace) ∧
        (¬ w.handle.func_dfu.bmAttributes &&& USB_DFU_MANIFEST_TOL ≠ 0 →
          (dfu_status_poll_timeout (dfu_get_status w dst).2.2 t).2.dfu_state =
            DFU_STATE_dfuMANIFEST_WAIT_RESET ∧
          dnload_manifest (fuel + 1) w dst =
            some ((dfu_get_status w dst).1,
              (dfu_usb_reset (dfu_status_poll_timeout (dfu_get_status w dst).2.2 t).2).2) ∧
          (dfu_usb_reset (dfu_status_poll_timeout (dfu_get_status w dst).2.2 t).2).2.trace =
            w.trace ++ [UsbCall.control_msg true USB_REQ_DFU_GETSTATUS 0 w.handle.interface
              none 6 w.handle.usb_timeout, UsbCall.usleep (t * 1000 % 2 ^ 32),
              UsbCall.usb_reset] ∧
          bus_resets
              (dfu_usb_reset (dfu_status_poll_timeout (dfu_get_status w dst).2.2 t).2).2.trace =
            bus_resets w.trace + 1)) ∧
    (dfu_sm_get_state (dfu_get_status w dst).2.2.dfu_state = DFU_STATE_dfuIDLE →
      dnload_manifest (fuel + 1) w dst =
        some ((dfu_get_status w dst).1, (dfu_get_status w dst).2.2) ∧
      bus_resets (dfu_get_status w dst).2.2.trace = bus_resets w.trace) := by
  have htr := get_status_ok_trace w dst hok
  have hh := (get_status_frame w dst).1
  have hv1 : _dfu_verify_init (dfu_get_status w dst).2.2 = 0 := by
    rw [verify_init_congr w _ (by rw [hh]), hv]
  have hnl : ¬ (dfu_get_status w dst).1 < 0 := not_lt.mpr hok
  constructor
  · intro hman
    have hs : (dfu_get_status w dst).2.2.dfu_state = DFU_STATE_dfuMANIFEST := hman
    obtain ⟨T, hT⟩ : ∃ T, T =
        (if dfu_quirk_is_set (some (dfu_get_status w dst).2.2.handle.quirk_flags)
            QUIRK_OPENMOKO_MANIFEST_STATUS_POLL_TIMEOUT ≠ 0 then 1 * 1000 * 1000
          else (dfu_get_status w dst).2.1.bwPollTimeout) := ⟨_, rfl⟩
    obtain ⟨p1, p2, p3, p4, _⟩ := poll_timeout_in_manifest (dfu_get_status w dst).2.2 T
      hs hv1
    rw [hh] at p2
    have hstep : dnload_manifest (fuel + 1) w dst =
        (if dfu_sm_get_state (dfu_status_poll_timeout (dfu_get_status w dst).2.2 T).2.dfu_state
            = DFU_STATE_dfuMANIFEST_SYNC then
          dnload_manifest fuel (dfu_status_poll_timeout (dfu_get_status w dst).2.2 T).2
            (dfu_get_status w dst).2.1
        else some (dnload_final_switch (dfu_get_status w dst).1
          (dfu_status_poll_timeout (dfu_get_status w dst).2.2 T).2)) := by
      rw [dnload_manifest]
      dsimp only
      rw [← hT, if_neg hnl, if_pos hman, if_neg (by rw [p1]; decide)]
    refine ⟨T, ?_, ?_, ?_⟩
    · rw [hT]
      split_ifs
      · exact Or.inl (by norm_num)
      · exact Or.inr rfl
    · intro htol
      rw [if_pos htol] at p2
      refine ⟨p2, ?_, ?_⟩
      · rw [hstep, if_pos (show dfu_sm_get_state
          (dfu_status_poll_timeout (dfu_get_status w dst).2.2 T).2.dfu_state =
            DFU_STATE_dfuMANIFEST_SYNC from p2)]
      · rw [p3, htr, bus_resets_append, bus_resets_append]
        rfl
    · intro htol
      rw [if_neg htol] at p2
      have hv2 : _dfu_verify_init
          (dfu_status_poll_timeout (dfu_get_status w dst).2.2 T).2 = 0 := by
        rw [verify_init_congr (dfu_get_status w dst).2.2 _ (by rw [p4]), hv1]
      have hreset := usb_reset_in_wait_reset _ p2 hv2
      have htrace : (dfu_usb_reset
          (dfu_status_poll_timeout (dfu_get_status w dst).2.2 T).2).2.trace =
          w.trace ++ [UsbCall.control_msg true USB_REQ_DFU_GETSTATUS 0 w.handle.interface
            none 6 w.handle.usb_timeout, UsbCall.usleep (T * 1000 % 2 ^ 32),
            UsbCall.usb_reset] := by
        rw [hreset, p3, htr, List.append_assoc, List.append_assoc]
        rfl
      refine ⟨p2, ?_, htrace, ?_⟩
      · rw [hstep, if_neg (by
          unfold dfu_sm_get_state
          rw [p2]
          decide)]
        unfold dnload_final_switch dfu_sm_get_state
        rw [p2, if_neg (by decide), if_pos rfl]
      · rw [htrace, bus_resets_append]
        rfl
  · intro hidle
    refine ⟨?_, ?_⟩
    · rw [dnload_manifest]
      dsimp only
      rw [if_neg hnl, if_neg (by rw [hidle]; decide)]
      unfold dnload_final_switch
      rw [if_pos hidle]
    · rw [htr, bus_resets_append]
      rfl

/-- C36 on a device without the tolerant bit that reports `dfuMANIFEST`: one bus reset
is issued after the wait; and on a device that reports `dfuIDLE`: none. -/
theorem C36_manifestation_handling_witness :
    (∃ t, bus_resets
        (dfu_usb_reset (dfu_status_poll_timeout (dfu_get_status
          (sample_world DFU_STATE_dfuMANIFEST_SYNC 0 (fun _ => status_reply 0 7))
          zero_status).2.2 t).2).2.trace = 0 + 1) ∧
    bus_resets (dfu_get_status
      (sample_world DFU_STATE_dfuMANIFEST_SYNC 0 (fun _ => status_reply 0 2))
      zero_status).2.2.trace = 0 := by
  constructor
  · obtain ⟨t, _, _, h⟩ := (C36_manifestation_handling
      (sample_world DFU_STATE_dfuMANIFEST_SYNC 0 (fun _ => status_reply 0 7)) zero_status 0
      (by decide) (by decide)).1 (by decide)
    exact ⟨t, (h (by decide)).2.2.2⟩
  · exact ((C36_manifestation_handling
      (sample_world DFU_STATE_dfuMANIFEST_SYNC 0 (fun _ => status_reply 0 2)) zero_status 0
      (by decide) (by decide)).2 (by decide)).2

/-- Outside `dfuMANIFEST_WAIT_RESET` and without `FIRMWARE_VALID`, a state the transition
function returns is accepted by `dfu_sm_set_state_checked`. -/
theorem next_state_accepted (s : Int) (e : DFU_SM_EVENT) (g : Nat)
    (hs : 0 ≤ s ∧ s < dfu_state_count) (hwr : s ≠ DFU_STATE_dfuMANIFEST_WAIT_RESET)
    (hfw : flag_set g DFU_GUARD_FIRMWARE_VALID = false)
    (hn : 0 ≤ dfu_sm_get_next_state s e g) :
    dfu_sm_set_state_checked s (dfu_sm_get_next_state s e g) =
      (0, dfu_sm_get_next_state s e g) := by
  obtain ⟨h0, h1⟩ := hs
  simp only [dfu_state_count] at h1
  interval_cases s
  · simp only [next_state_in_appIDLE, sm_appIDLE, reset_case] at hn ⊢
    generalize flag_set g DFU_GUARD_FIRMWARE_VALID = b0 at *
    subst hfw
    revert e
    decide
  · simp only [next_state_in_appDETACH, sm_appDETACH, reset_case] at hn ⊢
    generalize flag_set g DFU_GUARD_FIRMWARE_VALID = b0 at *
    generalize flag_set g DFU_GUARD_DETACH_TIMER_ELAPSED = b1 at *
    subst hfw
    revert e b1
    decide
  · simp only [next_state_in_dfuIDLE, sm_dfuIDLE, reset_case] at hn ⊢
    generalize flag_set g DFU_GUARD_FIRMWARE_VALID = b0 at *
    generalize flag_set g DFU_GUARD_WLENGTH_GT_ZERO = b1 at *
    generalize flag_set g DFU_GUARD_BIT_CAN_DNLOAD = b2 at *
    generalize flag_set g DFU_GUARD_BIT_CAN_UPLOAD = b3 at *
    subst hfw
    revert e b1 b2 b3
    decide
  · simp only [next_state_in_dfuDNLOAD_SYNC, sm_dfuDNLOAD_SYNC, reset_case] at hn ⊢
    generalize flag_set g DFU_GUARD_FIRMWARE_VALID = b0 at *
    generalize flag_set g DFU_GUARD_BLOCK_IN_PROGRESS = b1 at *
    subst hfw
    revert e b1
    decide
  · simp only [next_state_in_dfuDNBUSY, sm_dfuDNBUSY, reset_case] at hn ⊢
    generalize flag_set g DFU_GUARD_FIRMWARE_VALID = b0 at *
    subst hfw
    revert e
    decide
  · simp only [next_state_in_dfuDNLOAD_IDLE, sm_dfuDNLOAD_IDLE, reset_case] at hn ⊢
    generalize flag_set g DFU_GUARD_FIRMWARE_VALID = b0 at *
    generalize flag_set g DFU_GUARD_WLENGTH_GT_ZERO = b1 at *
    generalize flag_set g DFU_GUARD_DEV_DISAGREES_DNLOAD_END = b2 at *
    subst hfw
    revert e b1 b2
    decide
  · simp only [next_state_in_dfuMANIFEST_SYNC, sm_dfuMANIFEST_SYNC, reset_case] at hn ⊢
    generalize flag_set g DFU_GUARD_FIRMWARE_VALID = b0 at *
    generalize flag_set g DFU_GUARD_MANIFESTATION_IN_PROGRESS = b1 at *
    generalize flag_set g DFU_GUARD_BIT_MANIFESTATION_TOLERANT = b2 at *
    subst hfw
    revert e b1 b2
    decide
  · simp only [next_state_in_dfuMANIFEST, sm_dfuMANIFEST, reset_case] at hn ⊢
    generalize flag_set g DFU_GUARD_FIRMWARE_VALID = b0 at *
    generalize flag_set g DFU_GUARD_BIT_MANIFESTATION_TOLERANT = b1 at *
    subst hfw
    revert e b1
    decide
  · exact absurd rfl hwr
  · simp only [next_state_in_dfuUPLOAD_IDLE, sm_dfuUPLOAD_IDLE, reset_case] at hn ⊢
    generalize flag_set g DFU_GUARD_FIRMWARE_VALID = b0 at *
    generalize flag_set g DFU_GUARD_WLENGTH_GT_ZERO = b1 at *
    generalize flag_set g DFU_GUARD_UPLOAD_SHORT_FRAME = b2 at *
    subst hfw
    revert e b1 b2
    decide
  · simp only [next_state_in_dfuERROR, sm_dfuERROR, reset_case] at hn ⊢
    generalize flag_set g DFU_GUARD_FIRMWARE_VALID = b0 at *
    subst hfw
    revert e
    decide

/-- The guard sets the session layer builds never contain `FIRMWARE_VALID`. -/
theorem session_guards_no_firmware_valid (w : World) (length : Nat) (ret : Int) :
    flag_set 0 DFU_GUARD_FIRMWARE_VALID = false ∧
    flag_set (download_guards w length) DFU_GUARD_FIRMWARE_VALID = false ∧
    flag_set (upload_guards w length ret) DFU_GUARD_FIRMWARE_VALID = false ∧
    flag_set (status_poll_timeout_guards w) DFU_GUARD_FIRMWARE_VALID = false := by
  refine ⟨by decide, ?_, ?_, ?_⟩
  · unfold download_guards
    dsimp only
    split_ifs <;> decide
  · unfold upload_guards
    dsimp only
    split_ifs <;> decide
  · unfold status_poll_timeout_guards
    dsimp only
    split_ifs <;> decide

/-- C37: for every state other than `dfuMANIFEST_WAIT_RESET`, every event and every
guard set without `FIRMWARE_VALID`, a state returned by `dfu_sm_get_next_state` is
accepted by `dfu_sm_set_state_checked`, so the commit step of a session operation
running in that state returns 0 and makes it the tracked state; and the guard sets the
session layer builds (the empty one and those of `dfu_download`, `dfu_upload` and
`dfu_status_poll_timeout`) never contain `FIRMWARE_VALID`. -/
theorem C37_commit_never_illegal (s : Int) (e : DFU_SM_EVENT) (g : Nat)
    (hs : 0 ≤ s ∧ s < dfu_state_count) (hwr : s ≠ DFU_STATE_dfuMANIFEST_WAIT_RESET)
    (hfw : flag_set g DFU_GUARD_FIRMWARE_VALID = false)
    (hn : 0 ≤ dfu_sm_get_next_state s e g) :
    dfu_sm_set_state_checked s (dfu_sm_get_next_state s e g) =
      (0, dfu_sm_get_next_state s e g) ∧
    (∀ w : World, w.dfu_state = s →
      (commit_state w (dfu_sm_get_next_state s e g)).1 = 0 ∧
      (commit_state w (dfu_sm_get_next_state s e g)).2.dfu_state =
        dfu_sm_get_next_state s e g) ∧
    (∀ (w : World) (length : Nat) (ret : Int),
      flag_set 0 DFU_GUARD_FIRMWARE_VALID = false ∧
      flag_set (download_guards w length) DFU_GUARD_FIRMWARE_VALID = false ∧
      flag_set (upload_guards w length ret) DFU_GUARD_FIRMWARE_VALID = false ∧
      flag_set (status_poll_timeout_guards w) DFU_GUARD_FIRMWARE_VALID = false) := by
  have h := next_state_accepted s e g hs hwr hfw hn
  refine ⟨h, ?_, session_guards_no_firmware_valid⟩
  intro w hw
  unfold commit_state
  rw [hw, h]
  exact ⟨rfl, rfl⟩

/-- C37 at `dfuMANIFEST`, status poll timeout, bit `manifestationTolerant` clear: the
next state `dfuMANIFEST_WAIT_RESET` is accepted. -/
theorem C37_commit_never_illegal_witness :
    dfu_sm_set_state_checked DFU_STATE_dfuMANIFEST DFU_STATE_dfuMANIFEST_WAIT_RESET =
      (0, DFU_STATE_dfuMANIFEST_WAIT_RESET) :=
  (C37_commit_never_illegal DFU_STATE_dfuMANIFEST DFU_EV_STATUS_POLL_TIMEOUT 0
    (by decide) (by decide) (by decide) (by decide)).1

/-! ## Lemmas on the tracked state across session operations -/

/-- What one `dfu_sm_set_state_checked` call can do from a valid state: refuse, or
accept a valid state; from a DFU-mode state only a DFU-mode state is accepted, and from
`dfuMANIFEST_WAIT_RESET` only `dfuERROR`. -/
theorem checked_step_cases (s t : Int) (hs : 0 ≤ s ∧ s ≤ 10) :
    dfu_sm_set_state_checked s t = (-1, s) ∨
    (dfu_sm_set_state_checked s t = (0, t) ∧ 0 ≤ t ∧ t ≤ 10 ∧
      (DFU_STATE_dfuIDLE ≤ s → DFU_STATE_dfuIDLE ≤ t) ∧
      (s = DFU_STATE_dfuMANIFEST_WAIT_RESET → t = DFU_STATE_dfuERROR)) := by
  obtain ⟨c, d⟩ := hs
  by_cases ht : 0 ≤ t ∧ t ≤ 10
  · obtain ⟨a, b⟩ := ht
    interval_cases t <;> interval_cases s <;> decide
  · left
    unfold dfu_sm_set_state_checked
    have hb : (decide (t ≥ 0) && decide (t < dfu_state_count)) = false := by
      simp only [dfu_state_count, Bool.and_eq_false_iff, decide_eq_false_iff_not]
      omega
    simp only [hb, Bool.false_and, Bool.not_false, if_true]

/-- A commit changes the tracked state as one `dfu_sm_set_state_checked` call does. -/
theorem commit_commits_only (w : World) (t : Int) : commits_only w (commit_state w t).2 :=
  ⟨[t], rfl⟩

/-- A failed commit leaves the tracked state. -/
theorem commit_fail_state (w : World) (t : Int) (h : (commit_state w t).1 < 0) :
    (commit_state w t).2.dfu_state = w.dfu_state := by
  unfold commit_state dfu_sm_set_state_checked at h ⊢
  dsimp only at h ⊢
  split_ifs at h ⊢
  · rfl
  · exact absurd h (by decide : ¬ (0 : Int) < 0)

/-- No commit at all. -/
theorem commits_only_refl (w : World) : commits_only w w := ⟨[], rfl⟩

/-- Worlds with the same tracked state. -/
theorem commits_only_of_eq (w w1 : World) (h : w1.dfu_state = w.dfu_state) :
    commits_only w w1 := ⟨[], h⟩

/-- Commits after commits. -/
theorem commits_only_trans (a b c : World) (h1 : commits_only a b) (h2 : commits_only b c) :
    commits_only a c := by
  obtain ⟨l1, e1⟩ := h1
  obtain ⟨l2, e2⟩ := h2
  refine ⟨l1 ++ l2, ?_⟩
  rw [e2, e1]
  unfold checked_run
  rw [List.foldl_append]

/-- The handlers leave the tracked state alone. -/
theorem handlers_keep_state (w : World) :
    (∀ t, (_usb_dfu10_detach w t).2.dfu_state = w.dfu_state) ∧
    (_usb_dfu10_usb_reset w).2.dfu_state = w.dfu_state ∧
    (∀ t, (_usb_dfu10_status_poll_timeout w t).2.dfu_state = w.dfu_state) ∧
    (∀ t l d, (_usb_dfu10_download (bump_transaction w) t l d).2.dfu_state = w.dfu_state) ∧
    (∀ st, (_usb_dfu10_get_status w st).2.2.dfu_state = w.dfu_state) ∧
    (_usb_dfu10_clear_status w).2.dfu_state = w.dfu_state ∧
    (_usb_dfu10_get_state w).2.dfu_state = w.dfu_state ∧
    (_usb_dfu10_abort w).2.dfu_state = w.dfu_state := by
  refine ⟨?_, ?_, ?_, ?_, ?_, ?_, ?_, ?_⟩
  · intro t
    unfold _usb_dfu10_detach
    dsimp only
    split_ifs <;> rfl
  · unfold _usb_dfu10_usb_reset
    dsimp only
    split_ifs <;> rfl
  · intro t
    rfl
  · intro t l d
    unfold _usb_dfu10_download
    dsimp only
    split_ifs <;> rfl
  · intro st
    unfold _usb_dfu10_get_status
    dsimp only
    split_ifs <;> rfl
  · unfold _usb_dfu10_clear_status
    dsimp only
    split_ifs <;> rfl
  · unfold _usb_dfu10_get_state
    dsimp only
    split_ifs <;> rfl
  · unfold _usb_dfu10_abort
    dsimp only
    split_ifs <;> rfl

/-- The tracked state after `dfu_get_state`: reached by commits only; unchanged on
error; in any case either unchanged or the result of committing the next state of
GETSTATE. -/
theorem get_state_effect (w : World) :
    commits_only w (dfu_get_state w).2 ∧
    ((dfu_get_state w).1 < 0 → (dfu_get_state w).2.dfu_state = w.dfu_state) ∧
    ((dfu_get_state w).2.dfu_state = w.dfu_state ∨
      (dfu_get_state w).2.dfu_state =
        (dfu_sm_set_state_checked w.dfu_state
          (dfu_sm_get_next_state w.dfu_state DFU_EV_GETSTATE 0)).2) := by
  have hh := (handlers_keep_state w).2.2.2.2.2.2.1
  unfold dfu_get_state
  dsimp only
  by_cases a : (0 : Int) ≠ _dfu_verify_init w
  · rw [if_pos a]
    exact ⟨commits_only_refl w, fun _ => rfl, Or.inl rfl⟩
  rw [if_neg a]
  by_cases b : dfu_sm_get_next_state w.dfu_state DFU_EV_GETSTATE 0 < 0
  · rw [if_pos b]
    exact ⟨commits_only_refl w, fun _ => rfl, Or.inl rfl⟩
  rw [if_neg b]
  generalize _usb_dfu10_get_state w = H at hh
  by_cases c : H.1 < 0
  · rw [if_pos c]
    exact ⟨commits_only_of_eq _ _ hh, fun _ => hh, Or.inl hh⟩
  rw [if_neg c]
  have hc : (commit_state H.2 (dfu_sm_get_next_state w.dfu_state DFU_EV_GETSTATE 0)).2.dfu_state
      = (dfu_sm_set_state_checked w.dfu_state
          (dfu_sm_get_next_state w.dfu_state DFU_EV_GETSTATE 0)).2 := by
    show (dfu_sm_set_state_checked H.2.dfu_state _).2 = _
    rw [hh]
  by_cases d : (commit_state H.2 (dfu_sm_get_next_state w.dfu_state DFU_EV_GETSTATE 0)).1 < 0
  · rw [if_pos d]
    refine ⟨⟨[dfu_sm_get_next_state w.dfu_state DFU_EV_GETSTATE 0], hc⟩, fun _ => ?_, Or.inr hc⟩
    show (commit_state H.2 _).2.dfu_state = _
    rw [commit_fail_state _ _ d, hh]
  · rw [if_neg d]
    exact ⟨⟨[dfu_sm_get_next_state w.dfu_state DFU_EV_GETSTATE 0], hc⟩,
      fun h => absurd h c, Or.inr hc⟩

/-- The tracked state after `_dfu_state_verify`: reached by commits only, and either
unchanged or the result of committing the next state of GETSTATE. -/
theorem state_verify_effect (w : World) (expected : Int) :
    commits_only w (_dfu_state_verify w expected).2 ∧
    ((_dfu_state_verify w expected).2.dfu_state = w.dfu_state ∨
      (_dfu_state_verify w expected).2.dfu_state =
        (dfu_sm_set_state_checked w.dfu_state
          (dfu_sm_get_next_state w.dfu_state DFU_EV_GETSTATE 0)).2) := by
  obtain ⟨h1, _, h3⟩ := get_state_effect w
  unfold _dfu_state_verify
  dsimp only
  split_ifs
  · exact ⟨commits_only_refl w, Or.inl rfl⟩
  · exact ⟨h1, h3⟩
  · exact ⟨h1, h3⟩

/-- The tail shared by `dfu_detach`, `dfu_clear_status` and `dfu_abort`: verification
of the device state, then the commit. On error the tracked state is as before or as the
nested `dfu_get_state` left it. -/
theorem verify_then_commit (w0 h : World) (next : Int) (hh : h.dfu_state = w0.dfu_state) :
    commits_only w0
      (if (_dfu_state_verify h next).1 < 0 then (-1, (_dfu_state_verify h next).2)
        else commit_state (_dfu_state_verify h next).2 next).2 ∧
    ((if (_dfu_state_verify h next).1 < 0 then (-1, (_dfu_state_verify h next).2)
        else commit_state (_dfu_state_verify h next).2 next).1 < 0 →
      (if (_dfu_state_verify h next).1 < 0 then (-1, (_dfu_state_verify h next).2)
        else commit_state (_dfu_state_verify h next).2 next).2.dfu_state = w0.dfu_state ∨
      (if (_dfu_state_verify h next).1 < 0 then (-1, (_dfu_state_verify h next).2)
        else commit_state (_dfu_state_verify h next).2 next).2.dfu_state =
        (dfu_sm_set_state_checked w0.dfu_state
          (dfu_sm_get_next_state w0.dfu_state DFU_EV_GETSTATE 0)).2) := by
  obtain ⟨v1, v2⟩ := state_verify_effect h next
  rw [hh] at v2
  have v1' : commits_only w0 (_dfu_state_verify h next).2 :=
    commits_only_trans _ _ _ (commits_only_of_eq w0 h hh) v1
  generalize _dfu_state_verify h next = V at v1' v2
  by_cases a : V.1 < 0
  · rw [if_pos a]
    exact ⟨v1', fun _ => v2⟩
  · rw [if_neg a]
    refine ⟨commits_only_trans _ _ _ v1' (commit_commits_only _ _), fun hf => ?_⟩
    rw [commit_fail_state _ _ hf]
    exact v2

/-- The tracked state after `dfu_download`, `dfu_usb_reset`, `dfu_status_poll_timeout`
and `dfu_get_status`: reached by commits only, and unchanged on error. -/
theorem simple_ops_effect (w : World) :
    (∀ l d, commits_only w (dfu_download w l d).2 ∧
      ((dfu_download w l d).1 < 0 → (dfu_download w l d).2.dfu_state = w.dfu_state)) ∧
    (commits_only w (dfu_usb_reset w).2 ∧
      ((dfu_usb_reset w).1 < 0 → (dfu_usb_reset w).2.dfu_state = w.dfu_state)) ∧
    (∀ t, commits_only w (dfu_status_poll_timeout w t).2 ∧
      ((dfu_status_poll_timeout w t).1 < 0 →
        (dfu_status_poll_timeout w t).2.dfu_state = w.dfu_state)) ∧
    (∀ st, commits_only w (dfu_get_status w st).2.2 ∧
      ((dfu_get_status w st).1 < 0 → (dfu_get_status w st).2.2.dfu_state = w.dfu_state)) := by
  obtain ⟨_, k2, k3, k4, k5, _⟩ := handlers_keep_state w
  refine ⟨?_, ?_, ?_, ?_⟩
  · intro l d
    unfold dfu_download
    dsimp only
    split_ifs with a b c e f g
    · exact ⟨commits_only_refl w, fun _ => rfl⟩
    · exact ⟨commits_only_refl w, fun _ => rfl⟩
    · exact ⟨commits_only_refl w, fun _ => rfl⟩
    · exact ⟨commits_only_refl w, fun _ => rfl⟩
    · exact ⟨commits_only_of_eq _ _ (k4 _ _ _), fun _ => k4 _ _ _⟩
    · refine ⟨commits_only_trans _ _ _ (commits_only_of_eq _ _ (k4 _ _ _))
        (commit_commits_only _ _), fun _ => ?_⟩
      show (commit_state _ _).2.dfu_state = _
      rw [commit_fail_state _ _ g, k4]
    · exact ⟨commits_only_trans _ _ _ (commits_only_of_eq _ _ (k4 _ _ _))
        (commit_commits_only _ _), fun h => absurd h f⟩
  · unfold dfu_usb_reset
    dsimp only
    split_ifs with a b c
    · exact ⟨commits_only_refl w, fun _ => rfl⟩
    · exact ⟨commits_only_refl w, fun _ => rfl⟩
    · exact ⟨commits_only_of_eq _ _ k2, fun _ => k2⟩
    · refine ⟨commits_only_trans _ _ _ (commits_only_of_eq _ _ k2)
        (commit_commits_only _ _), fun hf => ?_⟩
      rw [commit_fail_state _ _ hf, k2]
  · intro t
    unfold dfu_status_poll_timeout
    dsimp only
    split_ifs with a b c
    · exact ⟨commits_only_refl w, fun _ => rfl⟩
    · exact ⟨commits_only_refl w, fun _ => rfl⟩
    · exact ⟨commits_only_of_eq _ _ (k3 t), fun _ => k3 t⟩
    · refine ⟨commits_only_trans _ _ _ (commits_only_of_eq _ _ (k3 t))
        (commit_commits_only _ _), fun hf => ?_⟩
      rw [commit_fail_state _ _ hf, k3]
  · intro st
    unfold dfu_get_status
    dsimp only
    split_ifs with a b c
    · exact ⟨commits_only_refl w, fun _ => rfl⟩
    · exact ⟨commits_only_refl w, fun _ => rfl⟩
    · exact ⟨commits_only_of_eq _ _ (k5 st), fun _ => k5 st⟩
    · refine ⟨commits_only_trans _ _ _ (commits_only_of_eq _ _ (k5 st))
        (commit_commits_only _ _), fun hf => ?_⟩
      show (commit_state _ _).2.dfu_state = _
      rw [commit_fail_state _ _ hf, k5]

/-- The tracked state after `dfu_detach`, `dfu_clear_status` and `dfu_abort`: reached by
commits only; on error it is as before or as the nested `dfu_get_state` left it. -/
theorem verified_ops_effect (w : World) :
    (∀ t, commits_only w (dfu_detach w t).2 ∧
      ((dfu_detach w t).1 < 0 → (dfu_detach w t).2.dfu_state = w.dfu_state ∨
        (dfu_detach w t).2.dfu_state = (dfu_sm_set_state_checked w.dfu_state
          (dfu_sm_get_next_state w.dfu_state DFU_EV_GETSTATE 0)).2)) ∧
    (commits_only w (dfu_clear_status w).2 ∧
      ((dfu_clear_status w).1 < 0 → (dfu_clear_status w).2.dfu_state = w.dfu_state ∨
        (dfu_clear_status w).2.dfu_state = (dfu_sm_set_state_checked w.dfu_state
          (dfu_sm_get_next_state w.dfu_state DFU_EV_GETSTATE 0)).2)) ∧
    (commits_only w (dfu_abort w).2 ∧
      ((dfu_abort w).1 < 0 → (dfu_abort w).2.dfu_state = w.dfu_state ∨
        (dfu_abort w).2.dfu_state = (dfu_sm_set_state_checked w.dfu_state
          (dfu_sm_get_next_state w.dfu_state DFU_EV_GETSTATE 0)).2)) := by
  obtain ⟨k1, _, _, _, _, k6, _, k8⟩ := handlers_keep_state w
  refine ⟨?_, ?_, ?_⟩
  · intro t
    unfold dfu_detach
    dsimp only
    by_cases b : dfu_sm_get_next_state w.dfu_state DFU_EV_DETACH 0 < 0
    · rw [if_pos b]
      exact ⟨commits_only_refl w, fun _ => Or.inl rfl⟩
    rw [if_neg b]
    by_cases c : (_usb_dfu10_detach w t).1 < 0
    · rw [if_pos c]
      exact ⟨commits_only_of_eq _ _ (k1 t), fun _ => Or.inl (k1 t)⟩
    rw [if_neg c]
    exact verify_then_commit w _ _ (k1 t)
  · unfold dfu_clear_status
    dsimp only
    by_cases a : (0 : Int) ≠ _dfu_verify_init w
    · rw [if_pos a]
      exact ⟨commits_only_refl w, fun _ => Or.inl rfl⟩
    rw [if_neg a]
    by_cases b : dfu_sm_get_next_state w.dfu_state DFU_EV_CLRSTATUS 0 < 0
    · rw [if_pos b]
      exact ⟨commits_only_refl w, fun _ => Or.inl rfl⟩
    rw [if_neg b]
    by_cases c : (_usb_dfu10_clear_status w).1 < 0
    · rw [if_pos c]
      exact ⟨commits_only_of_eq _ _ k6, fun _ => Or.inl k6⟩
    rw [if_neg c]
    exact verify_then_commit w _ _ k6
  · unfold dfu_abort
    dsimp only
    by_cases a : (0 : Int) ≠ _dfu_verify_init w
    · rw [if_pos a]
      exact ⟨commits_only_refl w, fun _ => Or.inl rfl⟩
    rw [if_neg a]
    by_cases b : dfu_sm_get_next_state w.dfu_state DFU_EV_ABORT 0 < 0
    · rw [if_pos b]
      exact ⟨commits_only_refl w, fun _ => Or.inl rfl⟩
    rw [if_neg b]
    by_cases c : (_usb_dfu10_abort w).1 < 0
    · rw [if_pos c]
      exact ⟨commits_only_of_eq _ _ k8, fun _ => Or.inl k8⟩
    rw [if_neg c]
    exact verify_then_commit w _ _ k8

/-- The tracked state after `dfu_upload`: reached by commits only; on error it is as
before or as the nested `dfu_get_state` left it. -/
theorem upload_effect (w : World) (length : Nat) (data : Option (Nat → Nat)) :
    commits_only w (dfu_upload w length data).2.2 ∧
    ((dfu_upload w length data).1 < 0 →
      (dfu_upload w length data).2.2.dfu_state = w.dfu_state ∨
      (dfu_upload w length data).2.2.dfu_state = (dfu_sm_set_state_checked w.dfu_state
        (dfu_sm_get_next_state w.dfu_state DFU_EV_GETSTATE 0)).2) := by
  unfold dfu_upload
  by_cases a : (0 : Int) ≠ _dfu_verify_init w
  · rw [if_pos a]
    exact ⟨commits_only_refl w, fun _ => Or.inl rfl⟩
  rw [if_neg a]
  cases data with
  | none => exact ⟨commits_only_refl w, fun _ => Or.inl rfl⟩
  | some buf =>
    dsimp only
    by_cases b : 0 = length
    · rw [if_pos b]
      exact ⟨commits_only_refl w, fun _ => Or.inl rfl⟩
    rw [if_neg b]
    by_cases c : dfu_sm_state_has_event w.dfu_state DFU_EV_UPLOAD = 0
    · rw [if_pos c]
      exact ⟨commits_only_refl w, fun _ => Or.inl rfl⟩
    rw [if_neg c]
    have hs := upload_handler_dfu_state w w.handle.transaction length buf
    generalize _usb_dfu10_upload (bump_transaction w) w.handle.transaction length buf = H
      at hs
    by_cases d : H.1 < 0
    · rw [if_pos d]
      exact ⟨commits_only_of_eq _ _ hs, fun _ => Or.inl hs⟩
    rw [if_neg d]
    by_cases e : dfu_sm_get_next_state H.2.2.dfu_state DFU_EV_UPLOAD
        (upload_guards H.2.2 length H.1) < 0
    · rw [if_pos e]
      exact ⟨commits_only_of_eq _ _ hs, fun _ => Or.inl hs⟩
    rw [if_neg e]
    obtain ⟨v1, v2⟩ := state_verify_effect H.2.2 (dfu_sm_get_next_state H.2.2.dfu_state
      DFU_EV_UPLOAD (upload_guards H.2.2 length H.1))
    have v1' := commits_only_trans _ _ _ (commits_only_of_eq w H.2.2 hs) v1
    generalize _dfu_state_verify H.2.2 (dfu_sm_get_next_state H.2.2.dfu_state
      DFU_EV_UPLOAD (upload_guards H.2.2 length H.1)) = V at v1' v2
    rw [hs] at v2
    by_cases f : V.1 < 0
    · rw [if_pos f]
      exact ⟨v1', fun _ => v2⟩
    rw [if_neg f]
    by_cases g : (commit_state V.2 (dfu_sm_get_next_state H.2.2.dfu_state
        DFU_EV_UPLOAD (upload_guards H.2.2 length H.1))).1 < 0
    · rw [if_pos g]
      refine ⟨commits_only_trans _ _ _ v1' (commit_commits_only _ _), fun _ => ?_⟩
      show (commit_state V.2 _).2.dfu_state = _ ∨ (commit_state V.2 _).2.dfu_state = _
      rw [commit_fail_state _ _ g]
      exact v2
    · rw [if_neg g]
      exact ⟨commits_only_trans _ _ _ v1' (commit_commits_only _ _), fun h => absurd h d⟩

/-- A run of `dfu_sm_set_state_checked` calls from a valid state stays among the eleven
states, and from a DFU-mode state stays in DFU mode. -/
theorem checked_run_closed (s : Int) (requests : List Int) (hs : 0 ≤ s ∧ s ≤ 10) :
    (0 ≤ checked_run s requests ∧ checked_run s requests ≤ 10) ∧
    (DFU_STATE_dfuIDLE ≤ s → DFU_STATE_dfuIDLE ≤ checked_run s requests) := by
  induction requests generalizing s with
  | nil => exact ⟨hs, fun h => h⟩
  | cons t l ih =>
    have e : checked_run s (t :: l) = checked_run (dfu_sm_set_state_checked s t).2 l := rfl
    rw [e]
    rcases checked_step_cases s t hs with h | ⟨h, h0, h1, h2, _⟩
    · rw [h]
      exact ih s hs
    · rw [h]
      obtain ⟨a, b⟩ := ih t ⟨h0, h1⟩
      exact ⟨a, fun hm => b (h2 hm)⟩

/-- C38: from a valid tracked state `s`, after any sequence of
`dfu_sm_set_state_checked` calls the tracked state is still one of the eleven states;
if `s` is one of the nine DFU-mode states it is still one of them, so it is neither
`appIDLE` nor `appDETACH`; from `dfuMANIFEST_WAIT_RESET` a call that succeeds was one
for `dfuERROR`. Every public session operation changes the tracked state through such
calls only, so the same holds after any sequence of session operations. -/
theorem C38_dfu_mode_is_closed (s : Int) (requests : List Int)
    (hs : 0 ≤ s ∧ s < dfu_state_count) :
    (0 ≤ checked_run s requests ∧ checked_run s requests < dfu_state_count) ∧
    (DFU_STATE_dfuIDLE ≤ s →
      DFU_STATE_dfuIDLE ≤ checked_run s requests ∧
      checked_run s requests ≠ DFU_STATE_appIDLE ∧
      checked_run s requests ≠ DFU_STATE_appDETACH) ∧
    (∀ t, (dfu_sm_set_state_checked DFU_STATE_dfuMANIFEST_WAIT_RESET t).1 = 0 →
      t = DFU_STATE_dfuERROR) ∧
    (∀ w : World, w.dfu_state = s →
      (∀ t, commits_only w (dfu_detach w t).2) ∧
      (∀ l d, commits_only w (dfu_download w l d).2) ∧
      (∀ l d, commits_only w (dfu_upload w l d).2.2) ∧
      (∀ st, commits_only w (dfu_get_status w st).2.2) ∧
      commits_only w (dfu_clear_status w).2 ∧
      commits_only w (dfu_get_state w).2 ∧
      commits_only w (dfu_abort w).2 ∧
      commits_only w (dfu_usb_reset w).2 ∧
      (∀ t, commits_only w (dfu_status_poll_timeout w t).2)) ∧
    (∀ w w1 : World, w.dfu_state = s → commits_only w w1 →
      (0 ≤ w1.dfu_state ∧ w1.dfu_state < dfu_state_count) ∧
      (DFU_STATE_dfuIDLE ≤ s → DFU_STATE_dfuIDLE ≤ w1.dfu_state)) := by
  have hs' : 0 ≤ s ∧ s ≤ 10 := by
    obtain ⟨a, b⟩ := hs
    simp only [dfu_state_count] at b
    omega
  obtain ⟨⟨a, b⟩, c⟩ := checked_run_closed s requests hs'
  refine ⟨⟨a, by simp only [dfu_state_count]; omega⟩, ?_, ?_, ?_, ?_⟩
  · intro hm
    have := c hm
    simp only [DFU_STATE_dfuIDLE, DFU_STATE_appIDLE, DFU_STATE_appDETACH] at this ⊢
    omega
  · intro t ht
    rcases checked_step_cases DFU_STATE_dfuMANIFEST_WAIT_RESET t (by decide) with h | h
    · rw [h] at ht
      exact absurd ht (by decide)
    · exact h.2.2.2.2 rfl
  · intro w _
    obtain ⟨d1, d2, d3, d4⟩ := simple_ops_effect w
    obtain ⟨e1, e2, e3⟩ := verified_ops_effect w
    exact ⟨fun t => (e1 t).1, fun l d => (d1 l d).1, fun l d => (upload_effect w l d).1,
      fun st => (d4 st).1, e2.1, (get_state_effect w).1, e3.1, d2.1, fun t => (d3 t).1⟩
  · intro w w1 hw hc
    obtain ⟨l, hl⟩ := hc
    rw [hw] at hl
    obtain ⟨⟨a1, b1⟩, c1⟩ := checked_run_closed s l hs'
    rw [hl]
    exact ⟨⟨a1, by simp only [dfu_state_count]; omega⟩, c1⟩

/-- C38 from `dfuDNLOAD_IDLE`: requests for `appIDLE` and `appDETACH` are refused, the
one for `dfuMANIFEST_SYNC` is accepted. -/
theorem C38_dfu_mode_is_closed_witness :
    checked_run DFU_STATE_dfuDNLOAD_IDLE
        [DFU_STATE_appIDLE, DFU_STATE_appDETACH, DFU_STATE_dfuMANIFEST_SYNC] =
      DFU_STATE_dfuMANIFEST_SYNC ∧
    DFU_STATE_dfuIDLE ≤ checked_run DFU_STATE_dfuDNLOAD_IDLE
      [DFU_STATE_appIDLE, DFU_STATE_appDETACH, DFU_STATE_dfuMANIFEST_SYNC] :=
  ⟨by decide,
    ((C38_dfu_mode_is_closed DFU_STATE_dfuDNLOAD_IDLE
      [DFU_STATE_appIDLE, DFU_STATE_appDETACH, DFU_STATE_dfuMANIFEST_SYNC]
      (by decide)).2.1 (by decide)).1⟩

/-- With an empty guard set a reset leads to `dfuERROR` from the nine DFU-mode states
and to `dfuIDLE` from `appDETACH`; in `appIDLE` there is no next state. -/
theorem usb_reset_next (s : Int) (hs : 0 ≤ s ∧ s ≤ 10) :
    dfu_sm_get_next_state s DFU_EV_USB_RESET 0 =
      (if s = DFU_STATE_appIDLE then -1
        else if s = DFU_STATE_appDETACH then DFU_STATE_dfuIDLE else DFU_STATE_dfuERROR) ∧
    (s ≠ DFU_STATE_appIDLE →
      dfu_sm_set_state_checked s (dfu_sm_get_next_state s DFU_EV_USB_RESET 0) =
        (0, dfu_sm_get_next_state s DFU_EV_USB_RESET 0)) := by
  obtain ⟨a, b⟩ := hs
  interval_cases s <;> decide

/-- C39: on an initialised handle `dfu_usb_reset` evaluates USB_RESET with the empty
guard set. From each of the nine DFU-mode states (`dfuMANIFEST_WAIT_RESET` included),
when the bus reset does not fail (`-ENODEV` is not a failure), the call returns 0,
has issued one bus reset and has committed `dfuERROR`, not `appIDLE`; from `appDETACH`
it commits `dfuIDLE`; when the bus reset fails the call returns `-1` and the state is as
before; from `appIDLE` the call returns `-1` and the world is as before, no bus reset
being issued. -/
theorem C39_usb_reset_commits (w : World) (hv : _dfu_verify_init w = 0)
    (hs : 0 ≤ w.dfu_state ∧ w.dfu_state < dfu_state_count) :
    (w.dfu_state = DFU_STATE_appIDLE → dfu_usb_reset w = (-1, w)) ∧
    (w.dfu_state ≠ DFU_STATE_appIDLE →
      (dfu_usb_reset w).2.trace = w.trace ++ [UsbCall.usb_reset] ∧
      (¬ ((usb_reply w).ret < 0 ∧ (usb_reply w).ret ≠ -ENODEV) →
        (dfu_usb_reset w).1 = 0 ∧
        (dfu_usb_reset w).2.dfu_state =
          (if w.dfu_state = DFU_STATE_appDETACH then DFU_STATE_dfuIDLE
            else DFU_STATE_dfuERROR) ∧
        (dfu_usb_reset w).2.dfu_state ≠ DFU_STATE_appIDLE) ∧
      (((usb_reply w).ret < 0 ∧ (usb_reply w).ret ≠ -ENODEV) →
        (dfu_usb_reset w).1 = -1 ∧ (dfu_usb_reset w).2.dfu_state = w.dfu_state)) := by
  have hs' : 0 ≤ w.dfu_state ∧ w.dfu_state ≤ 10 := by
    obtain ⟨a, b⟩ := hs
    simp only [dfu_state_count] at b
    omega
  obtain ⟨hn, hc⟩ := usb_reset_next w.dfu_state hs'
  have hv' : ¬ (0 : Int) ≠ _dfu_verify_init w := by rw [hv]; exact fun h => h rfl
  constructor
  · intro h0
    unfold dfu_usb_reset
    rw [if_neg hv']
    dsimp only
    rw [hn, if_pos h0, if_pos (by decide)]
  · intro h0
    have hn' : dfu_sm_get_next_state w.dfu_state DFU_EV_USB_RESET 0 =
        (if w.dfu_state = DFU_STATE_appDETACH then DFU_STATE_dfuIDLE
          else DFU_STATE_dfuERROR) := by
      rw [hn, if_neg h0]
    have hnn : ¬ dfu_sm_get_next_state w.dfu_state DFU_EV_USB_RESET 0 < 0 := by
      rw [hn']
      split_ifs <;> decide
    have hcommit : commit_state (usb_issue w UsbCall.usb_reset)
        (dfu_sm_get_next_state w.dfu_state DFU_EV_USB_RESET 0) =
        (0, { usb_issue w UsbCall.usb_reset with
          dfu_state := dfu_sm_get_next_state w.dfu_state DFU_EV_USB_RESET 0 }) := by
      have key : (usb_issue w UsbCall.usb_reset).dfu_state = w.dfu_state := rfl
      unfold commit_state
      rw [key, hc h0]
    refine ⟨?_, ?_, ?_⟩
    · unfold dfu_usb_reset
      rw [if_neg hv']
      dsimp only
      rw [if_neg hnn]
      unfold _usb_dfu10_usb_reset
      dsimp only
      split_ifs <;> rfl
    · intro hok
      unfold dfu_usb_reset
      rw [if_neg hv']
      dsimp only
      rw [if_neg hnn]
      unfold _usb_dfu10_usb_reset
      dsimp only
      rw [if_neg hok]
      dsimp only
      rw [if_neg (by decide : ¬ (0 : Int) < 0), hcommit]
      refine ⟨rfl, hn', ?_⟩
      show dfu_sm_get_next_state w.dfu_state DFU_EV_USB_RESET 0 ≠ _
      rw [hn']
      split_ifs <;> decide
    · intro hfail
      unfold dfu_usb_reset
      rw [if_neg hv']
      dsimp only
      rw [if_neg hnn]
      unfold _usb_dfu10_usb_reset
      dsimp only
      rw [if_pos hfail]
      dsimp only
      rw [if_pos (by decide : (-1 : Int) < 0)]
      exact ⟨rfl, rfl⟩

/-- C39 at the end of a download: from `dfuMANIFEST_WAIT_RESET` a bus reset that works
commits `dfuERROR`. -/
theorem C39_usb_reset_commits_witness :
    (dfu_usb_reset (sample_world DFU_STATE_dfuMANIFEST_WAIT_RESET 0
      (constant_replies 0 0))).2.dfu_state = DFU_STATE_dfuERROR :=
  (((C39_usb_reset_commits
    (sample_world DFU_STATE_dfuMANIFEST_WAIT_RESET 0 (constant_replies 0 0))
    (by decide) (by decide)).2 (by decide)).2.1 (by decide)).2.1

/-- Committing the next state of GETSTATE leaves every valid state but `dfuDNBUSY` and
`dfuMANIFEST` as it is; from these two it gives `dfuERROR`. -/
theorem getstate_commit (s : Int) (hs : 0 ≤ s ∧ s ≤ 10) :
    (dfu_sm_set_state_checked s (dfu_sm_get_next_state s DFU_EV_GETSTATE 0)).2 =
      (if s = DFU_STATE_dfuDNBUSY ∨ s = DFU_STATE_dfuMANIFEST then DFU_STATE_dfuERROR
        else s) := by
  obtain ⟨a, b⟩ := hs
  interval_cases s <;> decide

/-- C40 (counterexample): `dfu_abort` on an initialised handle in `dfuDNBUSY`, the ABORT
transfer succeeding and the device answering GETSTATE with `dfuDNBUSY`. The nested
`dfu_get_state` of `_dfu_state_verify` commits `dfuERROR`, the verification then finds
the device state different from the expected one, and `dfu_abort` returns `-1` with
the tracked state `dfuERROR`, not `dfuDNBUSY`. -/
theorem C40_counterexample_abort_in_dnbusy :
    (dfu_abort (sample_world DFU_STATE_dfuDNBUSY 0 (constant_replies 1 4))).1 = -1 ∧
    (dfu_abort (sample_world DFU_STATE_dfuDNBUSY 0 (constant_replies 1 4))).2.dfu_state =
      DFU_STATE_dfuERROR ∧
    _dfu_verify_init (sample_world DFU_STATE_dfuDNBUSY 0 (constant_replies 1 4)) = 0 := by
  decide

/-- C40 (amended): for every handle, every valid starting state and every outcome of the
USB calls: when `dfu_download`, `dfu_get_status`, `dfu_get_state`, `dfu_usb_reset` or
`dfu_status_poll_timeout` returns an error, the tracked state is as before the call; so
it is when `dfu_detach`, `dfu_upload`, `dfu_clear_status` or `dfu_abort` returns an
error in a state other than `dfuDNBUSY` and `dfuMANIFEST`, a failed verification by
GETSTATE included. In `dfuDNBUSY` and `dfuMANIFEST` these four leave on error either
the state as before or `dfuERROR`, which the nested `dfu_get_state` commits. -/
theorem C40_failure_atomicity (w : World)
    (hs : 0 ≤ w.dfu_state ∧ w.dfu_state < dfu_state_count) :
    (∀ l d, (dfu_download w l d).1 < 0 → (dfu_download w l d).2.dfu_state = w.dfu_state) ∧
    (∀ st, (dfu_get_status w st).1 < 0 →
      (dfu_get_status w st).2.2.dfu_state = w.dfu_state) ∧
    ((dfu_get_state w).1 < 0 → (dfu_get_state w).2.dfu_state = w.dfu_state) ∧
    ((dfu_usb_reset w).1 < 0 → (dfu_usb_reset w).2.dfu_state = w.dfu_state) ∧
    (∀ t, (dfu_status_poll_timeout w t).1 < 0 →
      (dfu_status_poll_timeout w t).2.dfu_state = w.dfu_state) ∧
    (w.dfu_state ≠ DFU_STATE_dfuDNBUSY → w.dfu_state ≠ DFU_STATE_dfuMANIFEST →
      (∀ t, (dfu_detach w t).1 < 0 → (dfu_detach w t).2.dfu_state = w.dfu_state) ∧
      (∀ l d, (dfu_upload w l d).1 < 0 → (dfu_upload w l d).2.2.dfu_state = w.dfu_state) ∧
      ((dfu_clear_status w).1 < 0 → (dfu_clear_status w).2.dfu_state = w.dfu_state) ∧
      ((dfu_abort w).1 < 0 → (dfu_abort w).2.dfu_state = w.dfu_state)) ∧
    ((w.dfu_state = DFU_STATE_dfuDNBUSY ∨ w.dfu_state = DFU_STATE_dfuMANIFEST) →
      (∀ t, (dfu_detach w t).1 < 0 → (dfu_detach w t).2.dfu_state = w.dfu_state ∨
        (dfu_detach w t).2.dfu_state = DFU_STATE_dfuERROR) ∧
      (∀ l d, (dfu_upload w l d).1 < 0 → (dfu_upload w l d).2.2.dfu_state = w.dfu_state ∨
        (dfu_upload w l d).2.2.dfu_state = DFU_STATE_dfuERROR) ∧
      ((dfu_clear_status w).1 < 0 → (dfu_clear_status w).2.dfu_state = w.dfu_state ∨
        (dfu_clear_status w).2.dfu_state = DFU_STATE_dfuERROR) ∧
      ((dfu_abort w).1 < 0 → (dfu_abort w).2.dfu_state = w.dfu_state ∨
        (dfu_abort w).2.dfu_state = DFU_STATE_dfuERROR)) := by
  have hs' : 0 ≤ w.dfu_state ∧ w.dfu_state ≤ 10 := by
    obtain ⟨a, b⟩ := hs
    simp only [dfu_state_count] at b
    omega
  have hg := getstate_commit w.dfu_state hs'
  obtain ⟨d1, d2, d3, d4⟩ := simple_ops_effect w
  obtain ⟨e1, e2, e3⟩ := verified_ops_effect w
  refine ⟨fun l d => (d1 l d).2, fun st => (d4 st).2, (get_state_effect w).2.1, d2.2,
    fun t => (d3 t).2, ?_, ?_⟩
  · intro h4 h7
    rw [if_neg (fun h => h.elim h4 h7)] at hg
    rw [hg] at e1 e2 e3
    refine ⟨fun t h => ((e1 t).2 h).elim id id, fun l d h => ?_,
      fun h => (e2.2 h).elim id id, fun h => (e3.2 h).elim id id⟩
    have := (upload_effect w l d).2 h
    rw [hg] at this
    exact this.elim id id
  · intro hb
    rw [if_pos hb] at hg
    rw [hg] at e1 e2 e3
    refine ⟨fun t h => (e1 t).2 h, fun l d h => ?_, fun h => e2.2 h, fun h => e3.2 h⟩
    have := (upload_effect w l d).2 h
    rw [hg] at this
    exact this

/-- C40 (amended) in `dfuIDLE`: `dfu_abort` fails because the device answers GETSTATE
with `dfuDNBUSY`, and the tracked state is still `dfuIDLE`. -/
theorem C40_failure_atomicity_witness :
    (dfu_abort (sample_world DFU_STATE_dfuIDLE 0 (constant_replies 1 4))).1 < 0 ∧
    (dfu_abort (sample_world DFU_STATE_dfuIDLE 0 (constant_replies 1 4))).2.dfu_state =
      DFU_STATE_dfuIDLE :=
  ⟨by decide,
    ((C40_failure_atomicity (sample_world DFU_STATE_dfuIDLE 0 (constant_replies 1 4))
      (by decide)).2.2.2.2.2.1 (by decide) (by decide)).2.2.2 (by decide)⟩

end Dfu
